/-
Verification of the ChainForensics bounded trace engine (umbrel-apps /
chainforensics): a shallow embedding, in Lean 4 over Mathlib, of the
CoinJoin classifier (app/core/coinjoin.py, app/config.py), the UTXO
tracer and peeling-chain detector (app/core/tracer.py), the KYC privacy
tracer (app/core/kyc_trace.py) and the exchange-proximity analyzer
(app/core/privacy_analysis.py), together with theorems settling the
spec's claims about them.

Modelling conventions, used uniformly below:
- Python floats are modelled as exact rationals (ℚ); `round(x, n)` is
  modelled as rounding to the nearest multiple of 10⁻ⁿ (Python uses
  banker's rounding on binary floats; every constant below is an exact
  decimal, where the two agree except on exact ties).
- `int(x)` on the nonnegative amounts that occur here equals ⌊x⌋.
- Satoshi amounts are ℤ, indices/depths are ℕ.
- Blocking I/O (Bitcoin Core RPC, Fulcrum/Electrs) is an explicit
  environment of pure functions; the per-session transaction caches are
  semantically transparent (the RPC contract is idempotent) and are not
  modelled.  Wall-clock timeout checks, log statements and progress
  callbacks are not modelled; the datetime-valued `block_time` fields,
  and result fields holding only printf-formatted diagnostic text
  (`reasoning`, `summary`, `recommendations` of the kyc result,
  `heuristics_matched`/`details` of the detection result,
  `explanation`/`confidence_factors` of the peeling result,
  `path_quality_factors` entries built from floats) are omitted.
- The unbounded `while` loops are written as fuel-indexed recursion; the
  theorems below quantify over the fuel, so they hold in particular for
  the fuel at which the Python loop (which terminates through its
  transaction-count and queue caps) exits.
-/
import Mathlib

namespace ChainForensics

/-! ### Numeric helpers -/

/-- Python `round(q, digits)` on the exact rationals of this model. -/
def pyRound (digits : Nat) (q : ℚ) : ℚ :=
  (round (q * 10 ^ digits) : ℤ) / 10 ^ digits

/-- `round(v, 8)`: all output values are compared after rounding to 8 decimals. -/
def round8 (q : ℚ) : ℚ := pyRound 8 q

/-- `int(value * 100_000_000)`: BTC amount to satoshis (truncation = floor on
the nonnegative amounts that occur). -/
def satsOf (q : ℚ) : ℤ := ⌊q * 100000000⌋

/-- The largest multiplicity among the values of a list: Python
`max(Counter(values).values())`, `0` on the empty list. -/
def maxEqualCount (values : List ℚ) : Nat :=
  (values.map fun v => values.count v).foldr max 0

/-- Python `max(value_counts.keys(), key=lambda k: value_counts[k])`: the first
value, in first-occurrence order, whose multiplicity is maximal. -/
def firstMaxCountValue (values : List ℚ) : Option ℚ :=
  values.eraseDups.find? fun v => values.count v = maxEqualCount values

/-! ### Transaction model

A decoded `getrawtransaction` result, restricted to the keys the traced
code reads.  `height` stands for `tx.get("blockheight") or tx.get("height")`
(the code only ever reads the combined value). -/

/-- The `prevout` annotation of an input (`vin["prevout"]`). -/
structure Prevout where
  value : Option ℚ
  address : Option String
  scriptType : Option String
deriving DecidableEq, Repr

/-- One transaction input (`vin` entry).  `hasCoinbase` is presence of the
`"coinbase"` key; `value` is the optional top-level `"value"` key read by
`TransactionStats.from_transaction`. -/
structure TxIn where
  hasCoinbase : Bool := false
  txid : Option String := none
  vout : Option Nat := none
  sequence : Option Nat := none
  value : Option ℚ := none
  prevout : Option Prevout := none
deriving DecidableEq, Repr

/-- One transaction output (`vout` entry); `value` is in BTC. -/
structure TxOut where
  value : ℚ
  address : Option String := none
  scriptType : Option String := none
deriving DecidableEq, Repr

/-- A decoded transaction. -/
structure Tx where
  txid : String
  vin : List TxIn
  vout : List TxOut
  height : Option ℤ := none
deriving DecidableEq, Repr

/-! ### CoinJoin classifier — app/core/coinjoin.py with app/config.py -/

/-- `COINJOIN_CONFIGS["whirlpool"]["denominations"]`. -/
def whirlpoolDenominations : List ℚ := [1/1000, 1/100, 1/20, 1/2]

/-- `COINJOIN_CONFIGS["whirlpool"]["tolerance"]`. -/
def whirlpoolTolerance : ℚ := 1/10000

/-- `COINJOIN_CONFIGS["wasabi"]["min_equal_outputs"]`. -/
def wasabiMinEqualOutputs : Nat := 10

/-- `COINJOIN_CONFIGS["joinmarket"]["min_inputs"]`. -/
def joinmarketMinInputs : Nat := 3

/-- `COINJOIN_CONFIGS["joinmarket"]["min_outputs"]`. -/
def joinmarketMinOutputs : Nat := 4

/-- Enum `CoinJoinProtocol`. -/
inductive CoinJoinProtocol where
  | none
  | whirlpool
  | wasabi_v1
  | wasabi_v2
  | joinmarket
  | payjoin
  | unknown_coinjoin
deriving DecidableEq, Repr

/-- `DetectionResult` (the string-diagnostic fields `heuristics_matched`,
`heuristics_failed` and `details` are omitted). -/
structure DetectionResult where
  txid : String
  score : ℚ
  protocol : CoinJoinProtocol
  confidence : ℚ
deriving DecidableEq, Repr

/-- `TransactionStats`. -/
structure TransactionStats where
  inputCount : Nat
  outputCount : Nat
  uniqueInputValues : Nat
  uniqueOutputValues : Nat
  maxEqualOutputs : Nat
  equalOutputValue : Option ℚ
  totalInputValue : ℚ
  totalOutputValue : ℚ
  outputValues : List ℚ
  inputValues : List ℚ
  outputScriptTypes : List String
  inputScriptTypes : List String
  isCoinbase : Bool
deriving DecidableEq, Repr

/-- `TransactionStats.from_transaction`. -/
def TransactionStats.fromTransaction (tx : Tx) : TransactionStats :=
  let vins := tx.vin
  let vouts := tx.vout
  let outputValues := vouts.map (·.value)
  let inputValues := vins.filterMap (·.value)
  let rounded := outputValues.map round8
  let maxEqual := maxEqualCount rounded
  { inputCount := vins.length
    outputCount := vouts.length
    uniqueInputValues :=
      if inputValues = [] then 0 else ((inputValues.map round8).eraseDups).length
    uniqueOutputValues := rounded.eraseDups.length
    maxEqualOutputs := maxEqual
    equalOutputValue := if 2 ≤ maxEqual then firstMaxCountValue rounded else none
    totalInputValue := inputValues.sum
    totalOutputValue := outputValues.sum
    outputValues := outputValues
    inputValues := inputValues
    outputScriptTypes := vouts.map fun o => o.scriptType.getD "unknown"
    inputScriptTypes :=
      vins.map fun i => ((i.prevout.map fun p => p.scriptType.getD "unknown").getD "unknown")
    isCoinbase := vins.any (·.hasCoinbase) }

/-- `CoinJoinDetector._detect_whirlpool`, restricted to (score, confidence).
When `max_equal_outputs = 5` the option `equal_output_value` is always
populated, so the `getD 0` default is never read. -/
def detectWhirlpool (stats : TransactionStats) : ℚ × ℚ :=
  if stats.outputCount = 5 then
    if stats.maxEqualOutputs = 5 then
      let equalValue := stats.equalOutputValue.getD 0
      if whirlpoolDenominations.any fun denom => |equalValue - denom| < whirlpoolTolerance then
        (95/100, 95/100)
      else
        (80/100, 70/100)
    else (1/10, 3/10)
  else (0, 0)

/-- `CoinJoinDetector._detect_wasabi_v1`, restricted to (score, confidence). -/
def detectWasabiV1 (stats : TransactionStats) : ℚ × ℚ :=
  if wasabiMinEqualOutputs ≤ stats.maxEqualOutputs then
    (min (85/100) (1/2 + (stats.maxEqualOutputs - 10 : ℕ) * (5/100)),
     min (9/10) (6/10 + (stats.maxEqualOutputs - 10 : ℕ) * (3/100)))
  else (0, 0)

/-- `CoinJoinDetector._detect_wasabi_v2`, restricted to (score, confidence). -/
def detectWasabiV2 (stats : TransactionStats) : ℚ × ℚ :=
  if stats.inputCount < 10 then (0, 0)
  else if stats.outputCount < 10 then (0, 0)
  else
    let baseScore : ℚ := 1/2 + min (2/10) ((stats.inputCount - 10 : ℕ) * (2/100))
    let confidence : ℚ := 4/10 + min (25/100) ((stats.inputCount - 10 : ℕ) * (2/100))
    if 5 ≤ stats.maxEqualOutputs then (baseScore + 1/10, confidence + 1/10)
    else (baseScore, confidence)

/-- `CoinJoinDetector._detect_joinmarket`, restricted to (score, confidence). -/
def detectJoinmarket (stats : TransactionStats) : ℚ × ℚ :=
  if stats.inputCount < joinmarketMinInputs then (0, 0)
  else if stats.outputCount < joinmarketMinOutputs then (1/10, 2/10)
  else if stats.maxEqualOutputs < 2 then (2/10, 3/10)
  else if (stats.uniqueOutputValues : ℚ) ≤ (stats.outputCount : ℚ) / 2 then
    (6/10 + 1/10, 55/100 + 1/10)
  else (6/10, 55/100)

/-- `CoinJoinDetector._detect_payjoin`, restricted to (score, confidence). -/
def detectPayjoin (stats : TransactionStats) : ℚ × ℚ :=
  let uniqueScriptTypes := stats.inputScriptTypes.eraseDups.length
  if 2 ≤ uniqueScriptTypes ∧ 2 ≤ stats.inputCount ∧ stats.inputCount ≤ 5 then
    if 2 ≤ stats.outputCount ∧ stats.outputCount ≤ 4 then (4/10, 35/100)
    else (1/10, 2/10)
  else (0, 0)

/-- `CoinJoinDetector._detect_generic_coinjoin`. -/
def detectGenericCoinjoin (stats : TransactionStats) : ℚ × ℚ :=
  let score : ℚ :=
    (if 5 ≤ stats.maxEqualOutputs then 3/10
     else if 3 ≤ stats.maxEqualOutputs then 15/100 else 0)
    + (if 5 ≤ stats.inputCount then 2/10
       else if 3 ≤ stats.inputCount then 1/10 else 0)
    + (if 10 ≤ stats.outputCount then 2/10
       else if 5 ≤ stats.outputCount then 1/10 else 0)
    + (if 0 < stats.outputCount then
        let uniquenessRatio : ℚ := (stats.uniqueOutputValues : ℚ) / (stats.outputCount : ℚ)
        if uniquenessRatio < 3/10 then 2/10
        else if uniquenessRatio < 1/2 then 1/10 else 0
      else 0)
  (score, min (7/10) score)

/-- The protocol-detector pass of `CoinJoinDetector.analyze_transaction`:
run the five detectors in order and keep the strictly best score. -/
def bestProtocolResult (stats : TransactionStats) : CoinJoinProtocol × ℚ × ℚ :=
  let results : List (CoinJoinProtocol × ℚ × ℚ) :=
    [(.whirlpool, detectWhirlpool stats),
     (.wasabi_v1, detectWasabiV1 stats),
     (.wasabi_v2, detectWasabiV2 stats),
     (.joinmarket, detectJoinmarket stats),
     (.payjoin, detectPayjoin stats)]
  results.foldl
    (fun best r => if best.2.1 < r.2.1 then r else best)
    (.none, 0, 0)

/-- `CoinJoinDetector.analyze_transaction` (= the exported `classify_coinjoin`
operation). -/
def analyzeTransaction (tx : Tx) : DetectionResult :=
  let stats := TransactionStats.fromTransaction tx
  if stats.isCoinbase then
    { txid := tx.txid, score := 0, protocol := .none, confidence := 1 }
  else
    let best := bestProtocolResult stats
    let best :=
      if best.2.1 < 1/2 then
        let generic := detectGenericCoinjoin stats
        if best.2.1 < generic.1 then
          ((if 1/2 ≤ generic.1 then CoinJoinProtocol.unknown_coinjoin else .none),
           generic.1, generic.2)
        else best
      else best
    { txid := tx.txid, score := best.2.1, protocol := best.1, confidence := best.2.2 }

/-! ### UTXO tracer — app/core/tracer.py -/

/-- Enum `UTXOStatus`. -/
inductive UTXOStatus where
  | unspent
  | spent
  | coinbase
  | unknown
deriving DecidableEq, Repr

/-- `UTXONode` (`block_time` omitted, see the header). -/
structure UTXONode where
  txid : String
  vout : Nat
  valueSats : ℤ
  address : Option String
  scriptType : String
  status : UTXOStatus
  blockHeight : Option ℤ
  spentByTxid : Option String := none
  spentByVin : Option Nat := none
  depth : Nat := 0
  coinjoinScore : ℚ := 0
deriving DecidableEq, Repr

/-- `TraceEdge`. -/
structure TraceEdge where
  fromTxid : String
  fromVout : Nat
  toTxid : String
  toVin : Nat
  valueSats : ℤ
deriving DecidableEq, Repr

/-- `TraceResult` (`execution_time_ms` omitted). -/
structure TraceResult where
  startTxid : String
  startVout : Nat
  direction : String
  maxDepth : Nat
  nodes : List UTXONode := []
  edges : List TraceEdge := []
  unspentEndpoints : List UTXONode := []
  coinbaseOrigins : List UTXONode := []
  coinjoinTxids : List String := []
  totalTransactions : Nat := 0
  totalValueTracedSats : ℤ := 0
  warnings : List String := []
  hitLimit : Bool := false
  electrsEnabled : Bool := false
deriving DecidableEq, Repr

/-- `UTXOTracer.MAX_TRANSACTIONS_PER_TRACE`. -/
def MAX_TRANSACTIONS_PER_TRACE : Nat := 200

/-- `UTXOTracer.MAX_QUEUE_SIZE` (= `KYCPrivacyTracer.MAX_QUEUE_SIZE`). -/
def MAX_QUEUE_SIZE : Nat := 1000

/-- `MAX_CONSECUTIVE_ELECTRS_FAILURES` (same value in both tracer classes). -/
def MAX_CONSECUTIVE_ELECTRS_FAILURES : Nat := 3

/-- `settings.DEFAULT_TRACE_DEPTH` (env default). -/
def DEFAULT_TRACE_DEPTH : Nat := 10

/-- `settings.MAX_TRACE_DEPTH` (env default). -/
def MAX_TRACE_DEPTH : Nat := 50

/-- `UTXOTracer._calculate_coinjoin_score_fast`.  The local
`whirlpool_denoms = [0.001, 0.01, 0.05, 0.5]` equals `whirlpoolDenominations`. -/
def calcCoinjoinScoreFast (tx : Tx) : ℚ :=
  let vouts := tx.vout
  let vins := tx.vin
  if vouts.length < 2 then 0
  else
    let values := vouts.map fun out => round8 out.value
    if values = [] then 0
    else
      let maxEqual := maxEqualCount values
      let numOutputs := vouts.length
      let numInputs := vins.length
      if numOutputs = 5 ∧ maxEqual = 5 then
        let equalValue := (firstMaxCountValue values).getD 0
        if whirlpoolDenominations.any fun d => |equalValue - d| < 1/10000 then 95/100
        else 85/100
      else if 10 ≤ maxEqual then 85/100
      else if 5 ≤ maxEqual ∧ 3 ≤ numInputs then 7/10
      else if 3 ≤ maxEqual ∧ 2 ≤ numInputs then 4/10
      else
        let uniqueRatio : ℚ := (values.eraseDups.length : ℚ) / (numOutputs : ℚ)
        if uniqueRatio < 3/10 ∧ 5 ≤ numOutputs then 1/2 else 0

/-- The external collaborators of a trace run: Bitcoin Core RPC
(`get_raw_transaction`, `get_tx_out`) and the Fulcrum/Electrs address index
(`_find_spending_tx_electrs`); `electrsEnabled` is whether the Electrs client
is configured at all.  `getTxOut t v = true` means the RPC returned a value
(the output is unspent). -/
structure TraceEnv where
  getTx : String → Option Tx
  getTxOut : String → Nat → Bool
  findSpendingTx : String → Nat → String → Option String
  electrsEnabled : Bool
deriving Inhabited

/-- The mutable locals of one `trace_forward` run. -/
structure ForwardState where
  result : TraceResult
  queue : List (String × Nat × Nat)
  visited : List (String × Nat)
  txCount : Nat := 0
  consecutiveElectrsFailures : Nat := 0
  electrsDisabled : Bool := false
  electrsLookupCount : Nat := 0
  electrsSuccessCount : Nat := 0
deriving DecidableEq, Repr

/-- The body of the `trace_forward` BFS loop, from the dequeue of one
`(txid, vout, depth)` item on (the item has already been removed from
`s.queue`). -/
def tfStep (env : TraceEnv) (maxDepth : Nat) (item : String × Nat × Nat)
    (s : ForwardState) : ForwardState :=
  let (currentTxid, currentVout, depth) := item
  if (currentTxid, currentVout) ∈ s.visited then s
  else
    let s := { s with visited := (currentTxid, currentVout) :: s.visited }
    if maxDepth < depth then
      { s with result.warnings := s.result.warnings
          ++ ["Depth limit reached at " ++ currentTxid ++ ":" ++ toString currentVout] }
    else
      match env.getTx currentTxid with
      | none =>
          { s with result.warnings := s.result.warnings
              ++ ["Transaction not found: " ++ currentTxid] }
      | some tx =>
          let s := { s with txCount := s.txCount + 1 }
          if hv : currentVout < tx.vout.length then
            let output := tx.vout[currentVout]
            let valueSats := satsOf output.value
            let address := output.address
            let scriptType := output.scriptType.getD "unknown"
            let blockHeight := tx.height
            let cjScore := calcCoinjoinScoreFast tx
            let s :=
              if 7/10 < cjScore ∧ currentTxid ∉ s.result.coinjoinTxids then
                { s with result.coinjoinTxids := s.result.coinjoinTxids ++ [currentTxid] }
              else s
            if env.getTxOut currentTxid currentVout then
              let node : UTXONode :=
                { txid := currentTxid, vout := currentVout, valueSats := valueSats
                  address := address, scriptType := scriptType, status := .unspent
                  blockHeight := blockHeight, depth := depth, coinjoinScore := cjScore }
              { s with
                  result.nodes := s.result.nodes ++ [node]
                  result.unspentEndpoints := s.result.unspentEndpoints ++ [node]
                  result.totalValueTracedSats := s.result.totalValueTracedSats + valueSats }
            else
              let afterLookup : ForwardState × Option String × Option Nat :=
                if env.electrsEnabled ∧ address.isSome ∧ depth < maxDepth
                    ∧ ¬ s.electrsDisabled then
                  let s := { s with electrsLookupCount := s.electrsLookupCount + 1 }
                  match env.findSpendingTx currentTxid currentVout (address.getD "") with
                  | some spendingTxid =>
                      let s := { s with
                          electrsSuccessCount := s.electrsSuccessCount + 1
                          consecutiveElectrsFailures := 0 }
                      match env.getTx spendingTxid with
                      | some spendingTx =>
                          let spendingVin := spendingTx.vin.findIdx? fun vin =>
                            vin.txid = some currentTxid && vin.vout = some currentVout
                          let s := { s with result.edges := s.result.edges ++
                              [({ fromTxid := currentTxid, fromVout := currentVout
                                  toTxid := spendingTxid, toVin := spendingVin.getD 0
                                  valueSats := valueSats } : TraceEdge)] }
                          let newItems : List (String × Nat × Nat) :=
                            (List.range spendingTx.vout.length).filterMap fun outIdx =>
                              if s.visited.contains (spendingTxid, outIdx) then none
                              else some (spendingTxid, outIdx, depth + 1)
                          ({ s with queue := s.queue ++ newItems }, some spendingTxid, spendingVin)
                      | none => (s, some spendingTxid, none)
                  | none =>
                      let failures := s.consecutiveElectrsFailures + 1
                      let s := { s with consecutiveElectrsFailures := failures }
                      let s :=
                        if MAX_CONSECUTIVE_ELECTRS_FAILURES ≤ failures then
                          { s with
                              electrsDisabled := true
                              result.warnings := s.result.warnings
                                ++ ["Electrs disabled after " ++ toString failures
                                    ++ " consecutive failures - continuing without forward tracing"] }
                        else s
                      (s, none, none)
                else (s, none, none)
              let s := afterLookup.1
              let node : UTXONode :=
                { txid := currentTxid, vout := currentVout, valueSats := valueSats
                  address := address, scriptType := scriptType, status := .spent
                  blockHeight := blockHeight
                  spentByTxid := afterLookup.2.1, spentByVin := afterLookup.2.2
                  depth := depth, coinjoinScore := cjScore }
              { s with
                  result.nodes := s.result.nodes ++ [node]
                  result.totalValueTracedSats := s.result.totalValueTracedSats + valueSats }
          else
            { s with result.warnings := s.result.warnings
                ++ ["Invalid vout " ++ toString currentVout ++ " for tx " ++ currentTxid] }

/-- The `trace_forward` BFS loop (`while queue and tx_count < 200`), as
fuel-indexed recursion; the wall-clock timeout check at the head of each
iteration is not modelled. -/
def tfLoop (env : TraceEnv) (maxDepth : Nat) : Nat → ForwardState → ForwardState
  | 0, s => s
  | fuel + 1, s =>
      if s.queue ≠ [] ∧ s.txCount < MAX_TRANSACTIONS_PER_TRACE then
        let s :=
          if MAX_QUEUE_SIZE < s.queue.length then
            { s with
                result.warnings := s.result.warnings ++ ["Queue size exceeded 1000, truncating"]
                result.hitLimit := true
                queue := s.queue.take MAX_QUEUE_SIZE }
          else s
        match s.queue with
        | [] => s
        | item :: rest => tfLoop env maxDepth fuel (tfStep env maxDepth item { s with queue := rest })
      else s

/-- `UTXOTracer.trace_forward` (the caller passing `max_depth=None` gets the
`DEFAULT_TRACE_DEPTH` of the settings). -/
def traceForward (env : TraceEnv) (txid : String) (vout : Nat)
    (maxDepth : Option Nat) (fuel : Nat) : TraceResult :=
  let maxDepth := min (maxDepth.getD DEFAULT_TRACE_DEPTH) MAX_TRACE_DEPTH
  let result0 : TraceResult :=
    { startTxid := txid, startVout := vout, direction := "forward", maxDepth := maxDepth
      electrsEnabled := env.electrsEnabled
      warnings :=
        if env.electrsEnabled then []
        else ["Electrs not available - forward tracing limited. Can identify spent UTXOs but cannot follow to spending transaction."] }
  let s : ForwardState := { result := result0, queue := [(txid, vout, 0)], visited := [] }
  let s := tfLoop env maxDepth fuel s
  let s :=
    if MAX_TRANSACTIONS_PER_TRACE ≤ s.txCount then
      { s with
          result.warnings := s.result.warnings ++ ["Transaction limit (200) reached"]
          result.hitLimit := true }
    else s
  { s.result with totalTransactions := s.txCount }

/-- The mutable locals of one `trace_backward` run. -/
structure BackwardState where
  result : TraceResult
  queue : List (String × Nat)
  visited : List String
  txCount : Nat := 0
deriving DecidableEq, Repr

/-- The body of the `trace_backward` BFS loop, from the dequeue of one
`(txid, depth)` item on. -/
def tbStep (env : TraceEnv) (maxDepth : Nat) (item : String × Nat)
    (s : BackwardState) : BackwardState :=
  let (currentTxid, depth) := item
  if currentTxid ∈ s.visited then s
  else
    let s := { s with visited := currentTxid :: s.visited }
    if maxDepth < depth then
      { s with result.warnings := s.result.warnings
          ++ ["Depth limit reached at " ++ currentTxid] }
    else
      match env.getTx currentTxid with
      | none =>
          { s with result.warnings := s.result.warnings
              ++ ["Transaction not found: " ++ currentTxid] }
      | some tx =>
          let s := { s with txCount := s.txCount + 1 }
          let blockHeight := tx.height
          if tx.vin.any (·.hasCoinbase) then
            let totalValue := (tx.vout.map fun out => satsOf out.value).sum
            let coinbaseAddress := tx.vout.head?.bind (·.address)
            let node : UTXONode :=
              { txid := currentTxid, vout := 0, valueSats := totalValue
                address := coinbaseAddress, scriptType := "coinbase", status := .coinbase
                blockHeight := blockHeight, depth := depth }
            { s with
                result.nodes := s.result.nodes ++ [node]
                result.coinbaseOrigins := s.result.coinbaseOrigins ++ [node] }
          else
            let cjScore := calcCoinjoinScoreFast tx
            let s :=
              if 7/10 < cjScore ∧ currentTxid ∉ s.result.coinjoinTxids then
                { s with result.coinjoinTxids := s.result.coinjoinTxids ++ [currentTxid] }
              else s
            let s :=
              if depth < maxDepth then
                tx.vin.foldl
                  (fun s vin =>
                    match vin.txid with
                    | none => s
                    | some prevTxid =>
                        let s := { s with result.edges := s.result.edges ++
                            [({ fromTxid := prevTxid, fromVout := vin.vout.getD 0
                                toTxid := currentTxid, toVin := vin.sequence.getD 0
                                valueSats := 0 } : TraceEdge)] }
                        if prevTxid ∉ s.visited then
                          { s with queue := s.queue ++ [(prevTxid, depth + 1)] }
                        else s)
                  s
              else s
            let totalOutput := (tx.vout.map fun out => satsOf out.value).sum
            let largest := tx.vout.foldl
              (fun acc out =>
                match acc with
                | none => some out
                | some a => if a.value < out.value then some out else some a)
              none
            let txAddress := largest.bind (·.address)
            let txScriptType := (largest.map fun o => o.scriptType.getD "transaction").getD "transaction"
            let node : UTXONode :=
              { txid := currentTxid, vout := 0, valueSats := totalOutput
                address := txAddress, scriptType := txScriptType, status := .spent
                blockHeight := blockHeight, depth := depth, coinjoinScore := cjScore }
            { s with
                result.nodes := s.result.nodes ++ [node]
                result.totalValueTracedSats := s.result.totalValueTracedSats + totalOutput }

/-- The `trace_backward` BFS loop. -/
def tbLoop (env : TraceEnv) (maxDepth : Nat) : Nat → BackwardState → BackwardState
  | 0, s => s
  | fuel + 1, s =>
      if s.queue ≠ [] ∧ s.txCount < MAX_TRANSACTIONS_PER_TRACE then
        let s :=
          if MAX_QUEUE_SIZE < s.queue.length then
            { s with
                result.warnings := s.result.warnings ++ ["Queue size exceeded 1000, truncating"]
                result.hitLimit := true
                queue := s.queue.take MAX_QUEUE_SIZE }
          else s
        match s.queue with
        | [] => s
        | item :: rest => tbLoop env maxDepth fuel (tbStep env maxDepth item { s with queue := rest })
      else s

/-- `UTXOTracer.trace_backward`. -/
def traceBackward (env : TraceEnv) (txid : String) (maxDepth : Option Nat)
    (fuel : Nat) : TraceResult :=
  let maxDepth := min (maxDepth.getD DEFAULT_TRACE_DEPTH) MAX_TRACE_DEPTH
  let result0 : TraceResult :=
    { startTxid := txid, startVout := 0, direction := "backward", maxDepth := maxDepth
      electrsEnabled := env.electrsEnabled }
  let s : BackwardState := { result := result0, queue := [(txid, 0)], visited := [] }
  let s := tbLoop env maxDepth fuel s
  let s :=
    if MAX_TRANSACTIONS_PER_TRACE ≤ s.txCount then
      { s with
          result.warnings := s.result.warnings ++ ["Transaction limit (200) reached"]
          result.hitLimit := true }
    else s
  { s.result with totalTransactions := s.txCount }

/-! ### Peeling-chain detector — `UTXOTracer.detect_peeling_chain` -/

/-- The returned dictionary of `detect_peeling_chain`, restricted to its
non-diagnostic fields (`confidence` is kept unrounded: the serialization
rounds it to 3 decimals, the identity on the multiples of 1/20 produced
here). -/
structure PeelingResult where
  isPeelingChain : Bool
  chainLength : Nat
  transactions : List String
  confidence : ℚ
  totalPeeledSats : ℤ
  remainingSats : ℤ
  paymentAmountsSats : List ℤ
  privacyImpact : String
deriving DecidableEq, Repr

/-- `spend_map[key]` where the map is built by inserting every edge keyed on
`(from_txid, from_vout)`: the last edge with the key wins. -/
def spendMapLookup (edges : List TraceEdge) (key : String × Nat) : Option TraceEdge :=
  (edges.filter fun e => e.fromTxid == key.1 && e.fromVout == key.2).getLast?

/-- `node_map[key]`, built like `spendMapLookup` from the node list. -/
def nodeMapLookup (nodes : List UTXONode) (key : String × Nat) : Option UTXONode :=
  (nodes.filter fun n => n.txid == key.1 && n.vout == key.2).getLast?

/-- The chain-walking `while` loop of `detect_peeling_chain`.  Returns the
collected chain transaction ids, the payment amounts and the final
`current_key`.  The loop body bounds the chain at 21 entries (the safety
break fires once `len(chain_txids) > 20`), so any fuel of at least 22
computes the loop exactly; `detectPeelingChain` passes 25. -/
def peelWalk (tr : TraceResult) :
    Nat → (String × Nat) → List (String × Nat) → List String → List ℤ →
    List String × List ℤ × (String × Nat)
  | 0, cur, _, chain, payments => (chain, payments, cur)
  | fuel + 1, cur, visited, chain, payments =>
      match spendMapLookup tr.edges cur with
      | none => (chain, payments, cur)
      | some edge =>
          if cur ∈ visited then (chain, payments, cur)
          else
            let visited := cur :: visited
            let spendingTxid := edge.toTxid
            let chain := chain ++ [spendingTxid]
            let spendingOutputs := tr.nodes.filter fun n => n.txid == spendingTxid
            if spendingOutputs = [] then (chain, payments, cur)
            else
              let sortedOutputs :=
                spendingOutputs.mergeSort fun a b => decide (a.valueSats ≤ b.valueSats)
              if 2 ≤ sortedOutputs.length then
                match sortedOutputs.head?, sortedOutputs.getLast? with
                | some payment, some change =>
                    let payments := payments ++ [payment.valueSats]
                    let cur := (change.txid, change.vout)
                    if 20 < chain.length then (chain, payments, cur)
                    else peelWalk tr fuel cur visited chain payments
                | _, _ => (chain, payments, cur)
              else
                match sortedOutputs.head? with
                | some only => (chain, payments ++ [only.valueSats], cur)
                | none => (chain, payments, cur)

/-- Factor 2 of `detect_peeling_chain`: the payment-similarity bonus, +0.2
when strictly more than 70% of the payments lie strictly within 50% of their
average, else +0.1 strictly above 50%.  The source divides by the average
payment; an all-zero payment list would raise `ZeroDivisionError` in Python,
while here `x / 0 = 0` (the difference is unreachable from positive-valued
traces). -/
def peelSimilarityBonus (payments : List ℤ) : ℚ :=
  if payments ≠ [] then
    let avgPayment : ℚ := ((payments.map fun p => (p : ℚ)).sum) / (payments.length : ℚ)
    let similarPayments :=
      (payments.filter fun p => decide (|(p : ℚ) - avgPayment| / avgPayment < 1/2)).length
    let similarityRatio : ℚ := (similarPayments : ℚ) / (payments.length : ℚ)
    if 7/10 < similarityRatio then 2/10
    else if 1/2 < similarityRatio then 1/10
    else 0
  else 0

/-- `UTXOTracer.detect_peeling_chain`. -/
def detectPeelingChain (tr : TraceResult) : PeelingResult :=
  if tr.edges.length < 2 then
    { isPeelingChain := false, chainLength := 0, transactions := [], confidence := 0
      totalPeeledSats := 0, remainingSats := 0, paymentAmountsSats := []
      privacyImpact := "none" }
  else
    let startKey := (tr.startTxid, tr.startVout)
    if nodeMapLookup tr.nodes startKey = none then
      { isPeelingChain := false, chainLength := 0, transactions := [], confidence := 0
        totalPeeledSats := 0, remainingSats := 0, paymentAmountsSats := []
        privacyImpact := "none" }
    else
      let walk := peelWalk tr 25 startKey [] [] []
      let chainTxids := walk.1
      let payments := walk.2.1
      let currentKey := walk.2.2
      let chainLength := chainTxids.length
      if chainLength < 3 then
        { isPeelingChain := false, chainLength := chainLength, transactions := chainTxids
          confidence := 0, totalPeeledSats := payments.sum, remainingSats := 0
          paymentAmountsSats := payments, privacyImpact := "none" }
      else
        let lengthBonus : ℚ :=
          if 5 ≤ chainLength then 2/10 else if 3 ≤ chainLength then 1/10 else 0
        let confidenceScore := min (95/100) (1/2 + lengthBonus + peelSimilarityBonus payments + 1/10)
        let isPeelingChain := 6/10 ≤ confidenceScore
        let remaining : ℤ :=
          match nodeMapLookup tr.nodes currentKey with
          | some lastNode => if lastNode.status = .unspent then lastNode.valueSats else 0
          | none => 0
        let privacyImpact :=
          if isPeelingChain then (if 8/10 ≤ confidenceScore then "critical" else "high")
          else "low"
        { isPeelingChain := isPeelingChain, chainLength := chainLength
          transactions := chainTxids, confidence := confidenceScore
          totalPeeledSats := payments.sum, remainingSats := remaining
          paymentAmountsSats := payments, privacyImpact := privacyImpact }

/-! ### KYC privacy tracer — app/core/kyc_trace.py -/

/-- Enum `TrailStatus`. -/
inductive TrailStatus where
  | active
  | cold
  | deadEnd
  | depthLimit
  | lost
deriving DecidableEq, Repr

/-- Enum `ConfidenceLevel`. -/
inductive ConfidenceLevel where
  | high
  | medium
  | low
  | negligible
deriving DecidableEq, Repr

/-- `PathNode` (`block_time` omitted). -/
structure PathNode where
  txid : String
  vout : Nat
  valueSats : ℤ
  address : Option String
  blockHeight : Option ℤ
  isCoinjoin : Bool
  coinjoinScore : ℚ
  coinjoinCountInPath : Nat
  coinjoinProtocol : String
  anonymitySetSize : Nat
  depth : Nat
  isChange : Bool := false
  changeProbability : ℚ := 0
  cumulativeConfidence : ℚ := 1
deriving DecidableEq, Repr

/-- `ProbableDestination` (`reasoning` omitted). -/
structure ProbableDestination where
  address : String
  valueSats : ℤ
  confidenceScore : ℚ
  confidenceLevel : ConfidenceLevel
  pathLength : Nat
  coinjoinsPassed : Nat
  trailStatus : TrailStatus
  path : List PathNode
deriving DecidableEq, Repr

/-- `KYCTraceResult` (`summary`, `recommendations`, `execution_time_ms`
omitted). -/
structure KYCTraceResult where
  exchangeTxid : String
  destinationAddress : String
  originalValueSats : ℤ
  traceDepth : Nat
  probableDestinations : List ProbableDestination := []
  totalTracedSats : ℤ := 0
  totalUntraceableSats : ℤ := 0
  coinjoinsEncountered : Nat := 0
  overallPrivacyScore : ℚ := 0
  privacyRating : String := "unknown"
  warnings : List String := []
  electrsEnabled : Bool := false
deriving DecidableEq, Repr

/-- `KYCPrivacyTracer.MAX_DEPTH`. -/
def KYC_MAX_DEPTH : Nat := 15

/-- `KYCPrivacyTracer.MAX_TRANSACTIONS`. -/
def KYC_MAX_TRANSACTIONS : Nat := 300

/-- `KYCPrivacyTracer.COINJOIN_THRESHOLD`. -/
def COINJOIN_THRESHOLD : ℚ := 7/10

/-- `KYCPrivacyTracer.CONFIDENCE_COLD_THRESHOLD`. -/
def CONFIDENCE_COLD_THRESHOLD : ℚ := 1/20

/-- The `"depth"` entry of `DEPTH_PRESETS.get(preset, DEPTH_PRESETS["standard"])`
(the label/description/complexity entries are not read by the trace). -/
def presetDepth (depthPreset : String) : Nat :=
  if depthPreset = "quick" then 3
  else if depthPreset = "standard" then 6
  else if depthPreset = "deep" then 10
  else if depthPreset = "thorough" then 15
  else 6

/-- `KYCPrivacyTracer._calculate_coinjoin_score`. -/
def calcCoinjoinScore (tx : Tx) : ℚ :=
  if tx.vout.length < 2 then 0
  else
    let values := tx.vout.map fun out => round8 out.value
    if values = [] then 0
    else
      let maxEqual := maxEqualCount values
      let numOutputs := tx.vout.length
      let numInputs := tx.vin.length
      if numOutputs = 5 ∧ maxEqual = 5 then 95/100
      else if 10 ≤ maxEqual then 9/10
      else if 10 ≤ numInputs ∧ 10 ≤ numOutputs ∧ 5 ≤ maxEqual then 7/10
      else if 5 ≤ maxEqual ∧ 3 ≤ numInputs then 75/100
      else if 3 ≤ maxEqual ∧ 2 ≤ numInputs then 1/2
      else 0

/-- `KYCPrivacyTracer._get_coinjoin_details`. -/
def getCoinjoinDetails (tx : Tx) (coinjoinScore : ℚ) : String × Nat :=
  if coinjoinScore < COINJOIN_THRESHOLD then ("none", 0)
  else
    let values := tx.vout.map fun out => round8 out.value
    let maxEqual := maxEqualCount values
    let numOutputs := tx.vout.length
    let numInputs := tx.vin.length
    if numOutputs = 5 ∧ maxEqual = 5 then ("whirlpool", 5)
    else if 10 ≤ maxEqual then ("wasabi_v1", maxEqual)
    else if 10 ≤ numInputs ∧ 10 ≤ numOutputs then ("wasabi_v2", min numInputs numOutputs)
    else if 5 ≤ maxEqual ∧ 3 ≤ numInputs then ("joinmarket", maxEqual)
    else ("unknown", max maxEqual 2)

/-- The `protocol_multipliers` table of
`_calculate_coinjoin_confidence_degradation`, with its `.get(…, 2.5)`
default. -/
def protocolMultiplier (protocol : String) : ℚ :=
  if protocol = "whirlpool" then 15/10
  else if protocol = "wasabi_v1" then 13/10
  else if protocol = "wasabi_v2" then 18/10
  else if protocol = "joinmarket" then 2
  else 25/10

/-- `KYCPrivacyTracer._calculate_coinjoin_confidence_degradation`. -/
def calcCoinjoinConfidenceDegradation (protocol : String) (anonymitySetSize : Nat)
    (prevConfidence : ℚ) : ℚ :=
  if anonymitySetSize < 2 then prevConfidence
  else
    let baseDegradation : ℚ := 1 / (anonymitySetSize : ℚ)
    max (prevConfidence * (baseDegradation * protocolMultiplier protocol)) (1/1000)

/-- `prev_confidence = path[-1]["cumulative_confidence"] if path else 1.0`
(`trace_kyc_withdrawal`, line 929). -/
def kycPrev (path : List PathNode) : ℚ :=
  ((path.getLast?).map (·.cumulativeConfidence)).getD 1

/-- The per-hop confidence update of the `trace_kyc_withdrawal` BFS
(lines 901-942): a CoinJoin hop (score at or above `COINJOIN_THRESHOLD`)
degrades through `_calculate_coinjoin_confidence_degradation` with the
protocol and anonymity set of `_get_coinjoin_details`, any other hop decays
by the flat 0.95 factor. -/
def nodeStepConfidence (tx : Tx) (prevConfidence : ℚ) : ℚ :=
  let cjScore := calcCoinjoinScore tx
  let isCoinjoin := decide (COINJOIN_THRESHOLD ≤ cjScore)
  let details := if isCoinjoin then getCoinjoinDetails tx cjScore else ("none", 0)
  if isCoinjoin then
    calcCoinjoinConfidenceDegradation details.1 details.2 prevConfidence
  else prevConfidence * (95/100)

/-- The fields of the `_detect_unnecessary_inputs` result dictionary consumed
elsewhere (its `explanation`/percent strings are omitted; `confidence` is kept
unrounded, `round(…, 3)` being the identity on the values produced). -/
structure UnnecessaryInputsResult where
  hasUnnecessary : Bool
  unnecessaryIndices : List Nat
  minimumInputsNeeded : Nat
  totalInputsUsed : Nat
  confidence : ℚ
  likelyChangeOutput : Option Nat
deriving DecidableEq, Repr

/-- The minimum-inputs walk of `_detect_unnecessary_inputs`: accumulate the
descending-sorted input values until the target is reached. -/
def minimumInputsWalk (target : ℤ) : List (Nat × ℤ) → ℤ → Nat → Nat
  | [], _, needed => needed
  | (_, value) :: rest, cumulative, needed =>
      let cumulative := cumulative + value
      let needed := needed + 1
      if target ≤ cumulative then needed
      else minimumInputsWalk target rest cumulative needed

/-- `KYCPrivacyTracer._detect_unnecessary_inputs` (its unused
`payment_output_idx` parameter is dropped). -/
def detectUnnecessaryInputs (tx : Tx) : UnnecessaryInputsResult :=
  let vins := tx.vin
  let vouts := tx.vout
  if vins = [] ∨ vouts = [] then
    { hasUnnecessary := false, unnecessaryIndices := [], minimumInputsNeeded := 0
      totalInputsUsed := 0, confidence := 0, likelyChangeOutput := none }
  else
    let inputValues : List (Nat × ℤ) :=
      vins.enum.filterMap fun p =>
        match p.2.prevout with
        | some prev =>
            let valueSats := satsOf (prev.value.getD 0)
            if 0 < valueSats then some (p.1, valueSats) else none
        | none => none
    let outputValues : List (Nat × ℤ) :=
      vouts.enum.map fun p => (p.1, satsOf p.2.value)
    if inputValues = [] ∨ outputValues = [] then
      { hasUnnecessary := false, unnecessaryIndices := [], minimumInputsNeeded := 0
        totalInputsUsed := vins.length, confidence := 0, likelyChangeOutput := none }
    else
      let totalOutput := (outputValues.map (·.2)).sum
      let estimatedFee : ℤ := 20000 + inputValues.length * 10000
      let targetAmount := totalOutput + estimatedFee
      let sortedInputs := inputValues.mergeSort fun a b => decide (b.2 ≤ a.2)
      let minimumNeeded := minimumInputsWalk targetAmount sortedInputs 0 0
      let totalUsed := inputValues.length
      let unnecessaryCount := totalUsed - minimumNeeded
      let hasUnnecessary := decide (0 < unnecessaryCount)
      let necessaryInputs := (sortedInputs.take minimumNeeded).map (·.1)
      let unnecessaryIndices :=
        if hasUnnecessary then
          (sortedInputs.filter fun p => ! necessaryInputs.contains p.1).map (·.1)
        else []
      let confidence : ℚ :=
        if hasUnnecessary then
          if 2 ≤ unnecessaryCount then 9/10
          else if unnecessaryCount = 1 then 75/100
          else 1/2
        else 3/10
      let likelyChange : Option Nat :=
        if hasUnnecessary ∧ 2 ≤ outputValues.length then
          let unnecessarySum :=
            ((inputValues.filter fun p => unnecessaryIndices.contains p.1).map (·.2)).sum
          let best := outputValues.foldl
            (fun (acc : Option (Nat × ℤ)) p =>
              let diff := |p.2 - unnecessarySum|
              match acc with
              | none => some (p.1, diff)
              | some b => if diff < b.2 then some (p.1, diff) else some b)
            none
          match best with
          | some b => if 100000 < b.2 then none else some b.1
          | none => none
        else none
      { hasUnnecessary := hasUnnecessary, unnecessaryIndices := unnecessaryIndices
        minimumInputsNeeded := minimumNeeded, totalInputsUsed := totalUsed
        confidence := confidence, likelyChangeOutput := likelyChange }

/-- `KYCPrivacyTracer._detect_change_output` (the `original_value` parameter
is unused, as in the source).  `(value_btc * 1000) % 1 == 0` is divisibility
of the satoshi amount by 100000. -/
def detectChangeOutput (tx : Tx) (inputAddresses : List String) (outputIdx : Nat)
    (originalValue : ℤ) : Bool × ℚ :=
  let _ := originalValue
  let vouts := tx.vout
  if h : outputIdx < vouts.length then
    let output := vouts[outputIdx]
    let outputValue := satsOf output.value
    let outputAddress := output.address
    let outputType := output.scriptType.getD ""
    if outputAddress.isSome ∧ outputAddress.getD "" ∈ inputAddresses then (true, 95/100)
    else
      let p1 : ℚ :=
        if (detectUnnecessaryInputs tx).likelyChangeOutput = some outputIdx then 3/10 else 0
      let inputTypes : List String :=
        tx.vin.filterMap fun vin => vin.prevout.map fun prev => prev.scriptType.getD ""
      let p2 : ℚ := if inputTypes.contains outputType then 15/100 else 0
      let isRound := outputValue % 100000 = 0
      let p3 : ℚ := if ¬ isRound then 2/10 else 0
      let maxOutput := ((vouts.map fun v => satsOf v.value).max?).getD 0
      let p4 : ℚ := if outputValue < maxOutput then 15/100 else 0
      let p5 : ℚ := if outputIdx = vouts.length - 1 then 1/10 else 0
      let probability := p1 + p2 + p3 + p4 + p5
      (decide (35/100 < probability), min probability (85/100))
  else (false, 0)

/-- `KYCPrivacyTracer._calculate_path_confidence`, restricted to the
confidence component (the reasoning strings are omitted). -/
def calcPathConfidence (path : List PathNode) (originalValue : ℤ) : ℚ :=
  match path.getLast? with
  | none => 0
  | some lastNode =>
      let confidence := lastNode.cumulativeConfidence
      let finalValue := lastNode.valueSats
      let valueRatio : ℚ := (finalValue : ℚ) / ((max originalValue 1 : ℤ) : ℚ)
      let confidence :=
        if 9/10 < valueRatio then confidence
        else if 1/2 < valueRatio then confidence
        else if 1/10 < valueRatio then confidence
        else confidence * (7/10)
      let changeNodes := path.filter (·.isChange)
      let highConfidenceChange := changeNodes.filter fun n => decide (8/10 < n.changeProbability)
      let confidence :=
        if changeNodes ≠ [] ∧ highConfidenceChange ≠ [] then min (confidence * (11/10)) 1
        else confidence
      min (max confidence 0) 1

/-- `KYCPrivacyTracer._get_confidence_level`. -/
def getConfidenceLevel (score : ℚ) : ConfidenceLevel :=
  if 7/10 ≤ score then .high
  else if 4/10 ≤ score then .medium
  else if 2/10 ≤ score then .low
  else .negligible

/-- One entry of the KYC BFS queue:
`(txid, vout, depth, coinjoin_count, path, tracked_value, cumulative_confidence)`
(the last component is carried but discarded at dequeue, as in the source). -/
structure KYCQueueItem where
  txid : String
  vout : Nat
  depth : Nat
  coinjoinCount : Nat
  path : List PathNode
  trackedValue : ℤ
  confidence : ℚ
deriving DecidableEq, Repr

/-- The mutable locals of one `trace_kyc_withdrawal` run (the warnings and
value totals are accumulated on the result object in the source). -/
structure KYCState where
  queue : List KYCQueueItem
  visited : List (String × Nat)
  destinations : List ProbableDestination
  txCount : Nat := 0
  coinjoinTxids : List String := []
  consecutiveElectrsFailures : Nat := 0
  electrsDisabled : Bool := false
  totalTracedSats : ℤ := 0
  totalUntraceableSats : ℤ := 0
  warnings : List String := []
deriving DecidableEq, Repr

/-- The body of the `trace_kyc_withdrawal` BFS loop, from the dequeue of one
item on (the item has already been removed from `s.queue`). -/
def kycStep (env : TraceEnv) (maxDepth : Nat) (startValue : ℤ)
    (item : KYCQueueItem) (s : KYCState) : KYCState :=
  if (item.txid, item.vout) ∈ s.visited then s
  else
    let s := { s with visited := (item.txid, item.vout) :: s.visited }
    if maxDepth < item.depth then
      match item.path with
      | [] => s
      | _ :: _ =>
          let confScore := calcPathConfidence item.path startValue
          let dest : ProbableDestination :=
            { address := ((item.path.getLast?).bind (·.address)).getD "unknown"
              valueSats := item.trackedValue
              confidenceScore := confScore * (1/2)
              confidenceLevel := getConfidenceLevel (confScore * (1/2))
              pathLength := item.path.length
              coinjoinsPassed := item.coinjoinCount
              trailStatus := .depthLimit
              path := item.path }
          { s with destinations := s.destinations ++ [dest] }
    else
      match env.getTx item.txid with
      | none => s
      | some tx =>
          let s := { s with txCount := s.txCount + 1 }
          if h : item.vout < tx.vout.length then
            let output := tx.vout[item.vout]
            let valueSats := satsOf output.value
            let address := output.address
            let blockHeight := tx.height
            let cjScore := calcCoinjoinScore tx
            let isCoinjoin := decide (COINJOIN_THRESHOLD ≤ cjScore)
            let currentCjCount := if isCoinjoin then item.coinjoinCount + 1 else item.coinjoinCount
            let s :=
              if isCoinjoin ∧ item.txid ∉ s.coinjoinTxids then
                { s with coinjoinTxids := s.coinjoinTxids ++ [item.txid] }
              else s
            let details := if isCoinjoin then getCoinjoinDetails tx cjScore else ("none", 0)
            let coinjoinProtocol := details.1
            let anonymitySet := details.2
            let inputAddresses : List String :=
              tx.vin.filterMap fun vin => vin.prevout.bind (·.address)
            let change := detectChangeOutput tx inputAddresses item.vout item.trackedValue
            let currentConfidence := nodeStepConfidence tx (kycPrev item.path)
            let node : PathNode :=
              { txid := item.txid, vout := item.vout, valueSats := valueSats
                address := address, blockHeight := blockHeight
                isCoinjoin := isCoinjoin, coinjoinScore := cjScore
                coinjoinCountInPath := currentCjCount, coinjoinProtocol := coinjoinProtocol
                anonymitySetSize := anonymitySet, depth := item.depth
                isChange := change.1, changeProbability := change.2
                cumulativeConfidence := currentConfidence }
            let currentPath := item.path ++ [node]
            if currentConfidence < CONFIDENCE_COLD_THRESHOLD then
              let confScore := calcPathConfidence currentPath startValue
              let dest : ProbableDestination :=
                { address := address.getD "unknown", valueSats := valueSats
                  confidenceScore := confScore
                  confidenceLevel := getConfidenceLevel confScore
                  pathLength := currentPath.length, coinjoinsPassed := currentCjCount
                  trailStatus := .cold, path := currentPath }
              { s with
                  destinations := s.destinations ++ [dest]
                  totalUntraceableSats := s.totalUntraceableSats + valueSats }
            else if env.getTxOut item.txid item.vout then
              let confScore := calcPathConfidence currentPath startValue
              let dest : ProbableDestination :=
                { address := address.getD "unknown", valueSats := valueSats
                  confidenceScore := confScore
                  confidenceLevel := getConfidenceLevel confScore
                  pathLength := currentPath.length, coinjoinsPassed := currentCjCount
                  trailStatus := .deadEnd, path := currentPath }
              { s with
                  destinations := s.destinations ++ [dest]
                  totalTracedSats := s.totalTracedSats + valueSats }
            else if env.electrsEnabled ∧ address.isSome ∧ ¬ s.electrsDisabled then
              match env.findSpendingTx item.txid item.vout (address.getD "") with
              | some spendingTxid =>
                  let s := { s with consecutiveElectrsFailures := 0 }
                  match env.getTx spendingTxid with
                  | some spendingTx =>
                      let newItems : List KYCQueueItem :=
                        spendingTx.vout.enum.filterMap fun p =>
                          if s.visited.contains (spendingTxid, p.1) then none
                          else some
                            { txid := spendingTxid, vout := p.1, depth := item.depth + 1
                              coinjoinCount := currentCjCount, path := currentPath
                              trackedValue := satsOf p.2.value
                              confidence := currentConfidence }
                      { s with queue := s.queue ++ newItems }
                  | none => s
              | none =>
                  let failures := s.consecutiveElectrsFailures + 1
                  let s := { s with consecutiveElectrsFailures := failures }
                  let s :=
                    if MAX_CONSECUTIVE_ELECTRS_FAILURES ≤ failures then
                      { s with
                          electrsDisabled := true
                          warnings := s.warnings ++
                            ["Electrs disabled after " ++ toString failures
                             ++ " consecutive failures"] }
                    else s
                  let confScore := calcPathConfidence currentPath startValue
                  let dest : ProbableDestination :=
                    { address := address.getD "unknown", valueSats := valueSats
                      confidenceScore := confScore * (3/10)
                      confidenceLevel := .low
                      pathLength := currentPath.length, coinjoinsPassed := currentCjCount
                      trailStatus := .lost, path := currentPath }
                  { s with destinations := s.destinations ++ [dest] }
            else
              let confScore := calcPathConfidence currentPath startValue
              let dest : ProbableDestination :=
                { address := address.getD "unknown", valueSats := valueSats
                  confidenceScore := confScore * (1/2)
                  confidenceLevel := getConfidenceLevel (confScore * (1/2))
                  pathLength := currentPath.length, coinjoinsPassed := currentCjCount
                  trailStatus := .lost, path := currentPath }
              { s with destinations := s.destinations ++ [dest] }
          else s

/-- The `trace_kyc_withdrawal` BFS loop
(`while queue and tx_count < MAX_TRANSACTIONS`), as fuel-indexed recursion;
the wall-clock timeout check at the head of each iteration is not modelled. -/
def kycLoop (env : TraceEnv) (maxDepth : Nat) (startValue : ℤ) :
    Nat → KYCState → KYCState
  | 0, s => s
  | fuel + 1, s =>
      if s.queue ≠ [] ∧ s.txCount < KYC_MAX_TRANSACTIONS then
        let s :=
          if MAX_QUEUE_SIZE < s.queue.length then
            { s with
                warnings := s.warnings ++ ["Queue size exceeded, some paths truncated"]
                queue := s.queue.take MAX_QUEUE_SIZE }
          else s
        match s.queue with
        | [] => s
        | item :: rest =>
            kycLoop env maxDepth startValue fuel
              (kycStep env maxDepth startValue item { s with queue := rest })
      else s

/-- `KYCPrivacyTracer._calculate_overall_privacy`. -/
def calcOverallPrivacy (result : KYCTraceResult) : ℚ :=
  if result.probableDestinations = [] then 100
  else
    let total := result.originalValueSats
    let coldPoints : ℚ :=
      if 0 < total then
        let coldTrails := result.probableDestinations.filter fun d => d.trailStatus == .cold
        let coldValue := (coldTrails.map (·.valueSats)).sum
        ((coldValue : ℚ) / (total : ℚ)) * 50
      else 0
    let highConf := result.probableDestinations.filter fun d => d.confidenceLevel == .high
    let highConfPoints : ℚ :=
      if highConf = [] then 30 else if highConf.length = 1 then 10 else 0
    let coinjoinPoints : ℚ :=
      if 2 ≤ result.coinjoinsEncountered then
        if result.probableDestinations.any fun d => d.trailStatus == .cold then 20 else 10
      else if result.coinjoinsEncountered = 1 then 5
      else 0
    let lostTrails := result.probableDestinations.filter fun d => d.trailStatus == .lost
    let lostPenalty : ℚ :=
      if lostTrails ≠ [] then
        let lostValue := (lostTrails.map (·.valueSats)).sum
        (if 0 < total then (lostValue : ℚ) / (total : ℚ) else 0) * 10
      else 0
    max 0 (min (coldPoints + highConfPoints + coinjoinPoints - lostPenalty) 100)

/-- `KYCPrivacyTracer._get_privacy_rating`. -/
def getPrivacyRating (score : ℚ) : String :=
  if 70 ≤ score then "good"
  else if 50 ≤ score then "moderate"
  else if 30 ≤ score then "poor"
  else "very_poor"

/-- `KYCPrivacyTracer.trace_kyc_withdrawal` (the `_electrs_failures`
exception counter and its reporting warning, which track I/O errors inside
the collaborator, are not modelled). -/
def traceKycWithdrawal (env : TraceEnv) (exchangeTxid destinationAddress : String)
    (depthPreset : String) (fuel : Nat) : KYCTraceResult :=
  let maxDepth := min (presetDepth depthPreset) KYC_MAX_DEPTH
  let result : KYCTraceResult :=
    { exchangeTxid := exchangeTxid, destinationAddress := destinationAddress
      originalValueSats := 0, traceDepth := maxDepth
      electrsEnabled := env.electrsEnabled
      warnings :=
        if env.electrsEnabled then []
        else ["Electrs not available - forward tracing will be limited"] }
  match env.getTx exchangeTxid with
  | none =>
      { result with warnings := result.warnings ++ ["Transaction not found: " ++ exchangeTxid] }
  | some tx =>
      match tx.vout.enum.find? fun p => p.2.address == some destinationAddress with
      | none =>
          { result with warnings := result.warnings ++
              ["Destination address " ++ destinationAddress
               ++ " not found in transaction outputs"] }
      | some start =>
          let startVout := start.1
          let startValue := satsOf start.2.value
          let result := { result with originalValueSats := startValue }
          let s0 : KYCState :=
            { queue := [{ txid := exchangeTxid, vout := startVout, depth := 0
                          coinjoinCount := 0, path := [], trackedValue := startValue
                          confidence := 1 }]
              visited := [], destinations := [] }
          let s := kycLoop env maxDepth startValue fuel s0
          let destinations :=
            s.destinations.mergeSort fun a b => decide (b.confidenceScore ≤ a.confidenceScore)
          let result :=
            { result with
                probableDestinations := destinations
                coinjoinsEncountered := s.coinjoinTxids.length
                totalTracedSats := s.totalTracedSats
                totalUntraceableSats := s.totalUntraceableSats
                warnings := result.warnings ++ s.warnings }
          let result := { result with overallPrivacyScore := calcOverallPrivacy result }
          { result with privacyRating := getPrivacyRating result.overallPrivacyScore }

/-! ### Exchange proximity analyzer — app/core/privacy_analysis.py -/

/-- `KNOWN_EXCHANGE_ADDRESSES`, as (address, exchange, type) triples in
dictionary order.  The Python literal assigns the key
`bc1qgdjqv0av3q56jvd82tkdjpy7gdp9ut8tlqmgrpmv24sq90ecnvqqjwvw97` twice
(Binance, then Coinbase); the later assignment wins, as recorded here. -/
def KNOWN_EXCHANGE_ADDRESSES : List (String × String × String) := [
  ("34xp4vRoCGJym3xR7yCVPFHoCNxv4Twseo", "Binance", "cold_wallet"),
  ("bc1qgdjqv0av3q56jvd82tkdjpy7gdp9ut8tlqmgrpmv24sq90ecnvqqjwvw97", "Coinbase", "cold_wallet"),
  ("bc1qm34lsc65zpw79lxes69zkqmk6ee3ewf0j77s3h", "Binance", "cold_wallet"),
  ("1NDyJtNTjmwk5xPNhjgAMu4HDHigtobu1s", "Binance", "hot_wallet"),
  ("3JZq4atUahhuA9rLhXLMhhTo133J9rF97j", "Binance", "hot_wallet"),
  ("3LCGsSmfr24demGvriN4e3ft8wEcDuHFqh", "Binance", "hot_wallet"),
  ("bc1qa5wkgaew2dkv56kfvj49j0av5nml45x9ek9hz6", "Binance", "hot_wallet"),
  ("1FzWLkAahHooV3kzTgyx6qsswXJ6sCXkSR", "Binance", "deposit_address"),
  ("3BMEXVshCPBMCYwUuAug3Ht28NFmycxvB5", "Binance", "deposit_address"),
  ("3Kzh9qAqVWQhEsfQz7zEQL1EuSx5tyNLNS", "Coinbase", "cold_wallet"),
  ("bc1qxy2kgdygjrsqtzq2n0yrf2493p83kkfjhx0wlh", "Coinbase", "hot_wallet"),
  ("3FHNBLobJnbCTFTVakh5TXmEneyf5PT61B", "Coinbase", "cold_wallet"),
  ("1GR9qNz7zgtaW5HwwVpEJWMnGWhsbsieCG", "Coinbase", "hot_wallet"),
  ("36n452uGq1x4mK7bfyZR8wgE47AnBb2pzi", "Coinbase", "cold_wallet"),
  ("3QJmV3qfvL9SuYo34YihAf3sRCW3qSinyC", "Coinbase", "cold_wallet"),
  ("1AzhR4W5jMx6KPRfcbNPqMhJkYhNxNdYA9", "Coinbase", "hot_wallet"),
  ("3E37YWMXV8zuJx9cKm3zZKD67D9y8vNhWg", "Coinbase", "deposit_address"),
  ("bc1q5shngj3fwvjk0g5lk7qqn8xdy9sefqvvdw3jtj", "Coinbase", "deposit_address"),
  ("3AfC8evitosmib5DzwNxBkCPDcYxwKb7UR", "Kraken", "cold_wallet"),
  ("bc1qkw5n806st9p8q8pez5a0t2rs6yd8vafpvjkcrr", "Kraken", "hot_wallet"),
  ("3NaZQMYCBwPq5d7LtBBKZZXMvLR5VyRwF8", "Kraken", "cold_wallet"),
  ("35KHnfMwD7vLmJwrWbBXJBWLFNcLUmfJFc", "Kraken", "hot_wallet"),
  ("bc1qj2jxp0q0dmnr8p9e0cxs0p4v2f3f5mlvckqjq7", "Kraken", "hot_wallet"),
  ("1Kbp4mUnBrsjF5jkv8vKGZtqxPpVZNnJ2H", "Kraken", "deposit_address"),
  ("3D2oetdNuZUqQHPJmcMDDHYoqkyNVsFk9r", "Bitfinex", "cold_wallet"),
  ("bc1qgxj5m07zhqyzrmv3lg3dksurpt66lxpfu2lxsm", "Bitfinex", "hot_wallet"),
  ("1Kr6QSydW9bFQG1mXiPNNu6WpJGmUa9i1g", "Bitfinex", "cold_wallet"),
  ("3JwriwTLLHUQoWmwvLbCPrV9NvjP9PqiR8", "Bitfinex", "hot_wallet"),
  ("bc1qf9y6xxjadthq24j0xn2hk6t9r5f5z7hv9v7c2t", "Bitfinex", "deposit_address"),
  ("3LDLspHMsXR1T5r2kXwzQn3Mv3iqVFgZRw", "Gemini", "cold_wallet"),
  ("bc1qnl7ppsl2kzm7ys2fkjppl6l3v3wd3s3rc2egk3", "Gemini", "cold_wallet"),
  ("3FupZp77ySr7jwoLYEJ9mwzJpvoNBXveWk", "Gemini", "hot_wallet"),
  ("1DUb2YYbQA1jjaNYzVXLZ7ZioEhLXtbUru", "Gemini", "deposit_address"),
  ("3P3QsMVK89JBNqZQv5zMAKG8FK3kJM4rjt", "Bitstamp", "cold_wallet"),
  ("1HD8F8qNJcH4gVLHNP6PorZh3rJLwJYBAt", "Bitstamp", "hot_wallet"),
  ("3BMEXQS7YPqN8Y6BvczNgYN3LNqJjHvvGM", "Bitstamp", "hot_wallet"),
  ("bc1qtem8q7tsgjpf2r5q8yxr2zd3jgl0xqy9ya9tqn", "Bitstamp", "cold_wallet"),
  ("3G1NM2QnMJhR5LGKHKYoNHYL6p4MhUNwCn", "OKX", "cold_wallet"),
  ("1LEDQahawSTtGKpPJ3kPZGWDmMmVkPMBYP", "OKX", "hot_wallet"),
  ("3QzYvaRFY6bakFBW4YBRrzmwzTnfZcaA6E", "OKX", "cold_wallet"),
  ("bc1qp7n7k3rq3xdqr3s7c2c0x3w3h3e3r3m3y3p3q3", "OKX", "hot_wallet"),
  ("1FVXxkJhZ7Dw6PNhqCnqLxL7x7N7VxNxNx", "OKX", "deposit_address"),
  ("3Mn3AFYH7qe6NQFB6KmJPW5XYXrqD3ByDF", "Huobi", "cold_wallet"),
  ("1NRvGGBFjvd9qJ4SbwP1LM8C5vZ8UwCXfU", "Huobi", "hot_wallet"),
  ("3KRG4YcVnPPAVHVUqnzHMvPcJBsFPY7VbW", "Huobi", "cold_wallet"),
  ("bc1qar0srrr7xfkvy5l643lydnw9re59gtzzwf5mdq", "Huobi", "hot_wallet"),
  ("3HnVCfPdA37KMKP9bk5VYrZ6F3n2h5RJqv", "Bittrex", "cold_wallet"),
  ("1FWQiwK27EnGXb6BiBMRLJvunJQZZPMcGd", "Bittrex", "hot_wallet"),
  ("3EhLZarJUNSCxxq9S6C99s2LXBfXz2GdE8", "Bittrex", "deposit_address"),
  ("1P5ZEDWTKTFGxQjZphgWPQUpe554WKDfHQ", "KuCoin", "cold_wallet"),
  ("3MqvPkT7bLhXJ4m5yGPz1KSdQfBZqM3cSX", "KuCoin", "hot_wallet"),
  ("bc1qr4dl5wa7kl8yu792dceg9z5knl2gkn220qxg98", "KuCoin", "cold_wallet"),
  ("1E5VJqekiDvNEp6rMxECKmECUcgLnGYPYu", "KuCoin", "deposit_address"),
  ("bc1qm7h7cwms92rnq4kj0kwk0vy4hn5zgqafh3pczn", "Bybit", "cold_wallet"),
  ("3L7qeVcDYwkkCJ1hPp3zTiJq9EKvGWNJLP", "Bybit", "hot_wallet"),
  ("1KwDwY5D72vHZUjSfZ7Qj6i5Qj6i5Qj6i5", "Bybit", "deposit_address"),
  ("1EzwoHtiXB4iFwedPr49iywjZn2nnekhoj", "Gate.io", "cold_wallet"),
  ("3N8LqNGY4vKdXD3PGyKD8aK5nVRd7KLShR", "Gate.io", "hot_wallet"),
  ("bc1q5s7n6r2sqx5qvxw9r3yaqxr3yaqxr3yaqxr3ya", "Gate.io", "cold_wallet"),
  ("17A16QmavnUfCW11DAApiJxp7ARnxN5pGX", "Poloniex", "cold_wallet"),
  ("3JHZJ8JqUq1YDnRYQkN4MkEL8ys9TmBnHK", "Poloniex", "hot_wallet"),
  ("bc1qjh0akslml4yg9yfcwjr0rvw4l32mxq9eknhp7r", "Poloniex", "deposit_address"),
  ("bc1qcy920b8k8fvz9rq6z5v9k5v9k5v9k5v9k5v9k5", "Bitget", "cold_wallet"),
  ("3DozPCdZ8jM7xJKNqTy4vC4p7SvKKzLfmY", "Bitget", "hot_wallet"),
  ("1J9vN6VvVkKjKqDq2QkKjKqDq2QkKjKqD", "Bitget", "deposit_address"),
  ("1EWxKjf8LfvKj8LfvKj8LfvKj8LfvKj8Lf", "MEXC", "cold_wallet"),
  ("3K7p4bNs8t9p4bNs8t9p4bNs8t9p4bNs8t", "MEXC", "hot_wallet"),
  ("bc1q2m5r8z3y2m5r8z3y2m5r8z3y2m5r8z3y2m5r8z", "MEXC", "deposit_address"),
  ("bc1qr4p0w3tg9w5ezd3p4r3m5r3m5r3m5r3m5r3m5r", "Binance", "cold_wallet"),
  ("1PH5qwz3qwz3qwz3qwz3qwz3qwz3qwz3qw", "Binance", "hot_wallet"),
  ("3NK2SLLK5j2SLLK5j2SLLK5j2SLLK5j2SLL", "Coinbase", "cold_wallet"),
  ("bc1q5y7r3p9q5y7r3p9q5y7r3p9q5y7r3p9q5y7r3p", "Coinbase", "hot_wallet"),
  ("3L4aLq84j4aLq84j4aLq84j4aLq84j4aLq", "Kraken", "cold_wallet"),
  ("1M2c9fN8z9fN8z9fN8z9fN8z9fN8z9fN8z", "Kraken", "hot_wallet"),
  ("bc1q7k2m5n8k2m5n8k2m5n8k2m5n8k2m5n8k2m5n8k", "Bitfinex", "cold_wallet"),
  ("3P9wX5zL3P9wX5zL3P9wX5zL3P9wX5zL3P", "Bitfinex", "hot_wallet"),
  ("1Drt3c8pSdrkyjuBiwVcSSixZwQtMZ3Tew", "Binance", "hot_wallet"),
  ("15Z5YJaaNSxeynvr6uW6jQZLwq3n1Hu6RX", "Coinbase", "hot_wallet"),
  ("38UmuUqPCrFmQo4khkomQwZ4VbY2nZMJ67", "Bitfinex", "cold_wallet"),
  ("1JDckpLTJDckpLTJDckpLTJDckpLTJDckp", "Kraken", "cold_wallet"),
  ("3QX3XnQX3XnQX3XnQX3XnQX3XnQX3XnQX3", "Gemini", "hot_wallet")]

/-- `PrivacyAnalyzer._is_known_exchange`: `KNOWN_EXCHANGE_ADDRESSES.get(address)`,
yielding the (exchange, type) pair. -/
def isKnownExchange (address : String) : Option (String × String) :=
  (KNOWN_EXCHANGE_ADDRESSES.find? fun e => e.1 == address).map (·.2)

/-- `PrivacyAnalyzer.MAX_EXCHANGE_HOPS`. -/
def MAX_EXCHANGE_HOPS : Nat := 6

/-- `PrivacyAnalyzer.MAX_ADDRESSES_TO_VISIT`. -/
def MAX_ADDRESSES_TO_VISIT : Nat := 10

/-- `PrivacyAnalyzer._calculate_coinjoin_score` (the `if not tx` guard is
subsumed by the `Option Tx` handling at every call site). -/
def paCoinjoinScore (tx : Tx) : ℚ :=
  if tx.vin.length < 2 ∨ tx.vout.length < 2 then 0
  else
    let outputValues := tx.vout.filterMap fun out =>
      if 0 < out.value then some (round8 out.value) else none
    if outputValues = [] then 0
    else
      let maxEqual := maxEqualCount outputValues
      let equalRatio : ℚ := (maxEqual : ℚ) / (outputValues.length : ℚ)
      if 8/10 < equalRatio ∧ 3 ≤ maxEqual then 9/10
      else if 1/2 < equalRatio ∧ 2 ≤ maxEqual then 7/10
      else if 2 ≤ maxEqual then 4/10
      else 1/10

/-- `ExchangeHop` (`timestamp`, always `None` on the paths built here, is
omitted). -/
structure ExchangeHop where
  txid : String
  address : String
  valueSats : ℤ
  direction : String
  hopNumber : Nat
  isCoinjoin : Bool := false
  blockHeight : Option ℤ := none
deriving DecidableEq, Repr

/-- `ExchangePath`. -/
structure ExchangePath where
  pathHops : List ExchangeHop
  totalHops : Nat
  exchangeName : String
  exchangeType : String
  direction : String
  pathQualityScore : ℤ
  pathStrength : String
  coinjoinCount : Nat
  pathAgeDays : Option ℚ
deriving DecidableEq, Repr

/-- `ExchangeConnection`. -/
structure ExchangeConnection where
  exchangeName : String
  exchangeType : String
  hops : Nat
  direction : String
  pathQuality : ℤ
  pathStrength : String
deriving DecidableEq, Repr

/-- `ExchangeProximityResult` (`path_quality_factors` and
`execution_time_ms` omitted, see the header). -/
structure ExchangeProximityResult where
  address : String
  nearestExchange : Option String
  nearestExchangeType : Option String
  hopsToExchange : Option Nat
  direction : Option String
  proximityScore : ℤ
  riskLevel : String
  pathQualityScore : ℤ
  coinjoinCountInPath : Nat
  pathAgeDays : Option ℚ
  pathStrength : String
  alternativePaths : List ExchangePath := []
  allExchangeConnections : List ExchangeConnection := []
  exchangeConnections : List (String × String × Nat × String) := []
  pathToExchange : List ExchangeHop := []
  warnings : List String := []
  recommendations : List String := []
deriving DecidableEq, Repr

/-- The collaborators of `analyze_exchange_proximity`: transaction lookup,
address history (Fulcrum; `[]` when unavailable or erroring) and the chain
tip height (`get_blockchain_info()["blocks"]`, `0` when the RPC fails). -/
structure ProximityEnv where
  getTx : String → Option Tx
  getHistory : String → List (String × Option ℤ)
  currentHeight : ℤ
deriving Inhabited

/-- The tuple returned by the inner `calculate_path_quality`, minus the
factor strings. -/
structure PathQuality where
  score : ℤ
  coinjoinCount : Nat
  ageDays : Option ℚ
  strength : String
deriving DecidableEq, Repr

/-- The inner `calculate_path_quality` of `analyze_exchange_proximity`.  The
age factor applies only when the first hop's height and the tip height are
both present and nonzero (Python truthiness). -/
def calculatePathQuality (currentHeight : ℤ) (pathHops : List ExchangeHop) : PathQuality :=
  let coinjoinCount := (pathHops.filter (·.isCoinjoin)).length
  let score : ℤ := 100 - 30 * coinjoinCount
  let pathAgeDays : Option ℚ :=
    match pathHops.head? with
    | some hop0 =>
        match hop0.blockHeight with
        | some h =>
            if h ≠ 0 ∧ currentHeight ≠ 0 then
              some ((((currentHeight - h) * 10 : ℤ) : ℚ) / (60 * 24))
            else none
        | none => none
    | none => none
  let score :=
    match pathAgeDays with
    | some age => if 365 < age then score - 40 else if 180 < age then score - 20 else score
    | none => score
  let score := if 6 < pathHops.length then score - 10 else score
  let score := max 0 (min 100 score)
  let strength :=
    if 85 ≤ score then "STRONG"
    else if 60 ≤ score then "MODERATE"
    else if 30 ≤ score then "WEAK"
    else "BROKEN"
  { score := score, coinjoinCount := coinjoinCount, ageDays := pathAgeDays, strength := strength }

/-- One `all_paths_found` record. -/
structure FoundPath where
  path : List ExchangeHop
  exchange : String
  exchangeType : String
  hops : Nat
  direction : String
deriving DecidableEq, Repr

/-- One `all_exchange_connections_map` entry, keyed as in the source. -/
structure ConnEntry where
  key : String
  exchange : String
  exchangeType : String
  hops : Nat
  direction : String
  path : List ExchangeHop
deriving DecidableEq, Repr

/-- The mutable locals of the proximity BFS. -/
structure ProxSearchState where
  queue : List (String × Nat × String × List ExchangeHop)
  visited : List (String × String)
  addressesChecked : Nat := 0
  nearestExchange : Option String := none
  nearestHops : Option Nat := none
  nearestDirection : Option String := none
  nearestPath : List ExchangeHop := []
  allPathsFound : List FoundPath := []
  connections : List ConnEntry := []
  exchangeConnections : List (String × String × Nat × String) := []
  warnings : List String := []
  searchExhausted : Bool := false
deriving Repr

/-- The shared candidate-address handling of the proximity BFS: record an
exchange hit (path, connection map, nearest tracking) or enqueue the address
for further exploration. -/
def proxHandleCandidate (tx : Tx) (txInfo : String × Option ℤ) (depth : Nat)
    (direction directionLabel : String) (candidateAddr : String) (valueSats : ℤ)
    (currentPath : List ExchangeHop) (st : ProxSearchState) : ProxSearchState :=
  let hop : ExchangeHop :=
    { txid := txInfo.1, address := candidateAddr, valueSats := valueSats
      direction := directionLabel, hopNumber := depth + 1
      isCoinjoin := decide (7/10 ≤ paCoinjoinScore tx), blockHeight := txInfo.2 }
  match isKnownExchange candidateAddr with
  | some exInfo =>
      let newPath := currentPath ++ [hop]
      let st := { st with allPathsFound := st.allPathsFound ++
          [({ path := newPath, exchange := exInfo.1, exchangeType := exInfo.2
              hops := depth + 1, direction := directionLabel } : FoundPath)] }
      let exchangeKey := exInfo.1 ++ "-" ++ directionLabel ++ "-" ++ toString (depth + 1)
      let st :=
        if (st.connections.map (·.key)).contains exchangeKey then st
        else { st with connections := st.connections ++
            [({ key := exchangeKey, exchange := exInfo.1, exchangeType := exInfo.2
                hops := depth + 1, direction := directionLabel, path := newPath } : ConnEntry)] }
      let closer :=
        match st.nearestHops with
        | none => true
        | some nearest => depth + 1 < nearest
      if closer then
        { st with
            nearestExchange := some exInfo.1
            nearestHops := some (depth + 1)
            nearestDirection := some directionLabel
            nearestPath := newPath
            exchangeConnections := st.exchangeConnections ++
              [(exInfo.1, exInfo.2, depth + 1, directionLabel)] }
      else st
  | none =>
      if st.addressesChecked < MAX_ADDRESSES_TO_VISIT then
        { st with queue := st.queue ++ [(candidateAddr, depth + 1, direction, currentPath ++ [hop])] }
      else st

/-- The body of the proximity BFS loop, from the dequeue of one
`(address, depth, direction, path)` item on. -/
def proxStep (env : ProximityEnv) (maxHops : Nat)
    (item : String × Nat × String × List ExchangeHop) (st : ProxSearchState) : ProxSearchState :=
  let (currentAddr, depth, direction, currentPath) := item
  if maxHops ≤ depth then st
  else if (currentAddr, direction) ∈ st.visited then st
  else
    let st := { st with
        visited := (currentAddr, direction) :: st.visited
        addressesChecked := st.addressesChecked + 1 }
    let history := env.getHistory currentAddr
    if history = [] then st
    else
      let txsToCheck :=
        if direction = "backward" then history.drop (history.length - 5) else history.take 5
      txsToCheck.foldl
        (fun st txInfo =>
          match env.getTx txInfo.1 with
          | none => st
          | some tx =>
              if direction = "backward" then
                (tx.vin.take 5).foldl
                  (fun st vin =>
                    if vin.hasCoinbase then st
                    else
                      match vin.txid, vin.vout with
                      | some prevTxid, some prevVout =>
                          match env.getTx prevTxid with
                          | some prevTx =>
                              if h : prevVout < prevTx.vout.length then
                                let prevOut := prevTx.vout[prevVout]
                                match prevOut.address with
                                | some prevAddr =>
                                    proxHandleCandidate tx txInfo depth "backward"
                                      "received_from" prevAddr (satsOf prevOut.value)
                                      currentPath st
                                | none => st
                              else st
                          | none => st
                      | _, _ => st)
                  st
              else
                (tx.vout.take 5).foldl
                  (fun st vout =>
                    match vout.address with
                    | some outAddr =>
                        if outAddr ≠ currentAddr then
                          proxHandleCandidate tx txInfo depth "forward" "sent_to"
                            outAddr (satsOf vout.value) currentPath st
                        else st
                    | none => st)
                  st)
        st

/-- The proximity BFS loop
(`while queue and addresses_checked < MAX_ADDRESSES_TO_VISIT`); the
wall-clock timeout checks are not modelled. -/
def proxLoop (env : ProximityEnv) (maxHops : Nat) : Nat → ProxSearchState → ProxSearchState
  | 0, st => st
  | fuel + 1, st =>
      if st.queue ≠ [] ∧ st.addressesChecked < MAX_ADDRESSES_TO_VISIT then
        match st.queue with
        | [] => st
        | item :: rest => proxLoop env maxHops fuel (proxStep env maxHops item { st with queue := rest })
      else st

/-- The search arm of `analyze_exchange_proximity` (everything after the
known-exchange short circuit). -/
def exchangeProximitySearch (env : ProximityEnv) (address : String) (maxHops : Nat)
    (fuel : Nat) : ExchangeProximityResult :=
  let st0 : ProxSearchState :=
    { queue := [(address, 0, "backward", []), (address, 0, "forward", [])], visited := [] }
  let st := proxLoop env maxHops fuel st0
  let st :=
    if MAX_ADDRESSES_TO_VISIT ≤ st.addressesChecked then
      { st with
          warnings := st.warnings ++ ["Analysis limited to 10 addresses"]
          searchExhausted := true }
    else st
  let nearestQuality : PathQuality :=
    if st.nearestPath ≠ [] then calculatePathQuality env.currentHeight st.nearestPath
    else { score := 0, coinjoinCount := 0, ageDays := none, strength := "UNKNOWN" }
  let scoredPaths := st.allPathsFound.map fun fp => (fp, calculatePathQuality env.currentHeight fp.path)
  let sortedPaths := scoredPaths.mergeSort fun a b =>
    decide (a.1.path.length < b.1.path.length
      ∨ (a.1.path.length = b.1.path.length ∧ b.2.score ≤ a.2.score))
  let alternative := (sortedPaths.take 10).foldl
    (fun (acc : List String × List ExchangePath) sp =>
      let fp := sp.1
      let quality := sp.2
      let pathKey := fp.exchange ++ "-" ++ fp.direction ++ "-" ++ toString fp.hops
      if ¬ acc.1.contains pathKey ∧ acc.2.length < 5 then
        (acc.1 ++ [pathKey], acc.2 ++
          [{ pathHops := fp.path, totalHops := fp.hops, exchangeName := fp.exchange
             exchangeType := fp.exchangeType, direction := fp.direction
             pathQualityScore := quality.score, pathStrength := quality.strength
             coinjoinCount := quality.coinjoinCount, pathAgeDays := quality.ageDays }])
      else acc)
    ([], [])
  let alternativePaths := alternative.2
  let allExchangeConnections := st.connections.map fun c =>
    let quality := calculatePathQuality env.currentHeight c.path
    ({ exchangeName := c.exchange, exchangeType := c.exchangeType, hops := c.hops
       direction := c.direction, pathQuality := quality.score
       pathStrength := quality.strength } : ExchangeConnection)
  let allExchangeConnections := allExchangeConnections.mergeSort fun a b =>
    decide (a.hops < b.hops ∨ (a.hops = b.hops ∧ b.pathQuality ≤ a.pathQuality))
  let quality := nearestQuality
  let proximity : ℤ × String × List String × List String :=
    match st.nearestHops with
    | none =>
        (0, "low", [],
         if st.searchExhausted then
           ["No exchange found within analysis limits",
            "This may indicate good privacy or require deeper analysis"]
         else
           ["No direct exchange connection found within analysis depth",
            "This could mean good privacy or limited transaction history"])
    | some 1 =>
        (90, "critical",
         ["Direct transaction with " ++ st.nearestExchange.getD "" ++ " detected"],
         if quality.score < 30 then
           ["Although direct link to exchange, path quality is BROKEN ("
              ++ toString quality.score ++ "/100)",
            toString quality.coinjoinCount
              ++ " CoinJoin(s) detected - some privacy protection present"]
         else
           ["This address is directly KYC-linked",
            "Any funds here can be trivially traced to your identity",
            "Use CoinJoin before moving funds to private storage"])
    | some 2 =>
        (70, "high",
         ["Only 2 hops from " ++ st.nearestExchange.getD ""],
         if quality.score < 30 then
           ["Path quality is BROKEN (" ++ toString quality.score ++ "/100) due to CoinJoins",
            "Continue practicing good privacy hygiene"]
         else
           ["High traceability - chain analysis can easily link to KYC",
            "Consider CoinJoin to increase privacy"])
    | some hops =>
        if hops ≤ 4 then
          (50, "medium", [],
           if quality.score < 30 then
             ["Path quality is BROKEN (" ++ toString quality.score ++ "/100)",
              "Good privacy practices detected"]
           else
             ["Moderate distance (" ++ toString hops ++ " hops) from "
                ++ st.nearestExchange.getD "",
              "Sophisticated analysis may still link to exchange"])
        else
          (30, "low", [],
           ["Good distance (" ++ toString hops ++ " hops) from known exchanges",
            "Continue practicing good UTXO hygiene"])
  let recommendations :=
    proximity.2.2.2 ++
      (if 0 < quality.coinjoinCount then
        ["Detected " ++ toString quality.coinjoinCount
          ++ " CoinJoin(s) in path - good privacy practice!"]
      else [])
  let exchangeType :=
    match st.nearestExchange with
    | some name => (KNOWN_EXCHANGE_ADDRESSES.find? fun e => e.2.1 == name).map (·.2.2)
    | none => none
  { address := address
    nearestExchange := st.nearestExchange
    nearestExchangeType := exchangeType
    hopsToExchange := st.nearestHops
    direction := st.nearestDirection
    proximityScore := proximity.1
    riskLevel := proximity.2.1
    pathQualityScore := quality.score
    coinjoinCountInPath := quality.coinjoinCount
    pathAgeDays := quality.ageDays
    pathStrength := quality.strength
    alternativePaths := alternativePaths
    allExchangeConnections := allExchangeConnections
    exchangeConnections := st.exchangeConnections
    pathToExchange := st.nearestPath
    warnings := st.warnings ++ proximity.2.2.1
    recommendations := recommendations }

/-- `PrivacyAnalyzer.analyze_exchange_proximity`.  `max_hops or 6` maps both
`None` and `0` to `MAX_EXCHANGE_HOPS`. -/
def analyzeExchangeProximity (env : ProximityEnv) (address : String)
    (maxHops : Option Nat) (fuel : Nat) : ExchangeProximityResult :=
  let maxHops :=
    match maxHops with
    | none => MAX_EXCHANGE_HOPS
    | some 0 => MAX_EXCHANGE_HOPS
    | some n => n
  match isKnownExchange address with
  | some exchangeInfo =>
      { address := address
        nearestExchange := some exchangeInfo.1
        nearestExchangeType := some exchangeInfo.2
        hopsToExchange := some 0
        direction := some "is_exchange"
        proximityScore := 100
        riskLevel := "critical"
        pathQualityScore := 100
        coinjoinCountInPath := 0
        pathAgeDays := none
        pathStrength := "STRONG"
        alternativePaths := []
        allExchangeConnections :=
          [{ exchangeName := exchangeInfo.1, exchangeType := exchangeInfo.2
             hops := 0, direction := "is_exchange", pathQuality := 100
             pathStrength := "STRONG" }]
        exchangeConnections := [(exchangeInfo.1, exchangeInfo.2, 0, "is_exchange")]
        pathToExchange := []
        warnings := ["This address is a known exchange address"]
        recommendations := ["Do not use exchange addresses for personal storage"] }
  | none => exchangeProximitySearch env address maxHops fuel

/-! ### Theorems -/

/-- The trace depth recorded in a KYC result is the capped preset depth,
whichever way the setup resolves. -/
theorem traceKycWithdrawal_traceDepth (env : TraceEnv) (a b preset : String) (fuel : Nat) :
    (traceKycWithdrawal env a b preset fuel).traceDepth = min (presetDepth preset) KYC_MAX_DEPTH := by
  unfold traceKycWithdrawal
  cases env.getTx a with
  | none => simp
  | some tx =>
      rcases hf : tx.vout.enum.find? fun q => q.2.address == some b with _ | start
      · simp [hf]
      · simp [hf]

/-- C10: a `depth_preset` string that is none of "quick", "standard", "deep",
"thorough" does not raise and does not empty the result: the trace silently
runs with the "standard" preset, at max depth 6. -/
theorem kyc_unknown_preset_defaults_to_standard (env : TraceEnv)
    (exchangeTxid destinationAddress depthPreset : String) (fuel : Nat)
    (h : depthPreset ∉ (["quick", "standard", "deep", "thorough"] : List String)) :
    traceKycWithdrawal env exchangeTxid destinationAddress depthPreset fuel
      = traceKycWithdrawal env exchangeTxid destinationAddress "standard" fuel
    ∧ (traceKycWithdrawal env exchangeTxid destinationAddress depthPreset fuel).traceDepth = 6 := by
  have h' : ¬ (depthPreset = "quick") ∧ ¬ (depthPreset = "standard")
      ∧ ¬ (depthPreset = "deep") ∧ ¬ (depthPreset = "thorough") := by
    simpa [not_or] using h
  obtain ⟨h1, h2, h3, h4⟩ := h'
  have hp : presetDepth depthPreset = 6 := by
    simp [presetDepth, h1, h2, h3, h4]
  have hs : presetDepth "standard" = 6 := by decide
  refine ⟨?_, ?_⟩
  · unfold traceKycWithdrawal
    rw [hp, hs]
  · rw [traceKycWithdrawal_traceDepth, hp]
    norm_num [KYC_MAX_DEPTH]

/-- Witness for C10 at the preset string "florp". -/
theorem kyc_unknown_preset_defaults_to_standard_witness :
    ("florp" ∉ (["quick", "standard", "deep", "thorough"] : List String))
    ∧ (traceKycWithdrawal ⟨fun _ => none, fun _ _ => false, fun _ _ _ => none, false⟩
          "tx0" "addr0" "florp" 1
        = traceKycWithdrawal ⟨fun _ => none, fun _ _ => false, fun _ _ _ => none, false⟩
          "tx0" "addr0" "standard" 1
      ∧ (traceKycWithdrawal ⟨fun _ => none, fun _ _ => false, fun _ _ _ => none, false⟩
          "tx0" "addr0" "florp" 1).traceDepth = 6) :=
  ⟨by decide,
   kyc_unknown_preset_defaults_to_standard
     ⟨fun _ => none, fun _ _ => false, fun _ _ _ => none, false⟩
     "tx0" "addr0" "florp" 1 (by decide)⟩

/-- C9: a seed address that is itself in the known-exchange registry short
circuits `analyze_exchange_proximity`: zero hops, path quality 100, strength
STRONG, and the result is independent of the graph collaborators and the
search budget (no traversal and no lookups happen). -/
theorem exchange_proximity_registry_self_hit
    (env env2 : ProximityEnv) (address : String) (maxHops : Option Nat)
    (fuel fuel2 : Nat) (info : String × String)
    (h : isKnownExchange address = some info) :
    (analyzeExchangeProximity env address maxHops fuel).hopsToExchange = some 0
    ∧ (analyzeExchangeProximity env address maxHops fuel).pathQualityScore = 100
    ∧ (analyzeExchangeProximity env address maxHops fuel).pathStrength = "STRONG"
    ∧ analyzeExchangeProximity env address maxHops fuel
        = analyzeExchangeProximity env2 address maxHops fuel2 := by
  unfold analyzeExchangeProximity
  rw [h]
  exact ⟨rfl, rfl, rfl, rfl⟩

/-- Witness for C9 at a registry address with two unrelated environments. -/
theorem exchange_proximity_registry_self_hit_witness :
    isKnownExchange "34xp4vRoCGJym3xR7yCVPFHoCNxv4Twseo" = some ("Binance", "cold_wallet")
    ∧ ((analyzeExchangeProximity ⟨fun _ => none, fun _ => [], 0⟩
          "34xp4vRoCGJym3xR7yCVPFHoCNxv4Twseo" none 0).hopsToExchange = some 0
      ∧ (analyzeExchangeProximity ⟨fun _ => none, fun _ => [], 0⟩
          "34xp4vRoCGJym3xR7yCVPFHoCNxv4Twseo" none 0).pathQualityScore = 100
      ∧ (analyzeExchangeProximity ⟨fun _ => none, fun _ => [], 0⟩
          "34xp4vRoCGJym3xR7yCVPFHoCNxv4Twseo" none 0).pathStrength = "STRONG"
      ∧ analyzeExchangeProximity ⟨fun _ => none, fun _ => [], 0⟩
          "34xp4vRoCGJym3xR7yCVPFHoCNxv4Twseo" none 0
          = analyzeExchangeProximity ⟨fun _ => some ⟨"y", [], [], none⟩, fun _ => [("t", none)], 7⟩
            "34xp4vRoCGJym3xR7yCVPFHoCNxv4Twseo" none 99) := by
  have h : isKnownExchange "34xp4vRoCGJym3xR7yCVPFHoCNxv4Twseo"
      = some ("Binance", "cold_wallet") := by
    simp [isKnownExchange, KNOWN_EXCHANGE_ADDRESSES]
  exact ⟨h, exchange_proximity_registry_self_hit _ _ _ _ _ _ _ h⟩

/-! #### C4 — the CoinJoin quality factor of the overall privacy score -/

/-- Factor 1 of `_calculate_overall_privacy`: share of the original value in
COLD trails, up to 50 points. -/
def kycColdPoints (r : KYCTraceResult) : ℚ :=
  if 0 < r.originalValueSats then
    ((r.probableDestinations.filter fun d => d.trailStatus == .cold).map
        fun d => (d.valueSats : ℚ)).sum / (r.originalValueSats : ℚ) * 50
  else 0

/-- Factor 2 of `_calculate_overall_privacy`: absence of high-confidence
destinations, up to 30 points. -/
def kycHighConfPoints (r : KYCTraceResult) : ℚ :=
  let highConf := r.probableDestinations.filter fun d => d.confidenceLevel == .high
  if highConf = [] then 30 else if highConf.length = 1 then 10 else 0

/-- Factor 3 of `_calculate_overall_privacy`: the CoinJoin quality factor,
up to 20 points. -/
def kycCoinjoinPoints (r : KYCTraceResult) : ℚ :=
  if 2 ≤ r.coinjoinsEncountered then
    if r.probableDestinations.any fun d => d.trailStatus == .cold then 20 else 10
  else if r.coinjoinsEncountered = 1 then 5 else 0

/-- The lost-trail penalty of `_calculate_overall_privacy`, up to 10 points. -/
def kycLostPenalty (r : KYCTraceResult) : ℚ :=
  let lostTrails := r.probableDestinations.filter fun d => d.trailStatus == .lost
  if lostTrails ≠ [] then
    (if 0 < r.originalValueSats then
      (lostTrails.map fun d => (d.valueSats : ℚ)).sum / (r.originalValueSats : ℚ)
    else 0) * 10
  else 0

/-- C4 (amended): the overall privacy score decomposes into the four factors,
and the CoinJoin quality factor awards its full 20 points exactly when at
least two distinct CoinJoin transactions were encountered AND some
destination went COLD; with CoinJoin passages but no COLD branch it still
awards 10 points (two or more CoinJoins) or 5 points (exactly one), not
zero. -/
theorem coinjoin_quality_bonus (r : KYCTraceResult)
    (hne : r.probableDestinations ≠ []) :
    calcOverallPrivacy r
      = max 0 (min (kycColdPoints r + kycHighConfPoints r + kycCoinjoinPoints r
          - kycLostPenalty r) 100)
    ∧ ((∀ d ∈ r.probableDestinations, d.trailStatus ≠ .cold) →
        kycCoinjoinPoints r
          = if 2 ≤ r.coinjoinsEncountered then 10
            else if r.coinjoinsEncountered = 1 then 5 else 0)
    ∧ (kycCoinjoinPoints r = 20 ↔
        2 ≤ r.coinjoinsEncountered ∧ ∃ d ∈ r.probableDestinations, d.trailStatus = .cold) := by
  refine ⟨?_, ?_, ?_⟩
  · simp only [calcOverallPrivacy, kycColdPoints, kycHighConfPoints, kycCoinjoinPoints,
      kycLostPenalty, if_neg hne]
  · intro hnocold
    have hany : (r.probableDestinations.any fun d => d.trailStatus == .cold) = false := by
      simp only [List.any_eq_false, beq_iff_eq]
      intro d hd
      exact hnocold d hd
    simp only [kycCoinjoinPoints, hany, Bool.false_eq_true, if_false]
  · unfold kycCoinjoinPoints
    split_ifs with h2 hany h1
    · simp only [List.any_eq_true, beq_iff_eq] at hany
      exact ⟨fun _ => ⟨h2, hany⟩, fun _ => rfl⟩
    · simp only [List.any_eq_true, beq_iff_eq] at hany
      constructor
      · intro h; norm_num at h
      · intro ⟨_, hex⟩; exact absurd hex hany
    · constructor
      · intro h; norm_num at h
      · intro ⟨hc, _⟩; exact absurd hc h2
    · constructor
      · intro h; norm_num at h
      · intro ⟨hc, _⟩; exact absurd hc h2

/-- A destination that passed two CoinJoins but did not go cold. -/
def c4Dest : ProbableDestination :=
  { address := "a1", valueSats := 50, confidenceScore := 3/10, confidenceLevel := .low
    pathLength := 3, coinjoinsPassed := 2, trailStatus := .deadEnd, path := [] }

/-- A KYC result with two CoinJoins encountered and no COLD branch. -/
def c4Result : KYCTraceResult :=
  { exchangeTxid := "t", destinationAddress := "a0", originalValueSats := 100
    traceDepth := 6, probableDestinations := [c4Dest], coinjoinsEncountered := 2 }

/-- C4 counterexample: a result whose destinations include CoinJoin passages
(two CoinJoins encountered) but no COLD branch scores 40 = 0 + 30 + 10 - 0:
the CoinJoin factor contributes 10, not the zero the claim asserts (which
would give 30). -/
theorem coinjoin_bonus_without_cold_counterexample :
    (∀ d ∈ c4Result.probableDestinations, d.trailStatus ≠ .cold)
    ∧ 2 ≤ c4Result.coinjoinsEncountered
    ∧ (∃ d ∈ c4Result.probableDestinations, 0 < d.coinjoinsPassed)
    ∧ calcOverallPrivacy c4Result = 40
    ∧ calcOverallPrivacy c4Result ≠ 30 := by
  refine ⟨?_, by norm_num [c4Result], ⟨c4Dest, by simp [c4Result], by norm_num [c4Dest]⟩, ?_, ?_⟩
  · simp [c4Result, c4Dest]
  all_goals
    have e1 : (TrailStatus.deadEnd == TrailStatus.cold) = false := by decide
    have e2 : (ConfidenceLevel.low == ConfidenceLevel.high) = false := by decide
    have e3 : (TrailStatus.deadEnd == TrailStatus.lost) = false := by decide
    simp [calcOverallPrivacy, c4Result, c4Dest, List.filter, e1, e2, e3]
    norm_num [min_def, max_def]

/-- Witness for C4 at the concrete result `c4Result`. -/
theorem coinjoin_quality_bonus_witness :
    c4Result.probableDestinations ≠ []
    ∧ (calcOverallPrivacy c4Result
        = max 0 (min (kycColdPoints c4Result + kycHighConfPoints c4Result
            + kycCoinjoinPoints c4Result - kycLostPenalty c4Result) 100)
      ∧ ((∀ d ∈ c4Result.probableDestinations, d.trailStatus ≠ .cold) →
          kycCoinjoinPoints c4Result
            = if 2 ≤ c4Result.coinjoinsEncountered then 10
              else if c4Result.coinjoinsEncountered = 1 then 5 else 0)
      ∧ (kycCoinjoinPoints c4Result = 20 ↔
          2 ≤ c4Result.coinjoinsEncountered
          ∧ ∃ d ∈ c4Result.probableDestinations, d.trailStatus = .cold)) :=
  ⟨by simp [c4Result], coinjoin_quality_bonus c4Result (by simp [c4Result])⟩

/-! #### C6 — the peeling-chain verdict -/

/-- C6 (amended): for a followed chain of at least 3 transactions the
confidence equals 0.5, plus 0.2 if the chain length is ≥ 5 (else 0.1), plus
the payment-similarity bonus with STRICT thresholds (+0.2 when strictly more
than 70% of the recorded payments lie strictly within 50% of their average,
else +0.1 when strictly more than 50% do), plus a flat 0.1, capped at 0.95;
`is_peeling_chain` holds exactly when the confidence is ≥ 0.6, and chains
shorter than 3 transactions are never flagged. -/
theorem detect_peeling_chain_verdict (tr : TraceResult) :
    (3 ≤ (detectPeelingChain tr).chainLength →
      (detectPeelingChain tr).confidence
        = min (95/100)
            (1/2 + (if 5 ≤ (detectPeelingChain tr).chainLength then 2/10 else 1/10)
              + peelSimilarityBonus (detectPeelingChain tr).paymentAmountsSats + 1/10)
      ∧ ((detectPeelingChain tr).isPeelingChain = true
          ↔ 6/10 ≤ (detectPeelingChain tr).confidence))
    ∧ ((detectPeelingChain tr).chainLength < 3 →
        (detectPeelingChain tr).isPeelingChain = false) := by
  unfold detectPeelingChain
  generalize peelWalk tr 25 (tr.startTxid, tr.startVout) [] [] [] = w
  obtain ⟨chain, pays, cur⟩ := w
  dsimp only
  split_ifs <;> simp_all [decide_eq_true_eq]

/-- A node of the peeling counterexample trace. -/
def peelNode (t : String) (v : Nat) (val : ℤ) (st : UTXOStatus) : UTXONode :=
  { txid := t, vout := v, valueSats := val, address := none
    scriptType := "unknown", status := st, blockHeight := none }

/-- A 10-transaction peeling chain whose payments are 7 × 100 sats and
3 × 200 sats: exactly 70% of them lie within 50% of the average (130). -/
def peelExample : TraceResult :=
  { startTxid := "t0", startVout := 0, direction := "forward", maxDepth := 10
    nodes :=
      [peelNode "t0" 0 100000 .spent,
       peelNode "c1" 0 100 .spent, peelNode "c1" 1 99000 .spent,
       peelNode "c2" 0 100 .spent, peelNode "c2" 1 98000 .spent,
       peelNode "c3" 0 100 .spent, peelNode "c3" 1 97000 .spent,
       peelNode "c4" 0 100 .spent, peelNode "c4" 1 96000 .spent,
       peelNode "c5" 0 100 .spent, peelNode "c5" 1 95000 .spent,
       peelNode "c6" 0 100 .spent, peelNode "c6" 1 94000 .spent,
       peelNode "c7" 0 100 .spent, peelNode "c7" 1 93000 .spent,
       peelNode "c8" 0 200 .spent, peelNode "c8" 1 92000 .spent,
       peelNode "c9" 0 200 .spent, peelNode "c9" 1 91000 .spent,
       peelNode "c10" 0 200 .spent, peelNode "c10" 1 90000 .unspent]
    edges :=
      [⟨"t0", 0, "c1", 0, 0⟩, ⟨"c1", 1, "c2", 0, 0⟩, ⟨"c2", 1, "c3", 0, 0⟩,
       ⟨"c3", 1, "c4", 0, 0⟩, ⟨"c4", 1, "c5", 0, 0⟩, ⟨"c5", 1, "c6", 0, 0⟩,
       ⟨"c6", 1, "c7", 0, 0⟩, ⟨"c7", 1, "c8", 0, 0⟩, ⟨"c8", 1, "c9", 0, 0⟩,
       ⟨"c9", 1, "c10", 0, 0⟩] }

/-- A single productive iteration of the peeling-chain walk. -/
theorem peelWalk_step (tr : TraceResult) (fuel : Nat) (cur : String × Nat)
    (visited : List (String × Nat)) (chain : List String) (payments : List ℤ)
    (edge : TraceEdge) (pay chg : UTXONode)
    (he : spendMapLookup tr.edges cur = some edge)
    (hnv : cur ∉ visited)
    (hsort : (tr.nodes.filter fun n => n.txid == edge.toTxid).mergeSort
        (fun a b => decide (a.valueSats ≤ b.valueSats)) = [pay, chg])
    (hne : tr.nodes.filter (fun n => n.txid == edge.toTxid) ≠ [])
    (hlen : chain.length + 1 ≤ 20) :
    peelWalk tr (fuel + 1) cur visited chain payments
      = peelWalk tr fuel (chg.txid, chg.vout) (cur :: visited)
          (chain ++ [edge.toTxid]) (payments ++ [pay.valueSats]) := by
  rw [peelWalk, he]
  dsimp only
  rw [if_neg hnv]
  simp only [hsort, if_neg hne]
  have h2 : 2 ≤ ([pay, chg] : List UTXONode).length := by simp
  rw [if_pos h2]
  simp only [List.head?, List.getLast?]
  have hl : ¬ 20 < (chain ++ [edge.toTxid]).length := by
    simp only [List.length_append, List.length_cons, List.length_nil]
    omega
  rw [if_neg hl]
  rfl

/-- The peeling-chain walk stops when the current key has no spending edge. -/
theorem peelWalk_stop (tr : TraceResult) (fuel : Nat) (cur : String × Nat)
    (visited : List (String × Nat)) (chain : List String) (payments : List ℤ)
    (he : spendMapLookup tr.edges cur = none) :
    peelWalk tr (fuel + 1) cur visited chain payments = (chain, payments, cur) := by
  simp [peelWalk, he]

set_option maxHeartbeats 1000000 in
/-- Running the detector on `peelExample` in full. -/
theorem peelExample_run :
    detectPeelingChain peelExample =
      { isPeelingChain := true, chainLength := 10
        transactions := ["c1", "c2", "c3", "c4", "c5", "c6", "c7", "c8", "c9", "c10"]
        confidence := 9/10, totalPeeledSats := 1300, remainingSats := 90000
        paymentAmountsSats := [100, 100, 100, 100, 100, 100, 100, 200, 200, 200]
        privacyImpact := "critical" } := by
  have hw : peelWalk peelExample 25 ("t0", 0) [] [] []
      = (["c1", "c2", "c3", "c4", "c5", "c6", "c7", "c8", "c9", "c10"],
         [100, 100, 100, 100, 100, 100, 100, 200, 200, 200], ("c10", 1)) := by
    rw [show (25 : Nat) = 24 + 1 from rfl,
      peelWalk_step peelExample 24 _ _ _ _ ⟨"t0", 0, "c1", 0, 0⟩
        (peelNode "c1" 0 100 .spent) (peelNode "c1" 1 99000 .spent)
        (by decide) (by decide)
        (by
          rw [show peelExample.nodes.filter
                (fun n => n.txid == (⟨"t0", 0, "c1", 0, 0⟩ : TraceEdge).toTxid)
              = [(peelNode "c1" 0 100 .spent), (peelNode "c1" 1 99000 .spent)] from by decide]
          simp [List.mergeSort, peelNode])
        (by decide) (by decide)]
    rw [show (24 : Nat) = 23 + 1 from rfl,
      peelWalk_step peelExample 23 _ _ _ _ ⟨"c1", 1, "c2", 0, 0⟩
        (peelNode "c2" 0 100 .spent) (peelNode "c2" 1 98000 .spent)
        (by decide) (by decide)
        (by
          rw [show peelExample.nodes.filter
                (fun n => n.txid == (⟨"c1", 1, "c2", 0, 0⟩ : TraceEdge).toTxid)
              = [(peelNode "c2" 0 100 .spent), (peelNode "c2" 1 98000 .spent)] from by decide]
          simp [List.mergeSort, peelNode])
        (by decide) (by decide)]
    rw [show (23 : Nat) = 22 + 1 from rfl,
      peelWalk_step peelExample 22 _ _ _ _ ⟨"c2", 1, "c3", 0, 0⟩
        (peelNode "c3" 0 100 .spent) (peelNode "c3" 1 97000 .spent)
        (by decide) (by decide)
        (by
          rw [show peelExample.nodes.filter
                (fun n => n.txid == (⟨"c2", 1, "c3", 0, 0⟩ : TraceEdge).toTxid)
              = [(peelNode "c3" 0 100 .spent), (peelNode "c3" 1 97000 .spent)] from by decide]
          simp [List.mergeSort, peelNode])
        (by decide) (by decide)]
    rw [show (22 : Nat) = 21 + 1 from rfl,
      peelWalk_step peelExample 21 _ _ _ _ ⟨"c3", 1, "c4", 0, 0⟩
        (peelNode "c4" 0 100 .spent) (peelNode "c4" 1 96000 .spent)
        (by decide) (by decide)
        (by
          rw [show peelExample.nodes.filter
                (fun n => n.txid == (⟨"c3", 1, "c4", 0, 0⟩ : TraceEdge).toTxid)
              = [(peelNode "c4" 0 100 .spent), (peelNode "c4" 1 96000 .spent)] from by decide]
          simp [List.mergeSort, peelNode])
        (by decide) (by decide)]
    rw [show (21 : Nat) = 20 + 1 from rfl,
      peelWalk_step peelExample 20 _ _ _ _ ⟨"c4", 1, "c5", 0, 0⟩
        (peelNode "c5" 0 100 .spent) (peelNode "c5" 1 95000 .spent)
        (by decide) (by decide)
        (by
          rw [show peelExample.nodes.filter
                (fun n => n.txid == (⟨"c4", 1, "c5", 0, 0⟩ : TraceEdge).toTxid)
              = [(peelNode "c5" 0 100 .spent), (peelNode "c5" 1 95000 .spent)] from by decide]
          simp [List.mergeSort, peelNode])
        (by decide) (by decide)]
    rw [show (20 : Nat) = 19 + 1 from rfl,
      peelWalk_step peelExample 19 _ _ _ _ ⟨"c5", 1, "c6", 0, 0⟩
        (peelNode "c6" 0 100 .spent) (peelNode "c6" 1 94000 .spent)
        (by decide) (by decide)
        (by
          rw [show peelExample.nodes.filter
                (fun n => n.txid == (⟨"c5", 1, "c6", 0, 0⟩ : TraceEdge).toTxid)
              = [(peelNode "c6" 0 100 .spent), (peelNode "c6" 1 94000 .spent)] from by decide]
          simp [List.mergeSort, peelNode])
        (by decide) (by decide)]
    rw [show (19 : Nat) = 18 + 1 from rfl,
      peelWalk_step peelExample 18 _ _ _ _ ⟨"c6", 1, "c7", 0, 0⟩
        (peelNode "c7" 0 100 .spent) (peelNode "c7" 1 93000 .spent)
        (by decide) (by decide)
        (by
          rw [show peelExample.nodes.filter
                (fun n => n.txid == (⟨"c6", 1, "c7", 0, 0⟩ : TraceEdge).toTxid)
              = [(peelNode "c7" 0 100 .spent), (peelNode "c7" 1 93000 .spent)] from by decide]
          simp [List.mergeSort, peelNode])
        (by decide) (by decide)]
    rw [show (18 : Nat) = 17 + 1 from rfl,
      peelWalk_step peelExample 17 _ _ _ _ ⟨"c7", 1, "c8", 0, 0⟩
        (peelNode "c8" 0 200 .spent) (peelNode "c8" 1 92000 .spent)
        (by decide) (by decide)
        (by
          rw [show peelExample.nodes.filter
                (fun n => n.txid == (⟨"c7", 1, "c8", 0, 0⟩ : TraceEdge).toTxid)
              = [(peelNode "c8" 0 200 .spent), (peelNode "c8" 1 92000 .spent)] from by decide]
          simp [List.mergeSort, peelNode])
        (by decide) (by decide)]
    rw [show (17 : Nat) = 16 + 1 from rfl,
      peelWalk_step peelExample 16 _ _ _ _ ⟨"c8", 1, "c9", 0, 0⟩
        (peelNode "c9" 0 200 .spent) (peelNode "c9" 1 91000 .spent)
        (by decide) (by decide)
        (by
          rw [show peelExample.nodes.filter
                (fun n => n.txid == (⟨"c8", 1, "c9", 0, 0⟩ : TraceEdge).toTxid)
              = [(peelNode "c9" 0 200 .spent), (peelNode "c9" 1 91000 .spent)] from by decide]
          simp [List.mergeSort, peelNode])
        (by decide) (by decide)]
    rw [show (16 : Nat) = 15 + 1 from rfl,
      peelWalk_step peelExample 15 _ _ _ _ ⟨"c9", 1, "c10", 0, 0⟩
        (peelNode "c10" 0 200 .spent) (peelNode "c10" 1 90000 .unspent)
        (by decide) (by decide)
        (by
          rw [show peelExample.nodes.filter
                (fun n => n.txid == (⟨"c9", 1, "c10", 0, 0⟩ : TraceEdge).toTxid)
              = [(peelNode "c10" 0 200 .spent), (peelNode "c10" 1 90000 .unspent)] from by decide]
          simp [List.mergeSort, peelNode])
        (by decide) (by decide)]
    rw [show (15 : Nat) = 14 + 1 from rfl, peelWalk_stop peelExample 14 _ _ _ _ (by decide)]
    decide
  have hne : ([100, 100, 100, 100, 100, 100, 100, 200, 200, 200] : List ℤ) ≠ [] := by simp
  have hsim : peelSimilarityBonus [100, 100, 100, 100, 100, 100, 100, 200, 200, 200]
      = 1/10 := by
    unfold peelSimilarityBonus
    rw [if_pos hne]
    norm_num [List.filter]
  have hmin : min ((95 : ℚ)/100) (1/2 + 2/10 + 1/10 + 1/10) = 9/10 := by norm_num
  unfold detectPeelingChain
  rw [show (peelExample.startTxid, peelExample.startVout) = ("t0", 0) from rfl]
  rw [if_neg (by decide : ¬ peelExample.edges.length < 2)]
  rw [if_neg (by decide : ¬ nodeMapLookup peelExample.nodes ("t0", 0) = none)]
  rw [hw]
  dsimp only
  rw [if_neg (by decide : ¬ (["c1", "c2", "c3", "c4", "c5", "c6", "c7", "c8", "c9",
    "c10"] : List String).length < 3)]
  rw [if_pos (by decide : 5 ≤ (["c1", "c2", "c3", "c4", "c5", "c6", "c7", "c8", "c9",
    "c10"] : List String).length)]
  rw [hsim, hmin]
  rw [show nodeMapLookup peelExample.nodes ("c10", 1)
      = some (peelNode "c10" 1 90000 .unspent) from by decide]
  simp only [peelNode]
  norm_num [PeelingResult.mk.injEq, decide_eq_true_eq]

/-- C6 counterexample: on `peelExample` exactly 7 of the 10 payments (70%,
not more) lie within 50% of their average of 130, so the code awards +0.1,
not the +0.2 the claim's "at least 70%" reading asserts: the confidence is
0.9, not min 0.95 (0.5 + 0.2 + 0.2 + 0.1) = 0.95. -/
theorem detect_peeling_chain_seventy_percent_counterexample :
    (detectPeelingChain peelExample).chainLength = 10
    ∧ (detectPeelingChain peelExample).paymentAmountsSats
        = [100, 100, 100, 100, 100, 100, 100, 200, 200, 200]
    ∧ ((detectPeelingChain peelExample).paymentAmountsSats.filter fun p =>
        decide (|(p : ℚ) - 130| / 130 < 1/2)).length = 7
    ∧ (detectPeelingChain peelExample).confidence = 9/10
    ∧ (detectPeelingChain peelExample).confidence ≠ min (95/100) (1/2 + 2/10 + 2/10 + 1/10) := by
  rw [peelExample_run]
  refine ⟨rfl, rfl, ?_, rfl, by norm_num⟩
  norm_num [List.filter]

/-- A trace with no edges, on which no peeling chain can be followed. -/
def emptyTrace : TraceResult :=
  { startTxid := "x", startVout := 0, direction := "forward", maxDepth := 1 }

/-- Witness for C6: the amended formula on the concrete 10-chain, and the
never-flagged clause on a trace with no edges. -/
theorem detect_peeling_chain_verdict_witness :
    (3 ≤ (detectPeelingChain peelExample).chainLength
      ∧ ((detectPeelingChain peelExample).confidence
          = min (95/100)
              (1/2 + (if 5 ≤ (detectPeelingChain peelExample).chainLength then 2/10 else 1/10)
                + peelSimilarityBonus (detectPeelingChain peelExample).paymentAmountsSats + 1/10)
        ∧ ((detectPeelingChain peelExample).isPeelingChain = true
            ↔ 6/10 ≤ (detectPeelingChain peelExample).confidence)))
    ∧ ((detectPeelingChain emptyTrace).chainLength < 3
      ∧ (detectPeelingChain emptyTrace).isPeelingChain = false) := by
  have h10 : 3 ≤ (detectPeelingChain peelExample).chainLength := by
    rw [peelExample_run]
    norm_num
  have h0 : (detectPeelingChain emptyTrace).chainLength < 3 := by
    norm_num [detectPeelingChain, emptyTrace]
  exact ⟨⟨h10, (detect_peeling_chain_verdict peelExample).1 h10⟩,
         ⟨h0, (detect_peeling_chain_verdict emptyTrace).2 h0⟩⟩

/-! ### C5 — whirlpool classification of 5-equal-output transactions -/

/-- Five copies of one rational have maximal multiplicity 5. -/
theorem maxEqualCount_five (c : ℚ) : maxEqualCount [c, c, c, c, c] = 5 := by
  simp [maxEqualCount, List.count_cons]

/-- `eraseDups` of five equal rationals. -/
theorem eraseDups_five (c : ℚ) : List.eraseDups [c, c, c, c, c] = [c] := by
  simp [List.eraseDups, List.eraseDups.loop]

/-- The max-multiplicity value of five equal rationals. -/
theorem firstMaxCountValue_five (c : ℚ) : firstMaxCountValue [c, c, c, c, c] = some c := by
  simp [firstMaxCountValue, maxEqualCount_five, eraseDups_five, List.count_cons, List.find?]

/-- A list of length 5 all of whose members equal `c` is `[c, c, c, c, c]`. -/
theorem list_len5_const {l : List ℚ} {c : ℚ} (hlen : l.length = 5)
    (h : ∀ x ∈ l, x = c) : l = [c, c, c, c, c] := by
  have : l = List.replicate 5 c := List.eq_replicate_iff.mpr ⟨hlen, h⟩
  simpa using this

/-- On stats with 5 outputs, all 5 (rounded) equal, the whirlpool detector wins
the protocol pass outright: every other detector scores strictly below its
0.80-or-0.95 result. -/
theorem bestProtocol_whirlpool5 (stats : TransactionStats) (c : ℚ)
    (h1 : stats.outputCount = 5) (h2 : stats.maxEqualOutputs = 5)
    (h3 : stats.equalOutputValue = some c) :
    bestProtocolResult stats = (.whirlpool, detectWhirlpool stats) ∧
      detectWhirlpool stats =
        (if whirlpoolDenominations.any fun denom =>
             |c - denom| < whirlpoolTolerance
         then ((95:ℚ)/100, (95:ℚ)/100) else ((80:ℚ)/100, (70:ℚ)/100)) := by
  have hW : detectWhirlpool stats =
      (if whirlpoolDenominations.any fun denom => |c - denom| < whirlpoolTolerance
       then ((95:ℚ)/100, (95:ℚ)/100) else ((80:ℚ)/100, (70:ℚ)/100)) := by
    simp [detectWhirlpool, h1, h2, h3]
  have hw1 : 8/10 ≤ (detectWhirlpool stats).1 := by
    rw [hW]; split <;> norm_num
  have hw2 : (detectWhirlpool stats).1 ≤ 95/100 := by
    rw [hW]; split <;> norm_num
  have hV1 : detectWasabiV1 stats = (0, 0) := by
    simp [detectWasabiV1, h2, wasabiMinEqualOutputs]
  have hV2 : detectWasabiV2 stats = (0, 0) := by
    simp only [detectWasabiV2, h1]
    norm_num
  have hJM : (detectJoinmarket stats).1 ≤ 7/10 := by
    unfold detectJoinmarket; split_ifs <;> norm_num
  have hPJ : (detectPayjoin stats).1 ≤ 4/10 := by
    simp only [detectPayjoin]
    split_ifs <;> norm_num
  have hpos : (0:ℚ) < (detectWhirlpool stats).1 := by linarith
  have hnot2 : ¬ ((detectWhirlpool stats).1 < 0) := by linarith
  have hnot4 : ¬ ((detectWhirlpool stats).1 < (detectJoinmarket stats).1) := by linarith
  have hnot5 : ¬ ((detectWhirlpool stats).1 < (detectPayjoin stats).1) := by linarith
  refine ⟨?_, hW⟩
  simp [bestProtocolResult, hV1, hV2, hpos, hnot2, hnot4, hnot5]

/-- C5: a non-coinbase transaction with exactly 5 outputs whose values all
round (to 8 decimals) to the same `c` is classified as whirlpool, with score
0.95 when `c` is within the 0.0001 tolerance of a canonical denomination
(0.001 / 0.01 / 0.05 / 0.5 BTC) and score 0.80 otherwise. -/
theorem classify_whirlpool_five_equal_outputs (tx : Tx) (c : ℚ)
    (hcb : tx.vin.any (·.hasCoinbase) = false)
    (hlen : tx.vout.length = 5)
    (hc : ∀ o ∈ tx.vout, round8 o.value = c) :
    (analyzeTransaction tx).protocol = .whirlpool ∧
    (analyzeTransaction tx).score =
      (if whirlpoolDenominations.any fun denom => |c - denom| < whirlpoolTolerance
       then (95:ℚ)/100 else (80:ℚ)/100) := by
  have hrounded : (tx.vout.map (·.value)).map round8 = [c, c, c, c, c] := by
    apply list_len5_const
    · simp [hlen]
    · intro x hx
      simp only [List.map_map, List.mem_map, Function.comp] at hx
      obtain ⟨o, ho, rfl⟩ := hx
      exact hc o ho
  have h1 : (TransactionStats.fromTransaction tx).outputCount = 5 := by
    simp [TransactionStats.fromTransaction, hlen]
  have h2 : (TransactionStats.fromTransaction tx).maxEqualOutputs = 5 := by
    simp only [TransactionStats.fromTransaction]
    rw [hrounded, maxEqualCount_five]
  have h3 : (TransactionStats.fromTransaction tx).equalOutputValue = some c := by
    simp only [TransactionStats.fromTransaction]
    rw [hrounded, maxEqualCount_five, firstMaxCountValue_five]
    norm_num
  have hcb' : (TransactionStats.fromTransaction tx).isCoinbase = false := by
    simp only [TransactionStats.fromTransaction]
    exact hcb
  obtain ⟨hbest, hW⟩ := bestProtocol_whirlpool5 (TransactionStats.fromTransaction tx) c h1 h2 h3
  have hge : ¬ ((bestProtocolResult (TransactionStats.fromTransaction tx)).2.1 < 1/2) := by
    rw [hbest, hW]
    split <;> norm_num
  simp only [analyzeTransaction, hcb', Bool.false_eq_true, if_false]
  rw [if_neg hge, hbest, hW]
  constructor
  · rfl
  · split <;> rfl

/-- A 1-input (non-coinbase) transaction with five 0.001-BTC outputs. -/
def c5Tx : Tx :=
  { txid := "c5tx", vin := [{}],
    vout := [{ value := 1/1000 }, { value := 1/1000 }, { value := 1/1000 },
             { value := 1/1000 }, { value := 1/1000 }] }

/-- Witness for C5: five equal 0.001-BTC outputs classify as whirlpool, 0.95. -/
theorem classify_whirlpool_five_equal_outputs_witness :
    c5Tx.vin.any (·.hasCoinbase) = false ∧ c5Tx.vout.length = 5 ∧
    (∀ o ∈ c5Tx.vout, round8 o.value = 1/1000) ∧
    (analyzeTransaction c5Tx).protocol = .whirlpool ∧
    (analyzeTransaction c5Tx).score = 95/100 := by
  have hcb : c5Tx.vin.any (·.hasCoinbase) = false := by decide
  have hlen : c5Tx.vout.length = 5 := by decide
  have hr : round8 ((1:ℚ)/1000) = 1/1000 := by
    norm_num [round8, pyRound, round_eq]
  have hc : ∀ o ∈ c5Tx.vout, round8 o.value = 1/1000 := by
    intro o ho
    simp only [c5Tx, List.mem_cons, List.not_mem_nil, or_false] at ho
    rcases ho with rfl | rfl | rfl | rfl | rfl <;> exact hr
  have hden : (whirlpoolDenominations.any fun denom =>
      |(1:ℚ)/1000 - denom| < whirlpoolTolerance) = true := by
    norm_num [whirlpoolDenominations, whirlpoolTolerance, List.any_cons]
  obtain ⟨hp, hs⟩ := classify_whirlpool_five_equal_outputs c5Tx (1/1000) hcb hlen hc
  refine ⟨hcb, hlen, hc, hp, ?_⟩
  rw [hs, if_pos hden]

/-! ### KYC and tracer invariants — C1, C2, C3, C7, C8 -/

theorem getCoinjoinDetails_bound (tx : Tx)
    (h : COINJOIN_THRESHOLD ≤ calcCoinjoinScore tx) :
    2 ≤ (getCoinjoinDetails tx (calcCoinjoinScore tx)).2 ∧
    protocolMultiplier (getCoinjoinDetails tx (calcCoinjoinScore tx)).1
      ≤ (2/5) * ((getCoinjoinDetails tx (calcCoinjoinScore tx)).2 : ℚ) := by
  have hnl : ¬ (calcCoinjoinScore tx < COINJOIN_THRESHOLD) := not_lt.mpr h
  unfold getCoinjoinDetails
  rw [if_neg hnl]
  unfold calcCoinjoinScore COINJOIN_THRESHOLD at h
  dsimp only at h ⊢
  split_ifs with h1 h2 h3 h4
  · refine ⟨by omega, ?_⟩
    have hm : protocolMultiplier "whirlpool" = 15/10 := rfl
    dsimp only
    rw [hm]
    norm_num
  · refine ⟨by omega, ?_⟩
    have hm : protocolMultiplier "wasabi_v1" = 13/10 := rfl
    have hc : (10:ℚ) ≤ ((maxEqualCount (tx.vout.map fun out => round8 out.value) : ℕ) : ℚ) := by
      exact_mod_cast h2
    dsimp only
    rw [hm]
    linarith
  · refine ⟨by omega, ?_⟩
    have hm : protocolMultiplier "wasabi_v2" = 18/10 := rfl
    have hc : (10:ℚ) ≤ ((min tx.vin.length tx.vout.length : ℕ) : ℚ) := by
      exact_mod_cast Nat.le_min.mpr ⟨h3.1, h3.2⟩
    dsimp only
    rw [hm]
    linarith
  · refine ⟨by omega, ?_⟩
    have hm : protocolMultiplier "joinmarket" = 2 := rfl
    have hc : (5:ℚ) ≤ ((maxEqualCount (tx.vout.map fun out => round8 out.value) : ℕ) : ℚ) := by
      exact_mod_cast h4.1
    dsimp only
    rw [hm]
    linarith
  · exfalso
    split_ifs at h <;> norm_num at h <;> tauto

theorem nodeStepConfidence_coinjoin (tx : Tx) (prev : ℚ)
    (hcj : COINJOIN_THRESHOLD ≤ calcCoinjoinScore tx) :
    nodeStepConfidence tx prev =
      calcCoinjoinConfidenceDegradation
        (getCoinjoinDetails tx (calcCoinjoinScore tx)).1
        (getCoinjoinDetails tx (calcCoinjoinScore tx)).2 prev := by
  unfold nodeStepConfidence
  simp only [decide_eq_true hcj, if_true]

theorem nodeStepConfidence_plain (tx : Tx) (prev : ℚ)
    (hlt : calcCoinjoinScore tx < COINJOIN_THRESHOLD) :
    nodeStepConfidence tx prev = prev * (95/100) := by
  unfold nodeStepConfidence
  simp only [decide_eq_false (not_le.mpr hlt), Bool.false_eq_true, if_false]

theorem nodeStepConfidence_bounds (tx : Tx) (prev : ℚ) (hprev : 1/20 ≤ prev) :
    1/1000 ≤ nodeStepConfidence tx prev ∧ nodeStepConfidence tx prev ≤ prev * (11/10) := by
  by_cases hcj : COINJOIN_THRESHOLD ≤ calcCoinjoinScore tx
  · rw [nodeStepConfidence_coinjoin tx prev hcj]
    obtain ⟨hn2, hmult⟩ := getCoinjoinDetails_bound tx hcj
    unfold calcCoinjoinConfidenceDegradation
    rw [if_neg (by omega)]
    dsimp only
    have hn0 : (0:ℚ) < ((getCoinjoinDetails tx (calcCoinjoinScore tx)).2 : ℚ) := by
      exact_mod_cast Nat.lt_of_lt_of_le (by norm_num) hn2
    have hx : (1 / ((getCoinjoinDetails tx (calcCoinjoinScore tx)).2 : ℚ))
        * protocolMultiplier (getCoinjoinDetails tx (calcCoinjoinScore tx)).1 ≤ 2/5 := by
      rw [one_div, inv_mul_eq_div, div_le_iff hn0]
      linarith
    refine ⟨le_max_right _ _, max_le ?_ (by linarith)⟩
    calc prev * (1 / ((getCoinjoinDetails tx (calcCoinjoinScore tx)).2 : ℚ)
            * protocolMultiplier (getCoinjoinDetails tx (calcCoinjoinScore tx)).1)
        ≤ prev * (2/5) := by
          apply mul_le_mul_of_nonneg_left hx (by linarith)
      _ ≤ prev * (11/10) := by linarith
  · rw [nodeStepConfidence_plain tx prev (not_le.mp hcj)]
    constructor <;> linarith

/-- C1: for every dequeued KYC hop whose transaction is classified as a
CoinJoin (score ≥ 0.7) with detected protocol `p` and anonymity-set size
`n ≥ 2`, the node's cumulative confidence equals
`max (prev * (1/n) * multiplier p) 0.001`, where the multiplier maps
whirlpool to 1.5, wasabi_v1 to 1.3, wasabi_v2 to 1.8, joinmarket to 2.0 and
unknown to 2.5; a hop that is not a CoinJoin gets `prev * 0.95`. -/
theorem kyc_confidence_update (tx : Tx) (prev : ℚ) :
    (∀ p n, COINJOIN_THRESHOLD ≤ calcCoinjoinScore tx →
        getCoinjoinDetails tx (calcCoinjoinScore tx) = (p, n) → 2 ≤ n →
        nodeStepConfidence tx prev
          = max (prev * ((1 / (n:ℚ)) * protocolMultiplier p)) (1/1000)) ∧
    (calcCoinjoinScore tx < COINJOIN_THRESHOLD →
        nodeStepConfidence tx prev = prev * (95/100)) ∧
    protocolMultiplier "whirlpool" = 15/10 ∧ protocolMultiplier "wasabi_v1" = 13/10 ∧
    protocolMultiplier "wasabi_v2" = 18/10 ∧ protocolMultiplier "joinmarket" = 2 ∧
    protocolMultiplier "unknown" = 25/10 := by
  refine ⟨?_, ?_, rfl, rfl, rfl, rfl, rfl⟩
  · intro p n hcj hdet hn
    rw [nodeStepConfidence_coinjoin tx prev hcj, hdet]
    unfold calcCoinjoinConfidenceDegradation
    rw [if_neg (by omega)]
  · intro hlt
    exact nodeStepConfidence_plain tx prev hlt

def c1CjTx : Tx :=
  { txid := "c1cj", vin := [{}],
    vout := [{ value := 1/1000 }, { value := 1/1000 }, { value := 1/1000 },
             { value := 1/1000 }, { value := 1/1000 }] }

def c1PlainTx : Tx :=
  { txid := "c1plain", vin := [{}], vout := [{ value := 1 }] }

theorem c1CjTx_score : calcCoinjoinScore c1CjTx = 95/100 := by
  have hr : round8 ((1:ℚ)/1000) = 1/1000 := by
    norm_num [round8, pyRound, round_eq]
  unfold calcCoinjoinScore c1CjTx
  norm_num [hr, maxEqualCount_five, List.cons_ne_nil]

theorem c1CjTx_details :
    getCoinjoinDetails c1CjTx (calcCoinjoinScore c1CjTx) = ("whirlpool", 5) := by
  have hr : round8 ((1:ℚ)/1000) = 1/1000 := by
    norm_num [round8, pyRound, round_eq]
  rw [c1CjTx_score]
  unfold getCoinjoinDetails c1CjTx COINJOIN_THRESHOLD
  norm_num [hr, maxEqualCount_five, List.cons_ne_nil]

theorem kyc_confidence_update_witness :
    (COINJOIN_THRESHOLD ≤ calcCoinjoinScore c1CjTx
      ∧ getCoinjoinDetails c1CjTx (calcCoinjoinScore c1CjTx) = ("whirlpool", 5)
      ∧ 2 ≤ 5
      ∧ nodeStepConfidence c1CjTx 1
          = max ((1:ℚ) * ((1 / (5:ℚ)) * protocolMultiplier "whirlpool")) (1/1000))
    ∧ (calcCoinjoinScore c1PlainTx < COINJOIN_THRESHOLD
      ∧ nodeStepConfidence c1PlainTx 1 = 1 * (95/100)) := by
  have h1 : COINJOIN_THRESHOLD ≤ calcCoinjoinScore c1CjTx := by
    rw [c1CjTx_score]; norm_num [COINJOIN_THRESHOLD]
  have h2 : calcCoinjoinScore c1PlainTx < COINJOIN_THRESHOLD := by
    norm_num [calcCoinjoinScore, c1PlainTx, COINJOIN_THRESHOLD]
  exact ⟨⟨h1, c1CjTx_details, by norm_num,
          (kyc_confidence_update c1CjTx 1).1 "whirlpool" 5 h1 c1CjTx_details (by norm_num)⟩,
         ⟨h2, (kyc_confidence_update c1PlainTx 1).2.1 h2⟩⟩

/-! invariant machinery -/

def pathChainBound : ℚ → List PathNode → Prop
  | _, [] => True
  | prev, n :: rest =>
      n.cumulativeConfidence ≤ prev * (11/10) ∧ pathChainBound n.cumulativeConfidence rest

def destOK (maxDepth : Nat) (d : ProbableDestination) : Prop :=
  (∀ n ∈ d.path, 1/1000 ≤ n.cumulativeConfidence) ∧
  pathChainBound 1 d.path ∧
  (∀ n ∈ d.path.dropLast, CONFIDENCE_COLD_THRESHOLD ≤ n.cumulativeConfidence) ∧
  (∀ n ∈ d.path, n.depth ≤ maxDepth)

def itemOK (maxDepth : Nat) (it : KYCQueueItem) : Prop :=
  it.depth ≤ maxDepth + 1 ∧
  (∀ n ∈ it.path, CONFIDENCE_COLD_THRESHOLD ≤ n.cumulativeConfidence) ∧
  pathChainBound 1 it.path ∧
  (∀ n ∈ it.path, n.depth ≤ maxDepth)

def kycInv (maxDepth : Nat) (s : KYCState) : Prop :=
  (∀ it ∈ s.queue, itemOK maxDepth it) ∧ (∀ d ∈ s.destinations, destOK maxDepth d)

def lastConfD (prev : ℚ) (path : List PathNode) : ℚ :=
  ((path.getLast?).map (·.cumulativeConfidence)).getD prev

theorem kycPrev_eq_lastConfD (path : List PathNode) : kycPrev path = lastConfD 1 path := rfl

theorem lastConfD_cons (prev : ℚ) (p : PathNode) (rest : List PathNode) :
    lastConfD prev (p :: rest) = lastConfD p.cumulativeConfidence rest := by
  cases rest with
  | nil => rfl
  | cons a b =>
      obtain ⟨x, hx⟩ := Option.isSome_iff_exists.mp
        (List.getLast?_isSome.mpr (List.cons_ne_nil a b))
      unfold lastConfD
      rw [List.getLast?_cons_cons, hx]
      rfl

theorem kycPrev_ge (path : List PathNode)
    (h : ∀ n ∈ path, CONFIDENCE_COLD_THRESHOLD ≤ n.cumulativeConfidence) :
    1/20 ≤ kycPrev path := by
  cases hp : path.getLast? with
  | none => unfold kycPrev; rw [hp]; norm_num
  | some n =>
      unfold kycPrev
      rw [hp]
      exact h n (List.mem_of_mem_getLast? hp)

theorem pathChainBound_append (prev : ℚ) (path : List PathNode) (n : PathNode)
    (h : pathChainBound prev path)
    (hn : n.cumulativeConfidence ≤ lastConfD prev path * (11/10)) :
    pathChainBound prev (path ++ [n]) := by
  induction path generalizing prev with
  | nil => exact ⟨hn, trivial⟩
  | cons p rest ih =>
      obtain ⟨h1, h2⟩ := h
      rw [lastConfD_cons] at hn
      exact ⟨h1, ih p.cumulativeConfidence h2 hn⟩

theorem destOK_extend (maxDepth : Nat) (path : List PathNode) (n : PathNode)
    (d : ProbableDestination)
    (hthr : ∀ m ∈ path, CONFIDENCE_COLD_THRESHOLD ≤ m.cumulativeConfidence)
    (hchain : pathChainBound 1 path)
    (hdepth : ∀ m ∈ path, m.depth ≤ maxDepth)
    (hlow : 1/1000 ≤ n.cumulativeConfidence)
    (hup : n.cumulativeConfidence ≤ kycPrev path * (11/10))
    (hnd : n.depth ≤ maxDepth)
    (hd : d.path = path ++ [n]) :
    destOK maxDepth d := by
  refine ⟨?_, ?_, ?_, ?_⟩ <;> rw [hd]
  · intro m hm
    rcases List.mem_append.mp hm with h | h
    · exact le_trans (by norm_num [CONFIDENCE_COLD_THRESHOLD]) (hthr m h)
    · rw [List.mem_singleton.mp h]; exact hlow
  · exact pathChainBound_append 1 path n hchain (by rwa [← kycPrev_eq_lastConfD])
  · rw [List.dropLast_concat]
    intro m hm; exact hthr m hm
  · intro m hm
    rcases List.mem_append.mp hm with h | h
    · exact hdepth m h
    · rw [List.mem_singleton.mp h]; exact hnd

theorem itemOK_extend (maxDepth : Nat) (path : List PathNode) (n : PathNode)
    (it : KYCQueueItem)
    (hthr : ∀ m ∈ path, CONFIDENCE_COLD_THRESHOLD ≤ m.cumulativeConfidence)
    (hchain : pathChainBound 1 path)
    (hdepth : ∀ m ∈ path, m.depth ≤ maxDepth)
    (hnthr : CONFIDENCE_COLD_THRESHOLD ≤ n.cumulativeConfidence)
    (hup : n.cumulativeConfidence ≤ kycPrev path * (11/10))
    (hnd : n.depth ≤ maxDepth)
    (hdep : it.depth ≤ maxDepth + 1)
    (hit : it.path = path ++ [n]) :
    itemOK maxDepth it := by
  refine ⟨hdep, ?_, ?_, ?_⟩ <;> rw [hit]
  · intro m hm
    rcases List.mem_append.mp hm with h | h
    · exact hthr m h
    · rw [List.mem_singleton.mp h]; exact hnthr
  · exact pathChainBound_append 1 path n hchain (by rwa [← kycPrev_eq_lastConfD])
  · intro m hm
    rcases List.mem_append.mp hm with h | h
    · exact hdepth m h
    · rw [List.mem_singleton.mp h]; exact hnd

theorem destOK_same (maxDepth : Nat) (path : List PathNode) (d : ProbableDestination)
    (hthr : ∀ m ∈ path, CONFIDENCE_COLD_THRESHOLD ≤ m.cumulativeConfidence)
    (hchain : pathChainBound 1 path)
    (hdepth : ∀ m ∈ path, m.depth ≤ maxDepth)
    (hd : d.path = path) :
    destOK maxDepth d := by
  refine ⟨?_, ?_, ?_, ?_⟩ <;> rw [hd]
  · intro m hm; exact le_trans (by norm_num [CONFIDENCE_COLD_THRESHOLD]) (hthr m hm)
  · exact hchain
  · intro m hm; exact hthr m ((List.dropLast_sublist path).subset hm)
  · exact hdepth

theorem kycStep_inv (env : TraceEnv) (maxDepth : Nat) (startValue : ℤ)
    (item : KYCQueueItem) (s : KYCState)
    (hitem : itemOK maxDepth item) (hs : kycInv maxDepth s) :
    kycInv maxDepth (kycStep env maxDepth startValue item s) := by
  obtain ⟨hdep1, hthr, hchain, hdepn⟩ := hitem
  obtain ⟨hq, hd⟩ := hs
  unfold kycStep
  by_cases hv : (item.txid, item.vout) ∈ s.visited
  · rw [if_pos hv]; exact ⟨hq, hd⟩
  rw [if_neg hv]
  by_cases hdp : maxDepth < item.depth
  · rw [if_pos hdp]
    rcases hpath : item.path with _ | ⟨p, rest⟩
    · exact ⟨hq, hd⟩
    · rw [hpath] at hthr hchain hdepn
      dsimp only
      refine ⟨hq, ?_⟩
      intro d hdm
      rcases List.mem_append.mp hdm with h | h
      · exact hd d h
      · rw [List.mem_singleton.mp h]
        exact destOK_same maxDepth (p :: rest) _ hthr hchain hdepn rfl
  rw [if_neg hdp]
  have hndep : item.depth ≤ maxDepth := Nat.not_lt.mp hdp
  rcases htx : env.getTx item.txid with _ | tx
  · exact ⟨hq, hd⟩
  simp only [htx]
  by_cases hvo : item.vout < tx.vout.length
  swap
  · rw [dif_neg hvo]; exact ⟨hq, hd⟩
  rw [dif_pos hvo]
  have hprev : 1/20 ≤ kycPrev item.path := kycPrev_ge item.path hthr
  obtain ⟨hlow, hup⟩ := nodeStepConfidence_bounds tx (kycPrev item.path) hprev
  have closeItem : ∀ (q : KYCQueueItem), q.depth = item.depth + 1 →
      (∃ node : PathNode, q.path = item.path ++ [node]
        ∧ node.cumulativeConfidence = nodeStepConfidence tx (kycPrev item.path)
        ∧ node.depth = item.depth) →
      CONFIDENCE_COLD_THRESHOLD ≤ nodeStepConfidence tx (kycPrev item.path) →
      itemOK maxDepth q := by
    rintro q hdq ⟨node, hqpath, hcc, hnd⟩ hncold
    refine itemOK_extend maxDepth item.path node q hthr hchain hdepn ?_ ?_ ?_ ?_ hqpath
    · rw [hcc]; exact hncold
    · rw [hcc]; exact hup
    · rw [hnd]; exact hndep
    · omega
  have closeDest : ∀ (dl : ProbableDestination),
      (∃ node : PathNode, dl.path = item.path ++ [node]
        ∧ node.cumulativeConfidence = nodeStepConfidence tx (kycPrev item.path)
        ∧ node.depth = item.depth) →
      destOK maxDepth dl := by
    rintro dl ⟨node, hdpath, hcc, hnd⟩
    refine destOK_extend maxDepth item.path node dl hthr hchain hdepn ?_ ?_ ?_ hdpath
    · rw [hcc]; exact hlow
    · rw [hcc]; exact hup
    · rw [hnd]; exact hndep
  cases hcjb : decide (COINJOIN_THRESHOLD ≤ calcCoinjoinScore tx) with
  | false =>
      simp only [hcjb, Bool.false_eq_true, false_and, if_false]
      try dsimp only
      rcases lt_or_ge (nodeStepConfidence tx (kycPrev item.path)) CONFIDENCE_COLD_THRESHOLD
        with hcold | hncold
      · rw [if_pos hcold]
        try dsimp only
        refine ⟨hq, ?_⟩
        intro d hdm
        rcases List.mem_append.mp hdm with h | h
        · exact hd d h
        · rw [List.mem_singleton.mp h]
          exact closeDest _ ⟨_, rfl, rfl, rfl⟩
      · rw [if_neg (not_lt.mpr hncold)]
        cases hsp : env.getTxOut item.txid item.vout with
        | true =>
            simp only [eq_self_iff_true, if_true]
            try dsimp only
            refine ⟨hq, ?_⟩
            intro d hdm
            rcases List.mem_append.mp hdm with h | h
            · exact hd d h
            · rw [List.mem_singleton.mp h]
              exact closeDest _ ⟨_, rfl, rfl, rfl⟩
        | false =>
            simp only [Bool.false_eq_true, if_false]
            by_cases helec : env.electrsEnabled = true
                ∧ (tx.vout[item.vout]).address.isSome = true ∧ ¬ s.electrsDisabled = true
            · rw [if_pos helec]
              rcases hfs : env.findSpendingTx item.txid item.vout
                  ((tx.vout[item.vout]).address.getD "") with _ | stxid
              · simp only [hfs]
                try dsimp only
                by_cases hfl : MAX_CONSECUTIVE_ELECTRS_FAILURES ≤ s.consecutiveElectrsFailures + 1
                · rw [if_pos hfl]
                  try dsimp only
                  refine ⟨hq, ?_⟩
                  intro d hdm
                  rcases List.mem_append.mp hdm with h | h
                  · exact hd d h
                  · rw [List.mem_singleton.mp h]
                    exact closeDest _ ⟨_, rfl, rfl, rfl⟩
                · rw [if_neg hfl]
                  try dsimp only
                  refine ⟨hq, ?_⟩
                  intro d hdm
                  rcases List.mem_append.mp hdm with h | h
                  · exact hd d h
                  · rw [List.mem_singleton.mp h]
                    exact closeDest _ ⟨_, rfl, rfl, rfl⟩
              · simp only [hfs]
                rcases hgx : env.getTx stxid with _ | stx
                · simp only [hgx]
                  exact ⟨hq, hd⟩
                · simp only [hgx]
                  try dsimp only
                  refine ⟨?_, hd⟩
                  intro it hit
                  rcases List.mem_append.mp hit with h | h
                  · exact hq it h
                  · obtain ⟨p, hpmem, hpf⟩ := List.mem_filterMap.mp h
                    split at hpf
                    · exact Option.noConfusion hpf
                    · rw [Option.some.injEq] at hpf
                      rw [← hpf]
                      exact closeItem _ rfl ⟨_, rfl, rfl, rfl⟩ hncold
            · rw [if_neg helec]
              try dsimp only
              refine ⟨hq, ?_⟩
              intro d hdm
              rcases List.mem_append.mp hdm with h | h
              · exact hd d h
              · rw [List.mem_singleton.mp h]
                exact closeDest _ ⟨_, rfl, rfl, rfl⟩
  | true =>
      simp only [hcjb, eq_self_iff_true, true_and, if_true]
      rcases em (item.txid ∉ s.coinjoinTxids) with hmem | hmem
      · rw [if_pos hmem]
        try dsimp only
        rcases lt_or_ge (nodeStepConfidence tx (kycPrev item.path)) CONFIDENCE_COLD_THRESHOLD
          with hcold | hncold
        · rw [if_pos hcold]
          try dsimp only
          refine ⟨hq, ?_⟩
          intro d hdm
          rcases List.mem_append.mp hdm with h | h
          · exact hd d h
          · rw [List.mem_singleton.mp h]
            exact closeDest _ ⟨_, rfl, rfl, rfl⟩
        · rw [if_neg (not_lt.mpr hncold)]
          cases hsp : env.getTxOut item.txid item.vout with
          | true =>
              simp only [eq_self_iff_true, if_true]
              try dsimp only
              refine ⟨hq, ?_⟩
              intro d hdm
              rcases List.mem_append.mp hdm with h | h
              · exact hd d h
              · rw [List.mem_singleton.mp h]
                exact closeDest _ ⟨_, rfl, rfl, rfl⟩
          | false =>
              simp only [Bool.false_eq_true, if_false]
              by_cases helec : env.electrsEnabled = true
                  ∧ (tx.vout[item.vout]).address.isSome = true ∧ ¬ s.electrsDisabled = true
              · rw [if_pos helec]
                rcases hfs : env.findSpendingTx item.txid item.vout
                    ((tx.vout[item.vout]).address.getD "") with _ | stxid
                · simp only [hfs]
                  try dsimp only
                  by_cases hfl : MAX_CONSECUTIVE_ELECTRS_FAILURES ≤ s.consecutiveElectrsFailures + 1
                  · rw [if_pos hfl]
                    try dsimp only
                    refine ⟨hq, ?_⟩
                    intro d hdm
                    rcases List.mem_append.mp hdm with h | h
                    · exact hd d h
                    · rw [List.mem_singleton.mp h]
                      exact closeDest _ ⟨_, rfl, rfl, rfl⟩
                  · rw [if_neg hfl]
                    try dsimp only
                    refine ⟨hq, ?_⟩
                    intro d hdm
                    rcases List.mem_append.mp hdm with h | h
                    · exact hd d h
                    · rw [List.mem_singleton.mp h]
                      exact closeDest _ ⟨_, rfl, rfl, rfl⟩
                · simp only [hfs]
                  rcases hgx : env.getTx stxid with _ | stx
                  · simp only [hgx]
                    exact ⟨hq, hd⟩
                  · simp only [hgx]
                    try dsimp only
                    refine ⟨?_, hd⟩
                    intro it hit
                    rcases List.mem_append.mp hit with h | h
                    · exact hq it h
                    · obtain ⟨p, hpmem, hpf⟩ := List.mem_filterMap.mp h
                      split at hpf
                      · exact Option.noConfusion hpf
                      · rw [Option.some.injEq] at hpf
                        rw [← hpf]
                        exact closeItem _ rfl ⟨_, rfl, rfl, rfl⟩ hncold
              · rw [if_neg helec]
                try dsimp only
                refine ⟨hq, ?_⟩
                intro d hdm
                rcases List.mem_append.mp hdm with h | h
                · exact hd d h
                · rw [List.mem_singleton.mp h]
                  exact closeDest _ ⟨_, rfl, rfl, rfl⟩
      · rw [if_neg hmem]
        try dsimp only
        rcases lt_or_ge (nodeStepConfidence tx (kycPrev item.path)) CONFIDENCE_COLD_THRESHOLD
          with hcold | hncold
        · rw [if_pos hcold]
          try dsimp only
          refine ⟨hq, ?_⟩
          intro d hdm
          rcases List.mem_append.mp hdm with h | h
          · exact hd d h
          · rw [List.mem_singleton.mp h]
            exact closeDest _ ⟨_, rfl, rfl, rfl⟩
        · rw [if_neg (not_lt.mpr hncold)]
          cases hsp : env.getTxOut item.txid item.vout with
          | true =>
              simp only [eq_self_iff_true, if_true]
              try dsimp only
              refine ⟨hq, ?_⟩
              intro d hdm
              rcases List.mem_append.mp hdm with h | h
              · exact hd d h
              · rw [List.mem_singleton.mp h]
                exact closeDest _ ⟨_, rfl, rfl, rfl⟩
          | false =>
              simp only [Bool.false_eq_true, if_false]
              by_cases helec : env.electrsEnabled = true
                  ∧ (tx.vout[item.vout]).address.isSome = true ∧ ¬ s.electrsDisabled = true
              · rw [if_pos helec]
                rcases hfs : env.findSpendingTx item.txid item.vout
                    ((tx.vout[item.vout]).address.getD "") with _ | stxid
                · simp only [hfs]
                  try dsimp only
                  by_cases hfl : MAX_CONSECUTIVE_ELECTRS_FAILURES ≤ s.consecutiveElectrsFailures + 1
                  · rw [if_pos hfl]
                    try dsimp only
                    refine ⟨hq, ?_⟩
                    intro d hdm
                    rcases List.mem_append.mp hdm with h | h
                    · exact hd d h
                    · rw [List.mem_singleton.mp h]
                      exact closeDest _ ⟨_, rfl, rfl, rfl⟩
                  · rw [if_neg hfl]
                    try dsimp only
                    refine ⟨hq, ?_⟩
                    intro d hdm
                    rcases List.mem_append.mp hdm with h | h
                    · exact hd d h
                    · rw [List.mem_singleton.mp h]
                      exact closeDest _ ⟨_, rfl, rfl, rfl⟩
                · simp only [hfs]
                  rcases hgx : env.getTx stxid with _ | stx
                  · simp only [hgx]
                    exact ⟨hq, hd⟩
                  · simp only [hgx]
                    try dsimp only
                    refine ⟨?_, hd⟩
                    intro it hit
                    rcases List.mem_append.mp hit with h | h
                    · exact hq it h
                    · obtain ⟨p, hpmem, hpf⟩ := List.mem_filterMap.mp h
                      split at hpf
                      · exact Option.noConfusion hpf
                      · rw [Option.some.injEq] at hpf
                        rw [← hpf]
                        exact closeItem _ rfl ⟨_, rfl, rfl, rfl⟩ hncold
              · rw [if_neg helec]
                try dsimp only
                refine ⟨hq, ?_⟩
                intro d hdm
                rcases List.mem_append.mp hdm with h | h
                · exact hd d h
                · rw [List.mem_singleton.mp h]
                  exact closeDest _ ⟨_, rfl, rfl, rfl⟩

theorem kycLoop_inv (env : TraceEnv) (maxDepth : Nat) (startValue : ℤ)
    (fuel : Nat) (s : KYCState) (hs : kycInv maxDepth s) :
    kycInv maxDepth (kycLoop env maxDepth startValue fuel s) := by
  induction fuel generalizing s with
  | zero => exact hs
  | succ n ih =>
      unfold kycLoop
      by_cases hc : s.queue ≠ [] ∧ s.txCount < KYC_MAX_TRANSACTIONS
      swap
      · rw [if_neg hc]; exact hs
      rw [if_pos hc]
      by_cases hq1 : MAX_QUEUE_SIZE < s.queue.length
      · rw [if_pos hq1]
        dsimp only
        have hsub : ∀ it ∈ s.queue.take MAX_QUEUE_SIZE, itemOK maxDepth it :=
          fun it h => hs.1 it (List.take_subset _ _ h)
        rcases htake : s.queue.take MAX_QUEUE_SIZE with _ | ⟨item, rest⟩
        · simp only [htake]
          exact ⟨fun it h => absurd h (List.not_mem_nil it), hs.2⟩
        · simp only [htake]
          apply ih
          apply kycStep_inv
          · exact hsub item (by rw [htake]; exact List.mem_cons_self item rest)
          · refine ⟨?_, hs.2⟩
            intro it h
            exact hsub it (by rw [htake]; exact List.mem_cons_of_mem item h)
      · rw [if_neg hq1]
        rcases hqe : s.queue with _ | ⟨item, rest⟩
        · simp only [hqe]; exact hs
        · simp only [hqe]
          apply ih
          apply kycStep_inv
          · exact hs.1 item (by rw [hqe]; exact List.mem_cons_self item rest)
          · refine ⟨?_, hs.2⟩
            intro it h
            exact hs.1 it (by rw [hqe]; exact List.mem_cons_of_mem item h)

theorem traceKyc_destOK (env : TraceEnv) (a b p : String) (fuel : Nat) :
    ∀ d ∈ (traceKycWithdrawal env a b p fuel).probableDestinations,
      destOK (traceKycWithdrawal env a b p fuel).traceDepth d := by
  unfold traceKycWithdrawal
  rcases hgt : env.getTx a with _ | tx
  · simp only [hgt]
    intro d hd
    exact absurd hd (List.not_mem_nil d)
  rcases hfind : tx.vout.enum.find? fun q => q.2.address == some b with _ | start
  · simp only [hgt, hfind]
    intro d hd
    exact absurd hd (List.not_mem_nil d)
  simp only [hgt, hfind]
  intro d hd
  have hinv := kycLoop_inv env (min (presetDepth p) KYC_MAX_DEPTH) (satsOf start.2.value) fuel
    { queue := [{ txid := a, vout := start.1, depth := 0, coinjoinCount := 0, path := []
                  trackedValue := satsOf start.2.value, confidence := 1 }]
      visited := [], destinations := [] }
    ⟨by
      intro it hit
      rw [List.mem_singleton.mp hit]
      exact ⟨Nat.zero_le _, fun n h => absurd h (List.not_mem_nil n), trivial,
             fun n h => absurd h (List.not_mem_nil n)⟩,
     fun d h => absurd h (List.not_mem_nil d)⟩
  exact hinv.2 d (List.mem_mergeSort.mp hd)

theorem pathChainBound_chain' (prev : ℚ) (path : List PathNode)
    (h : pathChainBound prev path) :
    path.Chain' (fun parent child =>
      child.cumulativeConfidence ≤ parent.cumulativeConfidence * (11/10)) := by
  induction path generalizing prev with
  | nil => exact List.chain'_nil
  | cons p rest ih =>
      obtain ⟨h1, h2⟩ := h
      cases rest with
      | nil => exact List.chain'_singleton p
      | cons q r => exact List.chain'_cons.mpr ⟨h2.1, ih p.cumulativeConfidence h2⟩

/-- C2: for every KYC trace result and every pair of consecutive path nodes
(parent, child) in any returned probable destination's path,
`child.cumulativeConfidence ≤ parent.cumulativeConfidence * 1.1`, and every
path node's cumulative confidence is at least 0.001. -/
theorem kyc_confidence_monotonicity (env : TraceEnv) (a b p : String) (fuel : Nat) :
    ∀ d ∈ (traceKycWithdrawal env a b p fuel).probableDestinations,
      (∀ n ∈ d.path, 1/1000 ≤ n.cumulativeConfidence) ∧
      d.path.Chain' (fun parent child =>
        child.cumulativeConfidence ≤ parent.cumulativeConfidence * (11/10)) := by
  intro d hd
  obtain ⟨h1, h2, h3, h4⟩ := traceKyc_destOK env a b p fuel d hd
  exact ⟨h1, pathChainBound_chain' 1 d.path h2⟩

theorem kycStep_cold (env : TraceEnv) (maxDepth : Nat) (startValue : ℤ)
    (item : KYCQueueItem) (s : KYCState) (tx : Tx)
    (hv : (item.txid, item.vout) ∉ s.visited)
    (hdp : ¬ maxDepth < item.depth)
    (htx : env.getTx item.txid = some tx)
    (hvo : item.vout < tx.vout.length)
    (hcold : nodeStepConfidence tx (kycPrev item.path) < CONFIDENCE_COLD_THRESHOLD) :
    ∃ dest : ProbableDestination,
      (kycStep env maxDepth startValue item s).destinations = s.destinations ++ [dest] ∧
      dest.trailStatus = .cold ∧
      dest.valueSats = satsOf (tx.vout[item.vout]).value ∧
      (kycStep env maxDepth startValue item s).totalUntraceableSats
        = s.totalUntraceableSats + satsOf (tx.vout[item.vout]).value ∧
      (kycStep env maxDepth startValue item s).queue = s.queue := by
  unfold kycStep
  rw [if_neg hv, if_neg hdp]
  simp only [htx]
  rw [dif_pos hvo]
  cases hcjb : decide (COINJOIN_THRESHOLD ≤ calcCoinjoinScore tx) with
  | false =>
      simp only [hcjb, Bool.false_eq_true, false_and, if_false]
      try dsimp only
      rw [if_pos hcold]
      try dsimp only
      exact ⟨_, rfl, rfl, rfl, rfl, rfl⟩
  | true =>
      simp only [hcjb, eq_self_iff_true, true_and, if_true]
      rcases em (item.txid ∉ s.coinjoinTxids) with hmem | hmem
      · rw [if_pos hmem]
        try dsimp only
        rw [if_pos hcold]
        try dsimp only
        exact ⟨_, rfl, rfl, rfl, rfl, rfl⟩
      · rw [if_neg hmem]
        try dsimp only
        rw [if_pos hcold]
        try dsimp only
        exact ⟨_, rfl, rfl, rfl, rfl, rfl⟩

def fwdInv (maxDepth : Nat) (s : ForwardState) : Prop :=
  (∀ n ∈ s.result.nodes, n.depth ≤ maxDepth) ∧ (∀ q ∈ s.queue, q.2.2 ≤ maxDepth) ∧
  s.result.maxDepth = maxDepth

theorem tfStep_inv (env : TraceEnv) (maxDepth : Nat) (item : String × Nat × Nat)
    (s : ForwardState) (hs : fwdInv maxDepth s) :
    fwdInv maxDepth (tfStep env maxDepth item s) := by
  obtain ⟨hn, hq, hmd⟩ := hs
  obtain ⟨ctx, cv, dp⟩ := item
  unfold tfStep
  dsimp only
  by_cases hv : (ctx, cv) ∈ s.visited
  · rw [if_pos hv]; exact ⟨hn, hq, hmd⟩
  rw [if_neg hv]
  by_cases hdp : maxDepth < dp
  · rw [if_pos hdp]; exact ⟨hn, hq, hmd⟩
  rw [if_neg hdp]
  have hdp' : dp ≤ maxDepth := Nat.not_lt.mp hdp
  rcases htx : env.getTx ctx with _ | tx
  · simp only [htx]; exact ⟨hn, hq, hmd⟩
  simp only [htx]
  by_cases hvo : cv < tx.vout.length
  swap
  · rw [dif_neg hvo]; exact ⟨hn, hq, hmd⟩
  rw [dif_pos hvo]
  rcases em (7/10 < calcCoinjoinScoreFast tx ∧ ctx ∉ s.result.coinjoinTxids) with hcj | hcj
  · rw [if_pos hcj]
    try dsimp only
    cases hsp : env.getTxOut ctx cv with
    | true =>
        simp only [eq_self_iff_true, if_true]
        try dsimp only
        refine ⟨?_, hq, hmd⟩
        intro n hnm
        rcases List.mem_append.mp hnm with h | h
        · exact hn n h
        · rw [List.mem_singleton.mp h]
          exact hdp'
    | false =>
        simp only [Bool.false_eq_true, if_false]
        by_cases helec : env.electrsEnabled = true ∧ (tx.vout[cv]).address.isSome = true
            ∧ dp < maxDepth ∧ ¬ s.electrsDisabled = true
        · rw [if_pos helec]
          try dsimp only
          rcases hfs : env.findSpendingTx ctx cv ((tx.vout[cv]).address.getD "") with _ | stxid
          · simp only [hfs]
            try dsimp only
            by_cases hfl : MAX_CONSECUTIVE_ELECTRS_FAILURES ≤ s.consecutiveElectrsFailures + 1
            · rw [if_pos hfl]
              try dsimp only
              refine ⟨?_, hq, hmd⟩
              intro n hnm
              rcases List.mem_append.mp hnm with h | h
              · exact hn n h
              · rw [List.mem_singleton.mp h]
                exact hdp'
            · rw [if_neg hfl]
              try dsimp only
              refine ⟨?_, hq, hmd⟩
              intro n hnm
              rcases List.mem_append.mp hnm with h | h
              · exact hn n h
              · rw [List.mem_singleton.mp h]
                exact hdp'
          · simp only [hfs]
            rcases hgx : env.getTx stxid with _ | stx
            · simp only [hgx]
              try dsimp only
              refine ⟨?_, hq, hmd⟩
              intro n hnm
              rcases List.mem_append.mp hnm with h | h
              · exact hn n h
              · rw [List.mem_singleton.mp h]
                exact hdp'
            · simp only [hgx]
              try dsimp only
              refine ⟨?_, ?_, hmd⟩
              · intro n hnm
                rcases List.mem_append.mp hnm with h | h
                · exact hn n h
                · rw [List.mem_singleton.mp h]
                  exact hdp'
              · intro q hqm
                rcases List.mem_append.mp hqm with h | h
                · exact hq q h
                · obtain ⟨i, him, hif⟩ := List.mem_filterMap.mp h
                  split at hif
                  · exact Option.noConfusion hif
                  · rw [Option.some.injEq] at hif
                    rw [← hif]
                    exact helec.2.2.1
        · rw [if_neg helec]
          try dsimp only
          refine ⟨?_, hq, hmd⟩
          intro n hnm
          rcases List.mem_append.mp hnm with h | h
          · exact hn n h
          · rw [List.mem_singleton.mp h]
            exact hdp'
  · rw [if_neg hcj]
    try dsimp only
    cases hsp : env.getTxOut ctx cv with
    | true =>
        simp only [eq_self_iff_true, if_true]
        try dsimp only
        refine ⟨?_, hq, hmd⟩
        intro n hnm
        rcases List.mem_append.mp hnm with h | h
        · exact hn n h
        · rw [List.mem_singleton.mp h]
          exact hdp'
    | false =>
        simp only [Bool.false_eq_true, if_false]
        by_cases helec : env.electrsEnabled = true ∧ (tx.vout[cv]).address.isSome = true
            ∧ dp < maxDepth ∧ ¬ s.electrsDisabled = true
        · rw [if_pos helec]
          try dsimp only
          rcases hfs : env.findSpendingTx ctx cv ((tx.vout[cv]).address.getD "") with _ | stxid
          · simp only [hfs]
            try dsimp only
            by_cases hfl : MAX_CONSECUTIVE_ELECTRS_FAILURES ≤ s.consecutiveElectrsFailures + 1
            · rw [if_pos hfl]
              try dsimp only
              refine ⟨?_, hq, hmd⟩
              intro n hnm
              rcases List.mem_append.mp hnm with h | h
              · exact hn n h
              · rw [List.mem_singleton.mp h]
                exact hdp'
            · rw [if_neg hfl]
              try dsimp only
              refine ⟨?_, hq, hmd⟩
              intro n hnm
              rcases List.mem_append.mp hnm with h | h
              · exact hn n h
              · rw [List.mem_singleton.mp h]
                exact hdp'
          · simp only [hfs]
            rcases hgx : env.getTx stxid with _ | stx
            · simp only [hgx]
              try dsimp only
              refine ⟨?_, hq, hmd⟩
              intro n hnm
              rcases List.mem_append.mp hnm with h | h
              · exact hn n h
              · rw [List.mem_singleton.mp h]
                exact hdp'
            · simp only [hgx]
              try dsimp only
              refine ⟨?_, ?_, hmd⟩
              · intro n hnm
                rcases List.mem_append.mp hnm with h | h
                · exact hn n h
                · rw [List.mem_singleton.mp h]
                  exact hdp'
              · intro q hqm
                rcases List.mem_append.mp hqm with h | h
                · exact hq q h
                · obtain ⟨i, him, hif⟩ := List.mem_filterMap.mp h
                  split at hif
                  · exact Option.noConfusion hif
                  · rw [Option.some.injEq] at hif
                    rw [← hif]
                    exact helec.2.2.1
        · rw [if_neg helec]
          try dsimp only
          refine ⟨?_, hq, hmd⟩
          intro n hnm
          rcases List.mem_append.mp hnm with h | h
          · exact hn n h
          · rw [List.mem_singleton.mp h]
            exact hdp'

def bwdInv (maxDepth : Nat) (s : BackwardState) : Prop :=
  (∀ n ∈ s.result.nodes, n.depth ≤ maxDepth) ∧ (∀ q ∈ s.queue, q.2 ≤ maxDepth) ∧
  s.result.maxDepth = maxDepth

theorem foldl_inv {α β : Type _} (P : β → Prop) (F : β → α → β) (l : List α) (s : β)
    (h : P s) (hstep : ∀ s a, P s → P (F s a)) : P (l.foldl F s) := by
  induction l generalizing s with
  | nil => exact h
  | cons x xs ih => exact ih (F s x) (hstep s x h)

theorem tbStep_inv (env : TraceEnv) (maxDepth : Nat) (item : String × Nat)
    (s : BackwardState) (hs : bwdInv maxDepth s) :
    bwdInv maxDepth (tbStep env maxDepth item s) := by
  obtain ⟨hn, hq, hmd⟩ := hs
  obtain ⟨ctx, dp⟩ := item
  unfold tbStep
  try dsimp only
  by_cases hv : ctx ∈ s.visited
  · rw [if_pos hv]; exact ⟨hn, hq, hmd⟩
  rw [if_neg hv]
  by_cases hdp : maxDepth < dp
  · rw [if_pos hdp]; exact ⟨hn, hq, hmd⟩
  rw [if_neg hdp]
  have hdp' : dp ≤ maxDepth := Nat.not_lt.mp hdp
  rcases htx : env.getTx ctx with _ | tx
  · simp only [htx]; exact ⟨hn, hq, hmd⟩
  simp only [htx]
  try dsimp only
  cases hcb : tx.vin.any fun x => x.hasCoinbase with
  | true =>
      simp only [eq_self_iff_true, if_true]
      try dsimp only
      refine ⟨?_, hq, hmd⟩
      intro n hnm
      rcases List.mem_append.mp hnm with h | h
      · exact hn n h
      · rw [List.mem_singleton.mp h]
        exact hdp'
  | false =>
      simp only [Bool.false_eq_true, if_false]
      rcases em (7/10 < calcCoinjoinScoreFast tx ∧ ctx ∉ s.result.coinjoinTxids) with hcj | hcj
      · rw [if_pos hcj]
        try dsimp only
        by_cases hlt : dp < maxDepth
        · rw [if_pos hlt]
          try dsimp only
          refine ⟨?_, ?_, ?_⟩
          · intro n hnm
            rcases List.mem_append.mp hnm with h | h
            · refine (foldl_inv (fun s1 : BackwardState =>
                    (∀ n ∈ s1.result.nodes, n.depth ≤ maxDepth) ∧
                    (∀ q ∈ s1.queue, q.2 ≤ maxDepth) ∧ s1.result.maxDepth = maxDepth) _ tx.vin _ ?_ ?_).1 n h
              · exact ⟨hn, hq, hmd⟩
              · intro s1 vin hP
                obtain ⟨p1, p2, p3⟩ := hP
                rcases hvt : vin.txid with _ | prevTxid
                · simp only [hvt]
                  exact ⟨p1, p2, p3⟩
                · simp only [hvt]
                  try dsimp only
                  by_cases hpv : prevTxid ∉ s1.visited
                  · rw [if_pos hpv]
                    refine ⟨p1, ?_, p3⟩
                    intro q hqm
                    rcases List.mem_append.mp hqm with hh | hh
                    · exact p2 q hh
                    · rw [List.mem_singleton.mp hh]
                      exact hlt
                  · rw [if_neg hpv]
                    exact ⟨p1, p2, p3⟩
            · rw [List.mem_singleton.mp h]
              exact hdp'
          · refine (foldl_inv (fun s1 : BackwardState =>
                  (∀ n ∈ s1.result.nodes, n.depth ≤ maxDepth) ∧
                  (∀ q ∈ s1.queue, q.2 ≤ maxDepth) ∧ s1.result.maxDepth = maxDepth) _ tx.vin _ ?_ ?_).2.1
            · exact ⟨hn, hq, hmd⟩
            · intro s1 vin hP
              obtain ⟨p1, p2, p3⟩ := hP
              rcases hvt : vin.txid with _ | prevTxid
              · simp only [hvt]
                exact ⟨p1, p2, p3⟩
              · simp only [hvt]
                try dsimp only
                by_cases hpv : prevTxid ∉ s1.visited
                · rw [if_pos hpv]
                  refine ⟨p1, ?_, p3⟩
                  intro q hqm
                  rcases List.mem_append.mp hqm with hh | hh
                  · exact p2 q hh
                  · rw [List.mem_singleton.mp hh]
                    exact hlt
                · rw [if_neg hpv]
                  exact ⟨p1, p2, p3⟩
          · refine (foldl_inv (fun s1 : BackwardState =>
                  (∀ n ∈ s1.result.nodes, n.depth ≤ maxDepth) ∧
                  (∀ q ∈ s1.queue, q.2 ≤ maxDepth) ∧ s1.result.maxDepth = maxDepth) _ tx.vin _ ?_ ?_).2.2
            · exact ⟨hn, hq, hmd⟩
            · intro s1 vin hP
              obtain ⟨p1, p2, p3⟩ := hP
              rcases hvt : vin.txid with _ | prevTxid
              · simp only [hvt]
                exact ⟨p1, p2, p3⟩
              · simp only [hvt]
                try dsimp only
                by_cases hpv : prevTxid ∉ s1.visited
                · rw [if_pos hpv]
                  refine ⟨p1, ?_, p3⟩
                  intro q hqm
                  rcases List.mem_append.mp hqm with hh | hh
                  · exact p2 q hh
                  · rw [List.mem_singleton.mp hh]
                    exact hlt
                · rw [if_neg hpv]
                  exact ⟨p1, p2, p3⟩
        · rw [if_neg hlt]
          try dsimp only
          refine ⟨?_, hq, hmd⟩
          intro n hnm
          rcases List.mem_append.mp hnm with h | h
          · exact hn n h
          · rw [List.mem_singleton.mp h]
            exact hdp'
      · rw [if_neg hcj]
        try dsimp only
        by_cases hlt : dp < maxDepth
        · rw [if_pos hlt]
          try dsimp only
          refine ⟨?_, ?_, ?_⟩
          · intro n hnm
            rcases List.mem_append.mp hnm with h | h
            · refine (foldl_inv (fun s1 : BackwardState =>
                    (∀ n ∈ s1.result.nodes, n.depth ≤ maxDepth) ∧
                    (∀ q ∈ s1.queue, q.2 ≤ maxDepth) ∧ s1.result.maxDepth = maxDepth) _ tx.vin _ ?_ ?_).1 n h
              · exact ⟨hn, hq, hmd⟩
              · intro s1 vin hP
                obtain ⟨p1, p2, p3⟩ := hP
                rcases hvt : vin.txid with _ | prevTxid
                · simp only [hvt]
                  exact ⟨p1, p2, p3⟩
                · simp only [hvt]
                  try dsimp only
                  by_cases hpv : prevTxid ∉ s1.visited
                  · rw [if_pos hpv]
                    refine ⟨p1, ?_, p3⟩
                    intro q hqm
                    rcases List.mem_append.mp hqm with hh | hh
                    · exact p2 q hh
                    · rw [List.mem_singleton.mp hh]
                      exact hlt
                  · rw [if_neg hpv]
                    exact ⟨p1, p2, p3⟩
            · rw [List.mem_singleton.mp h]
              exact hdp'
          · refine (foldl_inv (fun s1 : BackwardState =>
                  (∀ n ∈ s1.result.nodes, n.depth ≤ maxDepth) ∧
                  (∀ q ∈ s1.queue, q.2 ≤ maxDepth) ∧ s1.result.maxDepth = maxDepth) _ tx.vin _ ?_ ?_).2.1
            · exact ⟨hn, hq, hmd⟩
            · intro s1 vin hP
              obtain ⟨p1, p2, p3⟩ := hP
              rcases hvt : vin.txid with _ | prevTxid
              · simp only [hvt]
                exact ⟨p1, p2, p3⟩
              · simp only [hvt]
                try dsimp only
                by_cases hpv : prevTxid ∉ s1.visited
                · rw [if_pos hpv]
                  refine ⟨p1, ?_, p3⟩
                  intro q hqm
                  rcases List.mem_append.mp hqm with hh | hh
                  · exact p2 q hh
                  · rw [List.mem_singleton.mp hh]
                    exact hlt
                · rw [if_neg hpv]
                  exact ⟨p1, p2, p3⟩
          · refine (foldl_inv (fun s1 : BackwardState =>
                  (∀ n ∈ s1.result.nodes, n.depth ≤ maxDepth) ∧
                  (∀ q ∈ s1.queue, q.2 ≤ maxDepth) ∧ s1.result.maxDepth = maxDepth) _ tx.vin _ ?_ ?_).2.2
            · exact ⟨hn, hq, hmd⟩
            · intro s1 vin hP
              obtain ⟨p1, p2, p3⟩ := hP
              rcases hvt : vin.txid with _ | prevTxid
              · simp only [hvt]
                exact ⟨p1, p2, p3⟩
              · simp only [hvt]
                try dsimp only
                by_cases hpv : prevTxid ∉ s1.visited
                · rw [if_pos hpv]
                  refine ⟨p1, ?_, p3⟩
                  intro q hqm
                  rcases List.mem_append.mp hqm with hh | hh
                  · exact p2 q hh
                  · rw [List.mem_singleton.mp hh]
                    exact hlt
                · rw [if_neg hpv]
                  exact ⟨p1, p2, p3⟩
        · rw [if_neg hlt]
          try dsimp only
          refine ⟨?_, hq, hmd⟩
          intro n hnm
          rcases List.mem_append.mp hnm with h | h
          · exact hn n h
          · rw [List.mem_singleton.mp h]
            exact hdp'

theorem tfLoop_inv (env : TraceEnv) (maxDepth : Nat) (fuel : Nat) (s : ForwardState)
    (hs : fwdInv maxDepth s) : fwdInv maxDepth (tfLoop env maxDepth fuel s) := by
  induction fuel generalizing s with
  | zero => exact hs
  | succ n ih =>
      unfold tfLoop
      by_cases hc : s.queue ≠ [] ∧ s.txCount < MAX_TRANSACTIONS_PER_TRACE
      swap
      · rw [if_neg hc]; exact hs
      rw [if_pos hc]
      by_cases hq1 : MAX_QUEUE_SIZE < s.queue.length
      · rw [if_pos hq1]
        dsimp only
        rcases htake : s.queue.take MAX_QUEUE_SIZE with _ | ⟨item, rest⟩
        · simp only [htake]
          exact ⟨hs.1, fun q h => absurd h (List.not_mem_nil q), hs.2.2⟩
        · simp only [htake]
          apply ih
          apply tfStep_inv
          refine ⟨hs.1, ?_, hs.2.2⟩
          intro q h
          exact hs.2.1 q (List.take_subset _ _ (by rw [htake]; exact List.mem_cons_of_mem item h))
      · rw [if_neg hq1]
        rcases hqe : s.queue with _ | ⟨item, rest⟩
        · simp only [hqe]; exact hs
        · simp only [hqe]
          apply ih
          apply tfStep_inv
          refine ⟨hs.1, ?_, hs.2.2⟩
          intro q h
          exact hs.2.1 q (by rw [hqe]; exact List.mem_cons_of_mem item h)

theorem tbLoop_inv (env : TraceEnv) (maxDepth : Nat) (fuel : Nat) (s : BackwardState)
    (hs : bwdInv maxDepth s) : bwdInv maxDepth (tbLoop env maxDepth fuel s) := by
  induction fuel generalizing s with
  | zero => exact hs
  | succ n ih =>
      unfold tbLoop
      by_cases hc : s.queue ≠ [] ∧ s.txCount < MAX_TRANSACTIONS_PER_TRACE
      swap
      · rw [if_neg hc]; exact hs
      rw [if_pos hc]
      by_cases hq1 : MAX_QUEUE_SIZE < s.queue.length
      · rw [if_pos hq1]
        dsimp only
        rcases htake : s.queue.take MAX_QUEUE_SIZE with _ | ⟨item, rest⟩
        · simp only [htake]
          exact ⟨hs.1, fun q h => absurd h (List.not_mem_nil q), hs.2.2⟩
        · simp only [htake]
          apply ih
          apply tbStep_inv
          refine ⟨hs.1, ?_, hs.2.2⟩
          intro q h
          exact hs.2.1 q (List.take_subset _ _ (by rw [htake]; exact List.mem_cons_of_mem item h))
      · rw [if_neg hq1]
        rcases hqe : s.queue with _ | ⟨item, rest⟩
        · simp only [hqe]; exact hs
        · simp only [hqe]
          apply ih
          apply tbStep_inv
          refine ⟨hs.1, ?_, hs.2.2⟩
          intro q h
          exact hs.2.1 q (by rw [hqe]; exact List.mem_cons_of_mem item h)

theorem traceForward_depth (env : TraceEnv) (txid : String) (vout : Nat)
    (md : Option Nat) (fuel : Nat) :
    ∀ n ∈ (traceForward env txid vout md fuel).nodes,
      n.depth ≤ (traceForward env txid vout md fuel).maxDepth := by
  simp only [traceForward]
  have hinv := tfLoop_inv env (min (md.getD DEFAULT_TRACE_DEPTH) MAX_TRACE_DEPTH) fuel
    { result := { startTxid := txid, startVout := vout, direction := "forward"
                  maxDepth := min (md.getD DEFAULT_TRACE_DEPTH) MAX_TRACE_DEPTH
                  electrsEnabled := env.electrsEnabled
                  warnings :=
                    if env.electrsEnabled then []
                    else ["Electrs not available - forward tracing limited. Can identify spent UTXOs but cannot follow to spending transaction."] }
      queue := [(txid, vout, 0)], visited := [] }
    ⟨fun n h => absurd h (List.not_mem_nil n),
     by
      intro q h
      rw [List.mem_singleton.mp h]
      exact Nat.zero_le _,
     rfl⟩
  by_cases hlim : MAX_TRANSACTIONS_PER_TRACE ≤
      (tfLoop env (min (md.getD DEFAULT_TRACE_DEPTH) MAX_TRACE_DEPTH) fuel
        { result := { startTxid := txid, startVout := vout, direction := "forward"
                      maxDepth := min (md.getD DEFAULT_TRACE_DEPTH) MAX_TRACE_DEPTH
                      electrsEnabled := env.electrsEnabled
                      warnings :=
                        if env.electrsEnabled then []
                        else ["Electrs not available - forward tracing limited. Can identify spent UTXOs but cannot follow to spending transaction."] }
          queue := [(txid, vout, 0)], visited := [] }).txCount
  · rw [if_pos hlim]
    intro n h
    rw [hinv.2.2]
    exact hinv.1 n h
  · rw [if_neg hlim]
    intro n h
    rw [hinv.2.2]
    exact hinv.1 n h

theorem traceBackward_depth (env : TraceEnv) (txid : String)
    (md : Option Nat) (fuel : Nat) :
    ∀ n ∈ (traceBackward env txid md fuel).nodes,
      n.depth ≤ (traceBackward env txid md fuel).maxDepth := by
  simp only [traceBackward]
  have hinv := tbLoop_inv env (min (md.getD DEFAULT_TRACE_DEPTH) MAX_TRACE_DEPTH) fuel
    { result := { startTxid := txid, startVout := 0, direction := "backward"
                  maxDepth := min (md.getD DEFAULT_TRACE_DEPTH) MAX_TRACE_DEPTH
                  electrsEnabled := env.electrsEnabled }
      queue := [(txid, 0)], visited := [] }
    ⟨fun n h => absurd h (List.not_mem_nil n),
     by
      intro q h
      rw [List.mem_singleton.mp h]
      exact Nat.zero_le _,
     rfl⟩
  by_cases hlim : MAX_TRANSACTIONS_PER_TRACE ≤
      (tbLoop env (min (md.getD DEFAULT_TRACE_DEPTH) MAX_TRACE_DEPTH) fuel
        { result := { startTxid := txid, startVout := 0, direction := "backward"
                      maxDepth := min (md.getD DEFAULT_TRACE_DEPTH) MAX_TRACE_DEPTH
                      electrsEnabled := env.electrsEnabled }
          queue := [(txid, 0)], visited := [] }).txCount
  · rw [if_pos hlim]
    intro n h
    rw [hinv.2.2]
    exact hinv.1 n h
  · rw [if_neg hlim]
    intro n h
    rw [hinv.2.2]
    exact hinv.1 n h

theorem tfStep_noexpand (env : TraceEnv) (maxDepth : Nat) (item : String × Nat × Nat)
    (s : ForwardState) (h : maxDepth < item.2.2) :
    (tfStep env maxDepth item s).queue = s.queue := by
  obtain ⟨ctx, cv, dp⟩ := item
  unfold tfStep
  try dsimp only
  by_cases hv : (ctx, cv) ∈ s.visited
  · rw [if_pos hv]
  · rw [if_neg hv, if_pos h]

theorem tbStep_noexpand (env : TraceEnv) (maxDepth : Nat) (item : String × Nat)
    (s : BackwardState) (h : maxDepth < item.2) :
    (tbStep env maxDepth item s).queue = s.queue := by
  obtain ⟨ctx, dp⟩ := item
  unfold tbStep
  try dsimp only
  by_cases hv : ctx ∈ s.visited
  · rw [if_pos hv]
  · rw [if_neg hv, if_pos h]

theorem kycStep_noexpand (env : TraceEnv) (maxDepth : Nat) (startValue : ℤ)
    (item : KYCQueueItem) (s : KYCState) (h : maxDepth < item.depth) :
    (kycStep env maxDepth startValue item s).queue = s.queue := by
  unfold kycStep
  by_cases hv : (item.txid, item.vout) ∈ s.visited
  · rw [if_pos hv]
  · rw [if_neg hv, if_pos h]
    rcases item.path with _ | ⟨p, rest⟩
    · rfl
    · rfl

/-- C3: in a KYC trace, a branch whose cumulative confidence falls below the
cold threshold 0.05 is terminated immediately with trail status COLD, its
value is added to the untraceable total, and nothing is enqueued from it;
consequently no probable-destination path in the result extends beyond a
node whose cumulative confidence is below 0.05 (only the final node of a
path may be below the threshold). -/
theorem kyc_cold_trail_pruning (env : TraceEnv) :
    (∀ (maxDepth : Nat) (startValue : ℤ) (item : KYCQueueItem) (s : KYCState) (tx : Tx),
      (item.txid, item.vout) ∉ s.visited → ¬ maxDepth < item.depth →
      env.getTx item.txid = some tx →
      ∀ hvo : item.vout < tx.vout.length,
      nodeStepConfidence tx (kycPrev item.path) < CONFIDENCE_COLD_THRESHOLD →
      ∃ dest : ProbableDestination,
        (kycStep env maxDepth startValue item s).destinations = s.destinations ++ [dest] ∧
        dest.trailStatus = .cold ∧
        dest.valueSats = satsOf (tx.vout[item.vout]).value ∧
        (kycStep env maxDepth startValue item s).totalUntraceableSats
          = s.totalUntraceableSats + satsOf (tx.vout[item.vout]).value ∧
        (kycStep env maxDepth startValue item s).queue = s.queue) ∧
    (∀ (a b p : String) (fuel : Nat),
      ∀ d ∈ (traceKycWithdrawal env a b p fuel).probableDestinations,
        ∀ n ∈ d.path.dropLast, CONFIDENCE_COLD_THRESHOLD ≤ n.cumulativeConfidence) := by
  constructor
  · intro maxDepth startValue item s tx hv hdp htx hvo hcold
    exact kycStep_cold env maxDepth startValue item s tx hv hdp htx hvo hcold
  · intro a b p fuel d hd
    exact (traceKyc_destOK env a b p fuel d hd).2.2.1

/-- C8: no node in any result of `traceForward` or `traceBackward`, and no
path node in any KYC probable destination, has depth strictly greater than
the result's max depth; and a dequeued queue item whose depth exceeds
`maxDepth` is never expanded (the queue is left unchanged) in the forward,
backward and KYC step functions. -/
theorem trace_depth_respected (env : TraceEnv) :
    (∀ (txid : String) (vout : Nat) (md : Option Nat) (fuel : Nat),
      ∀ n ∈ (traceForward env txid vout md fuel).nodes,
        n.depth ≤ (traceForward env txid vout md fuel).maxDepth) ∧
    (∀ (txid : String) (md : Option Nat) (fuel : Nat),
      ∀ n ∈ (traceBackward env txid md fuel).nodes,
        n.depth ≤ (traceBackward env txid md fuel).maxDepth) ∧
    (∀ (a b p : String) (fuel : Nat),
      ∀ d ∈ (traceKycWithdrawal env a b p fuel).probableDestinations,
        ∀ n ∈ d.path, n.depth ≤ (traceKycWithdrawal env a b p fuel).traceDepth) ∧
    (∀ (maxDepth : Nat) (item : String × Nat × Nat) (s : ForwardState),
      maxDepth < item.2.2 → (tfStep env maxDepth item s).queue = s.queue) ∧
    (∀ (maxDepth : Nat) (item : String × Nat) (s : BackwardState),
      maxDepth < item.2 → (tbStep env maxDepth item s).queue = s.queue) ∧
    (∀ (maxDepth : Nat) (startValue : ℤ) (item : KYCQueueItem) (s : KYCState),
      maxDepth < item.depth → (kycStep env maxDepth startValue item s).queue = s.queue) := by
  refine ⟨traceForward_depth env, traceBackward_depth env, ?_,
          tfStep_noexpand env, tbStep_noexpand env, kycStep_noexpand env⟩
  intro a b p fuel d hd n hn
  exact (traceKyc_destOK env a b p fuel d hd).2.2.2 n hn

theorem tfStep_disabled (env : TraceEnv) (maxDepth : Nat) (item : String × Nat × Nat)
    (s : ForwardState) (h : s.electrsDisabled = true) :
    (tfStep env maxDepth item s).electrsDisabled = true ∧
    (tfStep env maxDepth item s).electrsLookupCount = s.electrsLookupCount ∧
    (tfStep env maxDepth item s).result.edges = s.result.edges ∧
    (∀ n ∈ (tfStep env maxDepth item s).result.nodes,
        n ∈ s.result.nodes ∨ n.spentByTxid = none) ∧
    (∀ w ∈ s.result.warnings, w ∈ (tfStep env maxDepth item s).result.warnings) := by
  obtain ⟨ctx, cv, dp⟩ := item
  unfold tfStep
  try dsimp only
  by_cases hv : (ctx, cv) ∈ s.visited
  · rw [if_pos hv]
    refine ⟨h, ?_, ?_, ?_, ?_⟩
    · first | rfl | trivial
    · first | rfl | trivial
    · first
      | exact fun n hn => Or.inl hn
      | (intro n hnm
         rcases List.mem_append.mp hnm with hh | hh
         · exact Or.inl hh
         · rw [List.mem_singleton.mp hh]
           exact Or.inr rfl)
      | trivial
    · first
      | (intro w hw; exact hw)
      | (intro w hw; exact List.mem_append_left _ hw)
      | trivial
  rw [if_neg hv]
  by_cases hdp : maxDepth < dp
  · rw [if_pos hdp]
    refine ⟨h, ?_, ?_, ?_, ?_⟩
    · first | rfl | trivial
    · first | rfl | trivial
    · first
      | exact fun n hn => Or.inl hn
      | (intro n hnm
         rcases List.mem_append.mp hnm with hh | hh
         · exact Or.inl hh
         · rw [List.mem_singleton.mp hh]
           exact Or.inr rfl)
      | trivial
    · first
      | (intro w hw; exact hw)
      | (intro w hw; exact List.mem_append_left _ hw)
      | trivial
  rw [if_neg hdp]
  rcases htx : env.getTx ctx with _ | tx
  · simp only [htx]
    refine ⟨h, ?_, ?_, ?_, ?_⟩
    · first | rfl | trivial
    · first | rfl | trivial
    · first
      | exact fun n hn => Or.inl hn
      | (intro n hnm
         rcases List.mem_append.mp hnm with hh | hh
         · exact Or.inl hh
         · rw [List.mem_singleton.mp hh]
           exact Or.inr rfl)
      | trivial
    · first
      | (intro w hw; exact hw)
      | (intro w hw; exact List.mem_append_left _ hw)
      | trivial
  simp only [htx]
  by_cases hvo : cv < tx.vout.length
  swap
  · rw [dif_neg hvo]
    refine ⟨h, ?_, ?_, ?_, ?_⟩
    · first | rfl | trivial
    · first | rfl | trivial
    · first
      | exact fun n hn => Or.inl hn
      | (intro n hnm
         rcases List.mem_append.mp hnm with hh | hh
         · exact Or.inl hh
         · rw [List.mem_singleton.mp hh]
           exact Or.inr rfl)
      | trivial
    · first
      | (intro w hw; exact hw)
      | (intro w hw; exact List.mem_append_left _ hw)
      | trivial
  rw [dif_pos hvo]
  rcases em (7/10 < calcCoinjoinScoreFast tx ∧ ctx ∉ s.result.coinjoinTxids) with hcj | hcj
  · rw [if_pos hcj]
    try dsimp only
    cases hsp : env.getTxOut ctx cv with
    | true =>
        simp only [eq_self_iff_true, if_true]
        try dsimp only
        refine ⟨h, ?_, ?_, ?_, ?_⟩
        · first | rfl | trivial
        · first | rfl | trivial
        · first
          | exact fun n hn => Or.inl hn
          | (intro n hnm
             rcases List.mem_append.mp hnm with hh | hh
             · exact Or.inl hh
             · rw [List.mem_singleton.mp hh]
               exact Or.inr rfl)
          | trivial
        · first
          | (intro w hw; exact hw)
          | (intro w hw; exact List.mem_append_left _ hw)
          | trivial
    | false =>
        simp only [Bool.false_eq_true, if_false]
        rw [if_neg (fun c => c.2.2.2 h)]
        try dsimp only
        refine ⟨h, ?_, ?_, ?_, ?_⟩
        · first | rfl | trivial
        · first | rfl | trivial
        · first
          | exact fun n hn => Or.inl hn
          | (intro n hnm
             rcases List.mem_append.mp hnm with hh | hh
             · exact Or.inl hh
             · rw [List.mem_singleton.mp hh]
               exact Or.inr rfl)
          | trivial
        · first
          | (intro w hw; exact hw)
          | (intro w hw; exact List.mem_append_left _ hw)
          | trivial
  · rw [if_neg hcj]
    try dsimp only
    cases hsp : env.getTxOut ctx cv with
    | true =>
        simp only [eq_self_iff_true, if_true]
        try dsimp only
        refine ⟨h, ?_, ?_, ?_, ?_⟩
        · first | rfl | trivial
        · first | rfl | trivial
        · first
          | exact fun n hn => Or.inl hn
          | (intro n hnm
             rcases List.mem_append.mp hnm with hh | hh
             · exact Or.inl hh
             · rw [List.mem_singleton.mp hh]
               exact Or.inr rfl)
          | trivial
        · first
          | (intro w hw; exact hw)
          | (intro w hw; exact List.mem_append_left _ hw)
          | trivial
    | false =>
        simp only [Bool.false_eq_true, if_false]
        rw [if_neg (fun c => c.2.2.2 h)]
        try dsimp only
        refine ⟨h, ?_, ?_, ?_, ?_⟩
        · first | rfl | trivial
        · first | rfl | trivial
        · first
          | exact fun n hn => Or.inl hn
          | (intro n hnm
             rcases List.mem_append.mp hnm with hh | hh
             · exact Or.inl hh
             · rw [List.mem_singleton.mp hh]
               exact Or.inr rfl)
          | trivial
        · first
          | (intro w hw; exact hw)
          | (intro w hw; exact List.mem_append_left _ hw)
          | trivial

theorem tfLoop_disabled (env : TraceEnv) (maxDepth : Nat) (fuel : Nat) :
    ∀ (s : ForwardState), s.electrsDisabled = true →
    (tfLoop env maxDepth fuel s).electrsDisabled = true ∧
    (tfLoop env maxDepth fuel s).electrsLookupCount = s.electrsLookupCount ∧
    (tfLoop env maxDepth fuel s).result.edges = s.result.edges ∧
    (∀ n ∈ (tfLoop env maxDepth fuel s).result.nodes,
        n ∈ s.result.nodes ∨ n.spentByTxid = none) ∧
    (∀ w ∈ s.result.warnings, w ∈ (tfLoop env maxDepth fuel s).result.warnings) := by
  induction fuel with
  | zero =>
      intro s h
      exact ⟨h, rfl, rfl, fun n hn => Or.inl hn, fun w hw => hw⟩
  | succ k ih =>
      intro s h
      unfold tfLoop
      by_cases hc : s.queue ≠ [] ∧ s.txCount < MAX_TRANSACTIONS_PER_TRACE
      swap
      · rw [if_neg hc]
        exact ⟨h, rfl, rfl, fun n hn => Or.inl hn, fun w hw => hw⟩
      rw [if_pos hc]
      by_cases hq1 : MAX_QUEUE_SIZE < s.queue.length
      · rw [if_pos hq1]
        dsimp only
        rcases htake : s.queue.take MAX_QUEUE_SIZE with _ | ⟨item, rest⟩
        · simp only [htake]
          refine ⟨h, ?_, ?_, fun n hn => Or.inl hn, ?_⟩
          · first | rfl | trivial
          · first | rfl | trivial
          · intro w hw
            exact List.mem_append_left _ hw
        · simp only [htake]
          obtain ⟨s1, s2, s3, s4, s5⟩ := tfStep_disabled env maxDepth item
            { s with
                result.warnings := s.result.warnings ++ ["Queue size exceeded 1000, truncating"]
                result.hitLimit := true
                queue := rest } h
          obtain ⟨l1, l2, l3, l4, l5⟩ := ih _ s1
          refine ⟨l1, ?_, ?_, ?_, ?_⟩
          · rw [l2, s2]
          · rw [l3, s3]
          · intro n hn
            rcases l4 n hn with hh | hh
            · rcases s4 n hh with h3 | h3
              · exact Or.inl h3
              · exact Or.inr h3
            · exact Or.inr hh
          · intro w hw
            exact l5 w (s5 w (List.mem_append_left _ hw))
      · rw [if_neg hq1]
        rcases hqe : s.queue with _ | ⟨item, rest⟩
        · simp only [hqe]
          refine ⟨h, ?_, ?_, fun n hn => Or.inl hn, fun w hw => hw⟩
          · first | rfl | trivial
          · first | rfl | trivial
        · simp only [hqe]
          obtain ⟨s1, s2, s3, s4, s5⟩ := tfStep_disabled env maxDepth item
            { s with queue := rest } h
          obtain ⟨l1, l2, l3, l4, l5⟩ := ih _ s1
          refine ⟨l1, ?_, ?_, ?_, ?_⟩
          · rw [l2, s2]
          · rw [l3, s3]
          · intro n hn
            rcases l4 n hn with hh | hh
            · rcases s4 n hh with h3 | h3
              · exact Or.inl h3
              · exact Or.inr h3
            · exact Or.inr hh
          · intro w hw
            exact l5 w (s5 w hw)

theorem tfStep_disable_event (env : TraceEnv) (maxDepth : Nat) (ctx : String)
    (cv dp : Nat) (s : ForwardState) (tx : Tx)
    (hv : (ctx, cv) ∉ s.visited) (hdp : ¬ maxDepth < dp)
    (htx : env.getTx ctx = some tx) (hvo : cv < tx.vout.length)
    (hsp : env.getTxOut ctx cv = false)
    (helec : env.electrsEnabled = true ∧ (tx.vout[cv]).address.isSome = true
      ∧ dp < maxDepth ∧ ¬ s.electrsDisabled = true)
    (hfs : env.findSpendingTx ctx cv ((tx.vout[cv]).address.getD "") = none)
    (hfail : s.consecutiveElectrsFailures = 2) :
    (tfStep env maxDepth (ctx, cv, dp) s).electrsDisabled = true ∧
    "Electrs disabled after 3 consecutive failures - continuing without forward tracing"
      ∈ (tfStep env maxDepth (ctx, cv, dp) s).result.warnings := by
  unfold tfStep
  try dsimp only
  rw [if_neg hv, if_neg hdp]
  simp only [htx]
  rw [dif_pos hvo]
  rcases em (7/10 < calcCoinjoinScoreFast tx ∧ ctx ∉ s.result.coinjoinTxids) with hcj | hcj
  · rw [if_pos hcj]
    try dsimp only
    cases hsp' : env.getTxOut ctx cv with
    | true => rw [hsp'] at hsp; exact Bool.noConfusion hsp
    | false =>
        simp only [Bool.false_eq_true, if_false]
        rw [if_pos helec]
        simp only [hfs]
        try dsimp only
        rw [if_pos (by rw [hfail]; decide)]
        try dsimp only
        refine ⟨rfl, ?_⟩
        apply List.mem_append_right
        rw [hfail]
        exact List.mem_singleton.mpr (by decide)
  · rw [if_neg hcj]
    try dsimp only
    cases hsp' : env.getTxOut ctx cv with
    | true => rw [hsp'] at hsp; exact Bool.noConfusion hsp
    | false =>
        simp only [Bool.false_eq_true, if_false]
        rw [if_pos helec]
        simp only [hfs]
        try dsimp only
        rw [if_pos (by rw [hfail]; decide)]
        try dsimp only
        refine ⟨rfl, ?_⟩
        apply List.mem_append_right
        rw [hfail]
        exact List.mem_singleton.mpr (by decide)

/-- C7: in a forward trace, the third consecutive failed Electrs
spending-transaction lookup disables address-index resolution and appends the
warning "Electrs disabled after 3 consecutive failures - continuing without
forward tracing"; once disabled, the remainder of the run performs no further
lookups (the lookup count is unchanged), adds no successor edges, records
every newly added node with `spentByTxid = none`, and preserves all existing
warnings. -/
theorem forward_electrs_failfast (env : TraceEnv) (maxDepth : Nat) :
    (∀ (ctx : String) (cv dp : Nat) (s : ForwardState) (tx : Tx),
      (ctx, cv) ∉ s.visited → ¬ maxDepth < dp →
      env.getTx ctx = some tx →
      ∀ hvo : cv < tx.vout.length,
      env.getTxOut ctx cv = false →
      (env.electrsEnabled = true ∧ (tx.vout[cv]).address.isSome = true
        ∧ dp < maxDepth ∧ ¬ s.electrsDisabled = true) →
      env.findSpendingTx ctx cv ((tx.vout[cv]).address.getD "") = none →
      s.consecutiveElectrsFailures = 2 →
      (tfStep env maxDepth (ctx, cv, dp) s).electrsDisabled = true ∧
      "Electrs disabled after 3 consecutive failures - continuing without forward tracing"
        ∈ (tfStep env maxDepth (ctx, cv, dp) s).result.warnings) ∧
    (∀ (fuel : Nat) (s : ForwardState), s.electrsDisabled = true →
      (tfLoop env maxDepth fuel s).electrsDisabled = true ∧
      (tfLoop env maxDepth fuel s).electrsLookupCount = s.electrsLookupCount ∧
      (tfLoop env maxDepth fuel s).result.edges = s.result.edges ∧
      (∀ n ∈ (tfLoop env maxDepth fuel s).result.nodes,
          n ∈ s.result.nodes ∨ n.spentByTxid = none) ∧
      (∀ w ∈ s.result.warnings, w ∈ (tfLoop env maxDepth fuel s).result.warnings)) := by
  constructor
  · intro ctx cv dp s tx hv hdp htx hvo hsp helec hfs hfail
    exact tfStep_disable_event env maxDepth ctx cv dp s tx hv hdp htx hvo hsp helec hfs hfail
  · intro fuel s h
    exact tfLoop_disabled env maxDepth fuel s h

/-! ### Concrete example runs and witnesses for C2, C3, C7, C8 -/

def fTxA : Tx := { txid := "A", vin := [{}], vout := [{ value := 1, address := some "addr" }] }

def envF : TraceEnv :=
  { getTx := fun t => if t = "A" then some fTxA else none
    getTxOut := fun _ _ => true
    findSpendingTx := fun _ _ _ => none
    electrsEnabled := false }

def fNode : UTXONode :=
  { txid := "A", vout := 0, valueSats := 100000000, address := some "addr"
    scriptType := "unknown", status := .unspent, blockHeight := none
    depth := 0, coinjoinScore := 0 }

theorem envF_getTxA : envF.getTx "A" = some fTxA := rfl

theorem fTxA_score : calcCoinjoinScoreFast fTxA = 0 := by
  norm_num [calcCoinjoinScoreFast, fTxA]

def fS1 : ForwardState :=
  { result := { startTxid := "A", startVout := 0, direction := "forward", maxDepth := 10,
                electrsEnabled := false,
                warnings := ["Electrs not available - forward tracing limited. Can identify spent UTXOs but cannot follow to spending transaction."],
                nodes := [fNode], unspentEndpoints := [fNode],
                totalValueTracedSats := 100000000 },
    queue := [], visited := [("A", 0)], txCount := 1 }

theorem fwd_step : tfStep envF 10 ("A", 0, 0)
    { result := { startTxid := "A", startVout := 0, direction := "forward", maxDepth := 10,
                    electrsEnabled := false,
                    warnings := ["Electrs not available - forward tracing limited. Can identify spent UTXOs but cannot follow to spending transaction."] },
      queue := [], visited := [] } = fS1 := by
  have hncj : ¬ (7/10 < calcCoinjoinScoreFast fTxA ∧
      "A" ∉ ({ startTxid := "A", startVout := 0, direction := "forward", maxDepth := 10,
                    electrsEnabled := false,
                    warnings := ["Electrs not available - forward tracing limited. Can identify spent UTXOs but cannot follow to spending transaction."] } : TraceResult).coinjoinTxids) := by
    rw [fTxA_score]
    intro c
    exact absurd c.1 (by norm_num)
  unfold tfStep
  try dsimp only
  rw [if_neg (List.not_mem_nil _)]
  rw [if_neg (by decide : ¬ (10:Nat) < 0)]
  simp only [envF_getTxA]
  try dsimp only
  rw [dif_pos (by decide : 0 < fTxA.vout.length)]
  rw [if_neg hncj]
  rw [if_pos (by decide : envF.getTxOut "A" 0 = true)]
  try dsimp only
  have hs2 := fTxA_score
  simp only [fTxA] at hs2
  simp only [fTxA, fS1, fNode]
  norm_num [hs2, satsOf, ForwardState.mk.injEq, TraceResult.mk.injEq, UTXONode.mk.injEq]

theorem fwd_loop : tfLoop envF 10 2
    { result := { startTxid := "A", startVout := 0, direction := "forward", maxDepth := 10,
                    electrsEnabled := false,
                    warnings := ["Electrs not available - forward tracing limited. Can identify spent UTXOs but cannot follow to spending transaction."] },
      queue := [("A", 0, 0)], visited := [] } = fS1 := by
  rw [show (2:Nat) = 1 + 1 from rfl]
  unfold tfLoop
  rw [if_pos (by decide : ([("A", 0, 0)] : List (String × Nat × Nat)) ≠ [] ∧ (0:Nat) < MAX_TRANSACTIONS_PER_TRACE)]
  rw [if_neg (by decide : ¬ MAX_QUEUE_SIZE < ([("A", 0, 0)] : List (String × Nat × Nat)).length)]
  try dsimp only
  rw [fwd_step]
  rw [show (1:Nat) = 0 + 1 from rfl]
  unfold tfLoop
  rw [if_neg (by simp [fS1, MAX_TRANSACTIONS_PER_TRACE] : ¬ (fS1.queue ≠ [] ∧ fS1.txCount < MAX_TRANSACTIONS_PER_TRACE))]

theorem fwdExample_nodes :
    (traceForward envF "A" 0 none 2).nodes = [fNode] ∧
    (traceForward envF "A" 0 none 2).maxDepth = 10 := by
  have hmd : min ((none : Option Nat).getD DEFAULT_TRACE_DEPTH) MAX_TRACE_DEPTH = 10 := by decide
  have hw : (if envF.electrsEnabled = true then ([] : List String)
      else ["Electrs not available - forward tracing limited. Can identify spent UTXOs but cannot follow to spending transaction."])
      = ["Electrs not available - forward tracing limited. Can identify spent UTXOs but cannot follow to spending transaction."] := rfl
  simp only [traceForward, hmd, hw]
  rw [show (envF.electrsEnabled : Bool) = false from rfl]
  rw [fwd_loop]
  rw [if_neg (by simp [fS1, MAX_TRANSACTIONS_PER_TRACE] : ¬ MAX_TRANSACTIONS_PER_TRACE ≤ fS1.txCount)]
  exact ⟨rfl, rfl⟩

def bTxA : Tx :=
  { txid := "A", vin := [{ hasCoinbase := true }], vout := [{ value := 1, address := some "addr" }] }

def envB : TraceEnv :=
  { getTx := fun t => if t = "A" then some bTxA else none
    getTxOut := fun _ _ => false
    findSpendingTx := fun _ _ _ => none
    electrsEnabled := false }

def bNode : UTXONode :=
  { txid := "A", vout := 0, valueSats := 100000000, address := some "addr"
    scriptType := "coinbase", status := .coinbase, blockHeight := none, depth := 0 }

def bS1 : BackwardState :=
  { result := { startTxid := "A", startVout := 0, direction := "backward", maxDepth := 10,
                electrsEnabled := false,
                nodes := [bNode], coinbaseOrigins := [bNode] },
    queue := [], visited := ["A"], txCount := 1 }

theorem bwd_step : tbStep envB 10 ("A", 0)
    { result := { startTxid := "A", startVout := 0, direction := "backward", maxDepth := 10,
                    electrsEnabled := false },
      queue := [], visited := [] } = bS1 := by
  unfold tbStep
  try dsimp only
  rw [if_neg (List.not_mem_nil _)]
  rw [if_neg (by decide : ¬ (10:Nat) < 0)]
  simp only [show envB.getTx "A" = some bTxA from rfl]
  try dsimp only
  rw [if_pos (by decide : (bTxA.vin.any fun x => x.hasCoinbase) = true)]
  try dsimp only
  simp only [bTxA, bS1, bNode]
  norm_num [satsOf, BackwardState.mk.injEq, TraceResult.mk.injEq, UTXONode.mk.injEq]

theorem bwd_loop : tbLoop envB 10 2
    { result := { startTxid := "A", startVout := 0, direction := "backward", maxDepth := 10,
                    electrsEnabled := false },
      queue := [("A", 0)], visited := [] } = bS1 := by
  rw [show (2:Nat) = 1 + 1 from rfl]
  unfold tbLoop
  rw [if_pos (by decide : ([("A", 0)] : List (String × Nat)) ≠ [] ∧ (0:Nat) < MAX_TRANSACTIONS_PER_TRACE)]
  rw [if_neg (by decide : ¬ MAX_QUEUE_SIZE < ([("A", 0)] : List (String × Nat)).length)]
  try dsimp only
  rw [bwd_step]
  rw [show (1:Nat) = 0 + 1 from rfl]
  unfold tbLoop
  rw [if_neg (by simp [bS1, MAX_TRANSACTIONS_PER_TRACE] : ¬ (bS1.queue ≠ [] ∧ bS1.txCount < MAX_TRANSACTIONS_PER_TRACE))]

theorem bwdExample_nodes :
    (traceBackward envB "A" none 2).nodes = [bNode] ∧
    (traceBackward envB "A" none 2).maxDepth = 10 := by
  have hmd : min ((none : Option Nat).getD DEFAULT_TRACE_DEPTH) MAX_TRACE_DEPTH = 10 := by decide
  simp only [traceBackward, hmd]
  rw [show (envB.electrsEnabled : Bool) = false from rfl]
  rw [bwd_loop]
  rw [if_neg (by simp [bS1, MAX_TRANSACTIONS_PER_TRACE] : ¬ MAX_TRANSACTIONS_PER_TRACE ≤ bS1.txCount)]
  exact ⟨rfl, rfl⟩

def kTxA : Tx := { txid := "A", vin := [{}], vout := [{ value := 1, address := some "addr" }] }

def envK : TraceEnv :=
  { getTx := fun t => if t = "A" then some kTxA else none
    getTxOut := fun _ _ => true
    findSpendingTx := fun _ _ _ => none
    electrsEnabled := false }

def kNode : PathNode :=
  { txid := "A", vout := 0, valueSats := 100000000, address := some "addr"
    blockHeight := none, isCoinjoin := false, coinjoinScore := 0
    coinjoinCountInPath := 0, coinjoinProtocol := "none", anonymitySetSize := 0
    depth := 0, isChange := false, changeProbability := 1/10
    cumulativeConfidence := 19/20 }

def kDest : ProbableDestination :=
  { address := "addr", valueSats := 100000000, confidenceScore := 19/20
    confidenceLevel := .high, pathLength := 1, coinjoinsPassed := 0
    trailStatus := .deadEnd, path := [kNode] }

theorem kTxA_score : calcCoinjoinScore kTxA = 0 := by
  norm_num [calcCoinjoinScore, kTxA]

theorem kTxA_cjb : decide (COINJOIN_THRESHOLD ≤ calcCoinjoinScore kTxA) = false := by
  apply decide_eq_false
  rw [kTxA_score]
  norm_num [COINJOIN_THRESHOLD]

theorem kTxA_conf : nodeStepConfidence kTxA (kycPrev []) = 19/20 := by
  rw [show kycPrev ([] : List PathNode) = 1 from rfl]
  rw [nodeStepConfidence_plain kTxA 1 (by rw [kTxA_score]; norm_num [COINJOIN_THRESHOLD])]
  norm_num

theorem kTxA_change :
    detectChangeOutput kTxA (kTxA.vin.filterMap fun vin => vin.prevout.bind fun x => x.address)
      0 100000000 = (false, 1/10) := by
  norm_num [detectChangeOutput, detectUnnecessaryInputs, kTxA, satsOf, List.max?,
    Prod.ext_iff]
  rw [if_neg (fun h => Option.noConfusion h)]
  norm_num [min_def]

def kItem0 : KYCQueueItem :=
  { txid := "A", vout := 0, depth := 0, coinjoinCount := 0, path := []
    trackedValue := 100000000, confidence := 1 }

def kS1 : KYCState :=
  { queue := [], visited := [("A", 0)], destinations := [kDest], txCount := 1
    totalTracedSats := 100000000 }

theorem kyc_step : kycStep envK 3 100000000 kItem0
    { queue := [], visited := [], destinations := [] } = kS1 := by
  unfold kycStep
  simp only [kItem0]
  rw [if_neg (List.not_mem_nil _)]
  rw [if_neg (by decide : ¬ (3:Nat) < 0)]
  simp only [show envK.getTx "A" = some kTxA from rfl]
  rw [dif_pos (by decide : 0 < kTxA.vout.length)]
  simp only [kTxA_cjb, Bool.false_eq_true, false_and, if_false]
  try dsimp only
  simp only [kTxA_conf]
  rw [if_neg (by norm_num [CONFIDENCE_COLD_THRESHOLD] : ¬ (19/20 : ℚ) < CONFIDENCE_COLD_THRESHOLD)]
  rw [if_pos (by decide : envK.getTxOut "A" 0 = true)]
  simp only [kTxA_change, List.nil_append]
  have hs2 := kTxA_score
  simp only [kTxA] at hs2
  simp only [kTxA]
  try dsimp only
  norm_num [kS1, kDest, kNode, satsOf, hs2,
    calcPathConfidence, getConfidenceLevel, min_def, max_def, List.filter,
    KYCState.mk.injEq, ProbableDestination.mk.injEq, PathNode.mk.injEq]

theorem kyc_loop : kycLoop envK 3 100000000 2
    { queue := [kItem0], visited := [], destinations := [] } = kS1 := by
  rw [show (2:Nat) = 1 + 1 from rfl]
  unfold kycLoop
  rw [if_pos (by decide : ([kItem0] : List KYCQueueItem) ≠ [] ∧ (0:Nat) < KYC_MAX_TRANSACTIONS)]
  rw [if_neg (by decide : ¬ MAX_QUEUE_SIZE < ([kItem0] : List KYCQueueItem).length)]
  try dsimp only
  rw [kyc_step]
  rw [show (1:Nat) = 0 + 1 from rfl]
  unfold kycLoop
  rw [if_neg (by simp [kS1, KYC_MAX_TRANSACTIONS] : ¬ (kS1.queue ≠ [] ∧ kS1.txCount < KYC_MAX_TRANSACTIONS))]

theorem kycExample_dests :
    (traceKycWithdrawal envK "A" "addr" "quick" 2).probableDestinations = [kDest] ∧
    (traceKycWithdrawal envK "A" "addr" "quick" 2).traceDepth = 3 := by
  have hmd : min (presetDepth "quick") KYC_MAX_DEPTH = 3 := by decide
  have hfind : (kTxA.vout.enum.find? fun q => q.2.address == some "addr")
      = some (0, { value := 1, address := some "addr", scriptType := none }) := rfl
  have hsv : satsOf (1 : ℚ) = 100000000 := by norm_num [satsOf]
  simp only [traceKycWithdrawal, hmd]
  simp only [show envK.getTx "A" = some kTxA from rfl]
  simp only [hfind]
  try dsimp only
  simp only [hsv]
  rw [show ({ txid := "A", vout := 0, depth := 0, coinjoinCount := 0, path := [],
              trackedValue := 100000000, confidence := 1 } : KYCQueueItem) = kItem0 from rfl]
  rw [kyc_loop]
  constructor
  · show List.mergeSort kS1.destinations _ = [kDest]
    simp [kS1]
  · first | rfl | trivial

theorem kyc_confidence_monotonicity_witness :
    kDest ∈ (traceKycWithdrawal envK "A" "addr" "quick" 2).probableDestinations ∧
    (∀ n ∈ kDest.path, 1/1000 ≤ n.cumulativeConfidence) ∧
    kDest.path.Chain' (fun parent child =>
      child.cumulativeConfidence ≤ parent.cumulativeConfidence * (11/10)) := by
  have hm : kDest ∈ (traceKycWithdrawal envK "A" "addr" "quick" 2).probableDestinations := by
    rw [kycExample_dests.1]
    exact List.mem_singleton.mpr rfl
  obtain ⟨h1, h2⟩ := kyc_confidence_monotonicity envK "A" "addr" "quick" 2 kDest hm
  exact ⟨hm, h1, h2⟩

def c3Tx : Tx := { txid := "C", vin := [{}], vout := [{ value := 1 }] }

def c3Env : TraceEnv :=
  { getTx := fun t => if t = "C" then some c3Tx else none
    getTxOut := fun _ _ => false
    findSpendingTx := fun _ _ _ => none
    electrsEnabled := false }

def c3Node : PathNode :=
  { txid := "X", vout := 0, valueSats := 0, address := none, blockHeight := none
    isCoinjoin := false, coinjoinScore := 0, coinjoinCountInPath := 0
    coinjoinProtocol := "none", anonymitySetSize := 0, depth := 0
    isChange := false, changeProbability := 0, cumulativeConfidence := 1/100 }

def c3Item : KYCQueueItem :=
  { txid := "C", vout := 0, depth := 1, coinjoinCount := 0, path := [c3Node]
    trackedValue := 0, confidence := 1/100 }

def c3S : KYCState := { queue := [], visited := [], destinations := [] }

theorem kyc_cold_trail_pruning_witness :
    ((c3Item.txid, c3Item.vout) ∉ c3S.visited
      ∧ ¬ (3:Nat) < c3Item.depth
      ∧ c3Env.getTx c3Item.txid = some c3Tx
      ∧ c3Item.vout < c3Tx.vout.length
      ∧ nodeStepConfidence c3Tx (kycPrev c3Item.path) < CONFIDENCE_COLD_THRESHOLD
      ∧ ∃ dest : ProbableDestination,
          (kycStep c3Env 3 0 c3Item c3S).destinations = c3S.destinations ++ [dest] ∧
          dest.trailStatus = .cold ∧
          (kycStep c3Env 3 0 c3Item c3S).queue = c3S.queue)
    ∧ (kDest ∈ (traceKycWithdrawal envK "A" "addr" "quick" 2).probableDestinations
      ∧ ∀ n ∈ kDest.path.dropLast, CONFIDENCE_COLD_THRESHOLD ≤ n.cumulativeConfidence) := by
  have hv : (c3Item.txid, c3Item.vout) ∉ c3S.visited := List.not_mem_nil _
  have hdp : ¬ (3:Nat) < c3Item.depth := by decide
  have htx : c3Env.getTx c3Item.txid = some c3Tx := rfl
  have hvo : c3Item.vout < c3Tx.vout.length := by decide
  have hscore : calcCoinjoinScore c3Tx = 0 := by
    norm_num [calcCoinjoinScore, c3Tx]
  have hprev : kycPrev c3Item.path = 1/100 := rfl
  have hcold : nodeStepConfidence c3Tx (kycPrev c3Item.path) < CONFIDENCE_COLD_THRESHOLD := by
    rw [hprev, nodeStepConfidence_plain c3Tx (1/100)
      (by rw [hscore]; norm_num [COINJOIN_THRESHOLD])]
    norm_num [CONFIDENCE_COLD_THRESHOLD]
  obtain ⟨dest, hd1, hd2, hd3, hd4, hd5⟩ :=
    (kyc_cold_trail_pruning c3Env).1 3 0 c3Item c3S c3Tx hv hdp htx hvo hcold
  have hm : kDest ∈ (traceKycWithdrawal envK "A" "addr" "quick" 2).probableDestinations := by
    rw [kycExample_dests.1]
    exact List.mem_singleton.mpr rfl
  exact ⟨⟨hv, hdp, htx, hvo, hcold, dest, hd1, hd2, hd5⟩,
         hm, (kyc_cold_trail_pruning envK).2 "A" "addr" "quick" 2 kDest hm⟩

def fwdS5 : ForwardState :=
  { result := { startTxid := "t", startVout := 0, direction := "forward", maxDepth := 1 }
    queue := [], visited := [] }

def bwdS5 : BackwardState :=
  { result := { startTxid := "t", startVout := 0, direction := "backward", maxDepth := 1 }
    queue := [], visited := [] }

def kItem5 : KYCQueueItem :=
  { txid := "t", vout := 0, depth := 5, coinjoinCount := 0, path := []
    trackedValue := 0, confidence := 1 }

theorem trace_depth_respected_witness :
    (fNode ∈ (traceForward envF "A" 0 none 2).nodes
      ∧ fNode.depth ≤ (traceForward envF "A" 0 none 2).maxDepth)
    ∧ (bNode ∈ (traceBackward envB "A" none 2).nodes
      ∧ bNode.depth ≤ (traceBackward envB "A" none 2).maxDepth)
    ∧ (kDest ∈ (traceKycWithdrawal envK "A" "addr" "quick" 2).probableDestinations
      ∧ kNode ∈ kDest.path
      ∧ kNode.depth ≤ (traceKycWithdrawal envK "A" "addr" "quick" 2).traceDepth)
    ∧ ((1:Nat) < ("t", 0, 5).2.2
      ∧ (tfStep envF 1 ("t", 0, 5) fwdS5).queue = fwdS5.queue)
    ∧ ((1:Nat) < ("t", 5).2
      ∧ (tbStep envB 1 ("t", 5) bwdS5).queue = bwdS5.queue)
    ∧ ((1:Nat) < kItem5.depth
      ∧ (kycStep envK 1 0 kItem5 c3S).queue = c3S.queue) := by
  have hf : fNode ∈ (traceForward envF "A" 0 none 2).nodes := by
    rw [fwdExample_nodes.1]
    exact List.mem_singleton.mpr rfl
  have hb : bNode ∈ (traceBackward envB "A" none 2).nodes := by
    rw [bwdExample_nodes.1]
    exact List.mem_singleton.mpr rfl
  have hk : kDest ∈ (traceKycWithdrawal envK "A" "addr" "quick" 2).probableDestinations := by
    rw [kycExample_dests.1]
    exact List.mem_singleton.mpr rfl
  have hkn : kNode ∈ kDest.path := List.mem_singleton.mpr rfl
  refine ⟨⟨hf, (trace_depth_respected envF).1 "A" 0 none 2 fNode hf⟩,
          ⟨hb, (trace_depth_respected envB).2.1 "A" none 2 bNode hb⟩,
          ⟨hk, hkn, (trace_depth_respected envK).2.2.1 "A" "addr" "quick" 2 kDest hk kNode hkn⟩,
          ⟨by decide, (trace_depth_respected envF).2.2.2.1 1 ("t", 0, 5) fwdS5 (by decide)⟩,
          ⟨by decide, (trace_depth_respected envB).2.2.2.2.1 1 ("t", 5) bwdS5 (by decide)⟩,
          ⟨by decide, (trace_depth_respected envK).2.2.2.2.2 1 0 kItem5 c3S (by decide)⟩⟩

def c7Tx : Tx := { txid := "E", vin := [{}], vout := [{ value := 1, address := some "ea" }] }

def envE : TraceEnv :=
  { getTx := fun t => if t = "E" then some c7Tx else none
    getTxOut := fun _ _ => false
    findSpendingTx := fun _ _ _ => none
    electrsEnabled := true }

def c7S : ForwardState :=
  { result := { startTxid := "E", startVout := 0, direction := "forward", maxDepth := 2 }
    queue := [], visited := [], consecutiveElectrsFailures := 2 }

def c7SD : ForwardState :=
  { result := { startTxid := "E", startVout := 0, direction := "forward", maxDepth := 2 }
    queue := [], visited := [], electrsDisabled := true }

theorem forward_electrs_failfast_witness :
    (c7S.consecutiveElectrsFailures = 2
      ∧ (tfStep envE 2 ("E", 0, 0) c7S).electrsDisabled = true
      ∧ "Electrs disabled after 3 consecutive failures - continuing without forward tracing"
          ∈ (tfStep envE 2 ("E", 0, 0) c7S).result.warnings)
    ∧ (c7SD.electrsDisabled = true
      ∧ (tfLoop envE 2 1 c7SD).electrsDisabled = true
      ∧ (tfLoop envE 2 1 c7SD).electrsLookupCount = c7SD.electrsLookupCount
      ∧ (tfLoop envE 2 1 c7SD).result.edges = c7SD.result.edges) := by
  have hvo : (0:Nat) < c7Tx.vout.length := by decide
  have haddr : (c7Tx.vout.get ⟨0, by decide⟩).address.isSome = true := by decide
  obtain ⟨e1, e2⟩ := (forward_electrs_failfast envE 2).1 "E" 0 0 c7S c7Tx
    (List.not_mem_nil _) (by decide) rfl hvo rfl
    ⟨rfl, haddr, by decide, by decide⟩ rfl rfl
  obtain ⟨l1, l2, l3, l4, l5⟩ := (forward_electrs_failfast envE 2).2 1 c7SD rfl
  exact ⟨⟨rfl, e1, e2⟩, rfl, l1, l2, l3⟩

end ChainForensics
